import Mathlib

/-!
# Proof-of-work rules of BCRM (`src/pow.cpp`, `src/chainparams.cpp`)

A shallow embedding of the difficulty retargeting and proof-of-work checking
code, and theorems about it.

Conventions of the embedding.

* `arith_uint256` values are natural numbers; every operation that the C++ type
  performs on 256 bits is followed by an explicit `% 2 ^ 256`.
* `int` and `int64_t` values are integers.  Where the source stores a 64-bit
  value into an `int` (the accumulator `t` of the LWMA loop, `nHeightFirst`) the
  narrowing is modelled by `toInt32`; the `int` product `k * N` is wrapped the
  same way.  64-bit quantities (block times, `T`, `FTL`) are not wrapped.
  Conversions of a signed value to the unsigned 64-bit argument of an
  `arith_uint256` constructor are modelled by `toUint64`.
* In `pow.cpp` an assertion failure, a null ancestor dereference or a division
  by zero is the result `none`.  In `chainparams.cpp`, where the code also
  throws, a call ends in an `Outcome`: a value, a thrown error or an abort.
* The address, key and script primitives that `chainparams.cpp` calls are
  parameters (`ScriptOps`); the `double` arithmetic of the signature count is
  modelled exactly, as binary64 values scaled by `2 ^ 53`.
* A chain tip `pindexLast` is a height together with the block stored at every
  height below it (the chain is contiguous back to genesis).
-/

namespace BCRM

set_option maxRecDepth 1000000

/-! ## Machine arithmetic -/

/-- The modulus of 256-bit unsigned arithmetic. -/
def two256 : Nat := 2 ^ 256

/-- Conversion of a signed integer to `uint64_t` (reduction modulo `2 ^ 64`). -/
def toUint64 (x : Int) : Nat := (x % (2 ^ 64 : Int)).toNat

/-- Conversion of a signed integer to `uint32_t` (reduction modulo `2 ^ 32`). -/
def toUint32 (x : Int) : Nat := (x % (2 ^ 32 : Int)).toNat

/-- Narrowing of a 64-bit signed value to a 32-bit `int` (two's complement). -/
def toInt32 (x : Int) : Int := (x + 2 ^ 31) % (2 ^ 32 : Int) - 2 ^ 31

/-- The operator `+=` of `arith_uint256` (`arith_uint256.h` is not among the
sources), taken as fixed-width unsigned arithmetic: the low 256 bits of the
exact sum.  The specification words this arithmetic as saturating at the
ceiling; the two readings agree whenever the exact sum is below `2 ^ 256`. -/
def add256 (a b : Nat) : Nat := (a + b) % two256

/-- The operator `*` of `arith_uint256` (`arith_uint256.h` is not among the
sources), taken as fixed-width unsigned arithmetic: the low 256 bits of the
exact product.  The specification words this arithmetic as saturating at the
ceiling; the two readings agree whenever the exact product is below
`2 ^ 256`. -/
def mul256 (a b : Nat) : Nat := (a * b) % two256

/-- Modelled from the spec: `UintToArith256` (`arith_uint256.h` is not among the
sources), the numeric value of a `uint256` blob, on 256 bits. -/
def UintToArith256 (x : Nat) : Nat := x % two256

/-! ## Compact encoding of targets -/

/-- The three outputs of `arith_uint256::SetCompact`. -/
structure CompactTarget where
  value : Nat
  fNegative : Bool
  fOverflow : Bool
deriving DecidableEq, Repr

/-- Modelled from the spec: `arith_uint256::SetCompact` (`arith_uint256.cpp` is
not among the sources).  The top byte of the 32-bit word is the exponent, a
number of bytes; the low 23 bits are the mantissa and bit 23 is its sign.  The
value is the mantissa shifted to the byte position given by the exponent, kept
on 256 bits.  The negative flag is set for a non-zero mantissa with the sign
bit; the overflow flag is set when a non-zero mantissa is shifted past bit
255. -/
def SetCompact (nCompact : Nat) : CompactTarget :=
  let nSize := nCompact / 2 ^ 24
  let nWord0 := nCompact % 2 ^ 23
  let nWord := if nSize ≤ 3 then nWord0 / 2 ^ (8 * (3 - nSize)) else nWord0
  { value := if nSize ≤ 3 then nWord else (nWord * 2 ^ (8 * (nSize - 3))) % two256
    fNegative := decide (nWord ≠ 0) && decide (nCompact / 2 ^ 23 % 2 = 1)
    fOverflow := decide (nWord ≠ 0) &&
      (decide (nSize > 34) || (decide (nWord > 0xff) && decide (nSize > 33)) ||
        (decide (nWord > 0xffff) && decide (nSize > 32))) }

/-- Number of significant bytes of `x`, counting at most `fuel` bytes. -/
def byteLen : Nat → Nat → Nat
  | 0, _ => 0
  | fuel + 1, x => if x = 0 then 0 else byteLen fuel (x / 256) + 1

/-- Modelled from the spec: `arith_uint256::GetCompact` with its default
argument (`arith_uint256.cpp` is not among the sources).  The exponent is the
number of significant bytes of the 256-bit value, the mantissa its three most
significant bytes; when the mantissa would have bit 23 (the sign bit) set it is
shifted down one more byte and the exponent is incremented. -/
def GetCompact (x : Nat) : Nat :=
  let nSize := byteLen 32 x
  let nCompact := if nSize ≤ 3 then x * 2 ^ (8 * (3 - nSize)) else x / 2 ^ (8 * (nSize - 3))
  if nCompact / 2 ^ 23 % 2 = 1 then nCompact / 2 ^ 8 + (nSize + 1) * 2 ^ 24
  else nCompact + nSize * 2 ^ 24

/-! ## Consensus parameters and chain view -/

/-- The fields of `Consensus::Params` read by `pow.cpp` and the premine window
set next to them in `chainparams.cpp`, with the names used there. -/
structure Params where
  BCRMHeight : Int
  BCRMPremineWindow : Int
  BCRMHeightRegular : Int
  powLimit : Nat
  powLimitStart : Nat
  powLimitLegacy : Nat
  nPowTargetTimespanLegacy : Int
  nPowTargetSpacing : Int
  nZawyLwmaAveragingWindow : Int
  nZawyLwmaAdjustedWeight : Int
  nZawyLwmaMinDenominator : Int
  fZawyLwmaSolvetimeLimitation : Bool
  BCRMMaxFutureBlockTime : Int
  fPowAllowMinDifficultyBlocks : Bool
  fPowNoRetargeting : Bool

/-- Modelled from the spec: `Consensus::Params::PowLimit` (`consensus/params.h`
is not among the sources), the network ceiling selector: the post-fork ceiling
when the flag is set, the pre-fork ceiling otherwise. -/
def Params.PowLimit (params : Params) (postfork : Bool) : Nat :=
  if postfork then params.powLimit else params.powLimitLegacy

/-- Modelled from the spec: `Consensus::Params::DifficultyAdjustmentInterval`
(`consensus/params.h` is not among the sources), the quotient
`legacyTargetTimespan / targetSpacing`. -/
def Params.DifficultyAdjustmentInterval (params : Params) : Int :=
  params.nPowTargetTimespanLegacy.tdiv params.nPowTargetSpacing

/-- The fields of a `CBlockIndex` read by `pow.cpp`: `nTime` and `nBits`, both
32-bit unsigned.  The height is the position in the chain. -/
structure CBlockIndex where
  nTime : Nat
  nBits : Nat
deriving DecidableEq, Repr

/-- The candidate header `pblock`; only its time is read. -/
structure CBlockHeader where
  nTime : Nat
deriving DecidableEq, Repr

/-- A chain tip: the tip height and the block at every height up to it. -/
structure Chain where
  nHeight : Nat
  block : Nat → CBlockIndex

/-- The tip block itself (`*pindexLast`). -/
def Chain.tip (c : Chain) : CBlockIndex := c.block c.nHeight

/-- `CBlockIndex::GetAncestor`: null when the height is negative or above the
tip, the block at that height otherwise. -/
def Chain.GetAncestor (c : Chain) (height : Int) : Option CBlockIndex :=
  if height > c.nHeight ∨ height < 0 then none else some (c.block height.toNat)

/-- `CBlockIndex::GetBlockTime`: the 32-bit time as a signed 64-bit value. -/
def CBlockIndex.GetBlockTime (b : CBlockIndex) : Int := (b.nTime : Int)

/-- `CBlockHeader::GetBlockTime`. -/
def CBlockHeader.GetBlockTime (b : CBlockHeader) : Int := (b.nTime : Int)

/-! ## `CheckProofOfWork` -/

/-- `CheckProofOfWork` (pow.cpp:220-237).  `hash` is the numeric value of the
block hash. -/
def CheckProofOfWork (hash : Nat) (nBits : Nat) (postfork : Bool) (params : Params) : Bool :=
  let d := SetCompact nBits
  if d.fNegative || decide (d.value = 0) || d.fOverflow ||
      decide (d.value > UintToArith256 (params.PowLimit postfork)) then false
  else if UintToArith256 hash > d.value then false
  else true

/-! ## The LWMA algorithm, `CalculateNextWorkRequired` -/

/-- The variables updated by the loop of `CalculateNextWorkRequired`. -/
structure LwmaState where
  t : Int
  j : Int
  sum_3_st : Int
  sum_target : Nat
deriving DecidableEq, Repr

/-- The solve time of the block at height `i` after the optional limitation
(pow.cpp:67-74). -/
def limitedSolvetime (T FTL : Int) (limit_st : Bool) (solvetime : Int) : Int :=
  if limit_st then
    if solvetime > 6 * T then 6 * T
    else if solvetime < -FTL then -FTL
    else solvetime
  else solvetime

/-- One iteration of the loop (pow.cpp:65-85) for the block at height `i`.  The
accumulator `t` is an `int`; the divisor `k * N` is an `int` converted to the
unsigned 64-bit argument of the `arith_uint256` constructor, and a zero divisor
aborts. -/
def lwmaStep (c : Chain) (params : Params) (height : Int) (i : Int) (s : LwmaState) :
    Option LwmaState :=
  match c.GetAncestor i, c.GetAncestor (i - 1) with
  | some block, some block_Prev =>
    let T := params.nPowTargetSpacing
    let FTL := params.BCRMMaxFutureBlockTime
    let N := params.nZawyLwmaAveragingWindow
    let k := params.nZawyLwmaAdjustedWeight
    let solvetime := limitedSolvetime T FTL params.fZawyLwmaSolvetimeLimitation
      (block.GetBlockTime - block_Prev.GetBlockTime)
    let j := s.j + 1
    let t := toInt32 (s.t + solvetime * j)
    let sum_3_st := if i ≥ height - 3 then s.sum_3_st + solvetime else s.sum_3_st
    let target := (SetCompact block.nBits).value
    let divisor := toUint64 (toInt32 (k * N))
    if divisor = 0 then none
    else some { t := t, j := j, sum_3_st := sum_3_st,
                sum_target := add256 s.sum_target (target / divisor) }
  | _, _ => none

/-- The loop `for (int i = height - N; i < height; i++)`, entered at height `i`
with `n` iterations left; from `height - N` there are `N` of them (none when
`N ≤ 0`). -/
def lwmaLoop (c : Chain) (params : Params) (height : Int) : Nat → Int → LwmaState →
    Option LwmaState
  | 0, _, s => some s
  | n + 1, i, s =>
    match lwmaStep c params height i s with
    | none => none
    | some s1 => lwmaLoop c params height n (i + 1) s1

/-- The state at the exit of the loop, started from zero at `height - N`. -/
def lwmaWindow (c : Chain) (params : Params) : Option LwmaState :=
  let height : Int := c.nHeight + 1
  let N := params.nZawyLwmaAveragingWindow
  lwmaLoop c params height N.toNat (height - N) { t := 0, j := 0, sum_3_st := 0, sum_target := 0 }

/-- The weighted time after the floor `if (t < k / dnorm) t = k / dnorm`
(pow.cpp:89-92). -/
def flooredT (params : Params) (t : Int) : Int :=
  let q := params.nZawyLwmaAdjustedWeight.tdiv params.nZawyLwmaMinDenominator
  if t < q then q else t

/-- The value `t * sum_target` (pow.cpp:95): `t` is converted to an unsigned
64-bit value and the product is taken on 256 bits. -/
def initialNextTarget (params : Params) (s : LwmaState) : Nat :=
  mul256 (toUint64 (flooredT params s.t)) s.sum_target

/-- The expression `prev_target * a / b` of the source: a 256-bit product by a
32-bit constant followed by a 256-bit division. -/
def scale256 (prev_target a b : Nat) : Nat := mul256 prev_target a / b

/-- The clamp to the 67%-150% band (pow.cpp:102-109). -/
def clampBand (prev_target next_target : Nat) : Nat :=
  if next_target > scale256 prev_target 150 100 then scale256 prev_target 150 100
  else if next_target < scale256 prev_target 100 150 then scale256 prev_target 100 150
  else next_target

/-- The cap applied when the last three blocks were fast (pow.cpp:113-119). -/
def fastMiningCap (T sum_3_st : Int) (prev_target next_target : Nat) : Nat :=
  if sum_3_st < (T * 80).tdiv 100 then
    if next_target > scale256 prev_target 100 106 then scale256 prev_target 100 106
    else next_target
  else next_target

/-- The final clamp to the post-fork ceiling (pow.cpp:121-124). -/
def clampPowLimit (pow_limit next_target : Nat) : Nat :=
  if next_target > pow_limit then pow_limit else next_target

/-- The value of `next_target` right after the band clamp (pow.cpp:109). -/
def nextTargetAfterBand (c : Chain) (params : Params) (s : LwmaState) : Nat :=
  clampBand (SetCompact c.tip.nBits).value (initialNextTarget params s)

/-- The value of `next_target` handed to `GetCompact` (pow.cpp:126). -/
def finalNextTarget (c : Chain) (params : Params) (s : LwmaState) : Nat :=
  let prev_target := (SetCompact c.tip.nBits).value
  clampPowLimit (UintToArith256 (params.PowLimit true))
    (fastMiningCap params.nPowTargetSpacing s.sum_3_st prev_target
      (nextTargetAfterBand c params s))

/-- `CalculateNextWorkRequired` (pow.cpp:45-127). -/
def CalculateNextWorkRequired (pindexLast : Chain) (params : Params) : Option Nat :=
  if params.fPowNoRetargeting then some pindexLast.tip.nBits
  else
    let height : Int := pindexLast.nHeight + 1
    if ¬ (height > params.nZawyLwmaAveragingWindow) then none
    else
      match lwmaWindow pindexLast params with
      | none => none
      | some s =>
        if params.nZawyLwmaMinDenominator = 0 then none
        else some (GetCompact (finalNextTarget pindexLast params s))

/-! ## The legacy algorithm -/

/-- `BitcoinCalculateNextWorkRequired` (pow.cpp:168-191).  `bnNew *= x` with a
64-bit signed `x` takes the 32-bit multiplier of `arith_uint256`; `bnNew /= y`
converts `y` to 64 unsigned bits and aborts on zero. -/
def BitcoinCalculateNextWorkRequired (pindexLast : Chain) (nFirstBlockTime : Int)
    (params : Params) : Option Nat :=
  if params.fPowNoRetargeting then some pindexLast.tip.nBits
  else
    let span := params.nPowTargetTimespanLegacy
    let a0 := pindexLast.tip.GetBlockTime - nFirstBlockTime
    let a1 := if a0 < span.tdiv 4 then span.tdiv 4 else a0
    let nActualTimespan := if a1 > span * 4 then span * 4 else a1
    let bnPowLimit := UintToArith256 (params.PowLimit false)
    let bnNew := mul256 (SetCompact pindexLast.tip.nBits).value (toUint32 nActualTimespan)
    if toUint64 span = 0 then none
    else
      let bnNew := bnNew / toUint64 span
      some (GetCompact (if bnNew > bnPowLimit then bnPowLimit else bnNew))

/-- The walk `while (pindex->pprev && pindex->nHeight % interval != 0 &&
pindex->nBits == nProofOfWorkLimit) pindex = pindex->pprev` (pow.cpp:149-150),
started at height `h`; the result is the block where it stops. -/
def lastNonMinDifficulty (c : Chain) (interval : Int) (nProofOfWorkLimit : Nat) :
    Nat → CBlockIndex
  | 0 => c.block 0
  | h + 1 =>
    if ((h + 1 : Nat) : Int).tmod interval ≠ 0 ∧ (c.block (h + 1)).nBits = nProofOfWorkLimit then
      lastNonMinDifficulty c interval nProofOfWorkLimit h
    else c.block (h + 1)

/-- `BitcoinGetNextWorkRequired` (pow.cpp:130-164). -/
def BitcoinGetNextWorkRequired (pindexLast : Chain) (pblock : CBlockHeader)
    (params : Params) : Option Nat :=
  let nProofOfWorkLimit := GetCompact (UintToArith256 (params.PowLimit false))
  if params.nPowTargetSpacing = 0 then none
  else
    let interval := params.DifficultyAdjustmentInterval
    if interval = 0 then none
    else if ((pindexLast.nHeight : Int) + 1).tmod interval ≠ 0 then
      if params.fPowAllowMinDifficultyBlocks then
        if pblock.GetBlockTime > pindexLast.tip.GetBlockTime + params.nPowTargetSpacing * 2 then
          some nProofOfWorkLimit
        else
          some (lastNonMinDifficulty pindexLast interval nProofOfWorkLimit pindexLast.nHeight).nBits
      else some pindexLast.tip.nBits
    else
      let nHeightFirst : Int := toInt32 (pindexLast.nHeight - (interval - 1))
      if ¬ (nHeightFirst ≥ 0) then none
      else
        match pindexLast.GetAncestor nHeightFirst with
        | none => none
        | some pindexFirst =>
          BitcoinCalculateNextWorkRequired pindexLast pindexFirst.GetBlockTime params

/-! ## `GetNextWorkRequired` -/

/-- `GetNextWorkRequired` (pow.cpp:17-42). -/
def GetNextWorkRequired (pindexLast : Chain) (pblock : CBlockHeader) (params : Params) :
    Option Nat :=
  let nHeight : Int := pindexLast.nHeight + 1
  if nHeight < params.BCRMHeight then
    BitcoinGetNextWorkRequired pindexLast pblock params
  else if nHeight < params.BCRMHeightRegular then
    some (GetCompact (UintToArith256 (params.PowLimit true)))
  else if nHeight < params.BCRMHeightRegular + params.nZawyLwmaAveragingWindow then
    some (GetCompact (UintToArith256 params.powLimitStart))
  else if params.fPowAllowMinDifficultyBlocks ∧
      pblock.GetBlockTime > pindexLast.tip.GetBlockTime + params.nPowTargetSpacing * 20 then
    some (GetCompact (UintToArith256 (params.PowLimit true)))
  else
    CalculateNextWorkRequired pindexLast params

/-! ## The quantities of the LWMA algorithm as plain sums -/

/-- The limited solve time of the block at height `i`: its time minus the time of
its predecessor, clamped to `[-FTL, 6 * T]` when the limitation is enabled. -/
def solvetimeAt (c : Chain) (params : Params) (i : Int) : Int :=
  limitedSolvetime params.nPowTargetSpacing params.BCRMMaxFutureBlockTime
    params.fZawyLwmaSolvetimeLimitation
    ((c.block i.toNat).GetBlockTime - (c.block (i - 1).toNat).GetBlockTime)

/-- The sum of `solvetime * j` over the first `n` heights from `base`, with `j`
counting from 1. -/
def weightedSolvetimes (c : Chain) (params : Params) (base : Int) : Nat → Int
  | 0 => 0
  | n + 1 => weightedSolvetimes c params base n + solvetimeAt c params (base + n) * (n + 1)

/-- The sum of the solve times of those among the first `n` heights from `base`
that are at least `height - 3`. -/
def recentSolvetimes (c : Chain) (params : Params) (height base : Int) : Nat → Int
  | 0 => 0
  | n + 1 => recentSolvetimes c params height base n +
      (if base + n ≥ height - 3 then solvetimeAt c params (base + n) else 0)

/-- The sum of `target / divisor`, truncated at each term, over the first `n`
heights from `base`. -/
def summedTargets (c : Chain) (divisor : Nat) (base : Int) : Nat → Nat
  | 0 => 0
  | n + 1 => summedTargets c divisor base n +
      (SetCompact (c.block (base + n).toNat).nBits).value / divisor

/-- The divisor `k * N` of the loop, an `int` converted to 64 unsigned bits. -/
def lwmaDivisor (params : Params) : Nat :=
  toUint64 (toInt32 (params.nZawyLwmaAdjustedWeight * params.nZawyLwmaAveragingWindow))

/-- The loop variables after `n` iterations from height `base`, as sums. -/
def lwmaStateAfter (c : Chain) (params : Params) (height base : Int) (n : Nat) : LwmaState :=
  { t := toInt32 (weightedSolvetimes c params base n)
    j := n
    sum_3_st := recentSolvetimes c params height base n
    sum_target := summedTargets c (lwmaDivisor params) base n % two256 }

/-- The loop variables at the exit of the loop, as sums over the window of the
`N` heights `height - N .. height - 1`. -/
def lwmaSums (c : Chain) (params : Params) : LwmaState :=
  lwmaStateAfter c params ((c.nHeight : Int) + 1)
    ((c.nHeight : Int) + 1 - params.nZawyLwmaAveragingWindow)
    params.nZawyLwmaAveragingWindow.toNat

/-- The sum of the limited solve times of the (at most three) window heights
that are at least `height - 3`. -/
def recentSolvetimeSum (c : Chain) (params : Params) : Int :=
  recentSolvetimes c params ((c.nHeight : Int) + 1)
    ((c.nHeight : Int) + 1 - params.nZawyLwmaAveragingWindow)
    params.nZawyLwmaAveragingWindow.toNat

/-- The weighted time of the specification: the sum over the window of
`solvetime * j` (`j = 1 .. N` ascending), floored at `k / minDenominator`. -/
def specWeightedTime (c : Chain) (params : Params) : Int :=
  let W := weightedSolvetimes c params
    ((c.nHeight : Int) + 1 - params.nZawyLwmaAveragingWindow)
    params.nZawyLwmaAveragingWindow.toNat
  let q := params.nZawyLwmaAdjustedWeight.tdiv params.nZawyLwmaMinDenominator
  if W < q then q else W

/-- The sum of the specification: `decode(bits) / (k * N)` over the window, the
division truncated at each term. -/
def specSumTarget (c : Chain) (params : Params) : Nat :=
  summedTargets c (params.nZawyLwmaAdjustedWeight * params.nZawyLwmaAveragingWindow).toNat
    ((c.nHeight : Int) + 1 - params.nZawyLwmaAveragingWindow)
    params.nZawyLwmaAveragingWindow.toNat

/-- The unclamped target of the specification, `U = t * sumTarget`, in exact
integers. -/
def specUnclampedTarget (c : Chain) (params : Params) : Int :=
  specWeightedTime c params * (specSumTarget c params : Int)

/-! ## Premine and founders-reward scripts (`chainparams.cpp`) -/

/-- The errors thrown as `std::runtime_error` by the functions of
`chainparams.cpp` embedded here, one per message. -/
inductive ChainParamsError where
  | invalidFoundersCount
  | invalidFoundersHeight
  | badFoundersAddress
  | badPublicKey
  | invalidPublicKey
  | unknownChain
deriving DecidableEq, Repr

/-- The outcome of a call: a returned value, a thrown `std::runtime_error`, or an
abort on a failed `assert`. -/
inductive Outcome (α : Type) where
  | value : α → Outcome α
  | thrown : ChainParamsError → Outcome α
  | aborted : Outcome α
deriving DecidableEq, Repr

/-- The members of `CChainParams` read by the premine and founders-reward
functions, by `CreateChainParams` and by `CheckEquihashSolution`. -/
structure CChainParams where
  strNetworkID : String
  consensus : Params
  nEquihashN : Nat
  nEquihashK : Nat
  vPreminePubkeys : List (List String)
  vFoundersRewardAddress : List String

/-- The items pushed on a script by `CltvMultiSigScript`. -/
inductive ScriptItem where
  | number : Nat → ScriptItem
  | OP_CHECKLOCKTIMEVERIFY : ScriptItem
  | OP_DROP : ScriptItem
  | OP_CHECKMULTISIG : ScriptItem
  | data : String → ScriptItem
deriving DecidableEq, Repr

/-- The address and script primitives used by `chainparams.cpp` and defined
elsewhere (`base58.h`, `pubkey.h`, `script/standard.h`), taken as parameters:
`CBitcoinAddress(s).IsValid()`, `GetScriptForDestination(address.Get())`,
`GetScriptForDestination(CScriptID(redeem_script))`,
`CPubKey(ParseHex(s)).IsFullyValid()` and `GetScriptForRawPubKey`. -/
structure ScriptOps (Script : Type) where
  IsValidAddress : String → Bool
  GetScriptForAddress : String → Script
  GetScriptForScriptID : List ScriptItem → Script
  IsFullyValidPubKey : String → Bool
  GetScriptForRawPubKey : String → Script

/-- `CltvMultiSigScript` (chainparams.cpp:586-601).  `ParseHex(pubkey)` is
pushed as the data item of that string. -/
def CltvMultiSigScript (pubkeys : List String) (lock_time num_sigs : Nat) :
    Outcome (List ScriptItem) :=
  if ¬ (pubkeys.length > 0 ∧ pubkeys.length < 101) then Outcome.aborted
  else if ¬ (num_sigs > 0) then Outcome.aborted
  else
    Outcome.value
      ((if lock_time > 0 then
          [ScriptItem.number lock_time, ScriptItem.OP_CHECKLOCKTIMEVERIFY, ScriptItem.OP_DROP]
        else []) ++
        [ScriptItem.number num_sigs] ++ pubkeys.map ScriptItem.data ++
        [ScriptItem.number pubkeys.length, ScriptItem.OP_CHECKMULTISIG])

/-- The test `pubkey[0] == '0' && (pubkey[1] == '2' || pubkey[1] == '3')`: the
string begins with `02` or `03`. -/
def hasCompressedKeyPrefix (pubkey : String) : Bool :=
  match pubkey.toList with
  | '0' :: '2' :: _ => true
  | '0' :: '3' :: _ => true
  | _ => false

/-- Number of significant bits of `x`, counting at most `fuel` bits. -/
def bitLen : Nat → Nat → Nat
  | 0, _ => 0
  | fuel + 1, x => if x = 0 then 0 else bitLen fuel (x / 2) + 1

/-- The quotient `num / den` rounded to the nearest integer, ties to even: the
rounding of binary64 arithmetic. -/
def roundNearestEven (num den : Nat) : Nat :=
  let q := num / den
  let r := num % den
  if 2 * r < den then q
  else if 2 * r > den then q + 1
  else if q % 2 = 0 then q
  else q + 1

/-- The constant `SIG_NEEDED = 4.0 / 6` as a binary64 value, scaled by `2 ^ 53`:
the quotient lies in `[1/2, 1)`, so its 53-bit significand is the quotient times
`2 ^ 53` rounded to an integer. -/
def SIG_NEEDED : Nat := roundNearestEven (4 * 2 ^ 53) 6

/-- The binary64 product `SIG_NEEDED * n`, scaled by `2 ^ 53`: the exact product
rounded to 53 significant bits. -/
def mulSigNeeded (n : Nat) : Nat :=
  let p := SIG_NEEDED * n
  let s := bitLen 64 p - 53
  roundNearestEven p (2 ^ s) * 2 ^ s

/-- The call `round(x)` on a non-negative binary64 value scaled by `2 ^ 53`: the
nearest integer, halves away from zero. -/
def roundScaled (x : Nat) : Nat := (x + 2 ^ 52) / 2 ^ 53

/-- The signature count of chainparams.cpp:631-634:
`num_sigs = (int)round(SIG_NEEDED * pubkeys.size())`, raised to 2 if smaller. -/
def requiredSignatures (n : Nat) : Int :=
  let num_sigs : Int := (roundScaled (mulSigNeeded n) : Int)
  if num_sigs < 2 then 2 else num_sigs

/-- The branch of `IsPremineAddressScript` for a group of more than one entry
(chainparams.cpp:622-638). -/
def checkMultisigGroup {Script : Type} [DecidableEq Script] (ops : ScriptOps Script)
    (pubkeys : List String) (scriptPubKey : Script) : Outcome Bool :=
  if pubkeys.any (fun pubkey => !hasCompressedKeyPrefix pubkey) then Outcome.value false
  else
    match CltvMultiSigScript pubkeys 0 (toUint32 (requiredSignatures pubkeys.length)) with
    | Outcome.value redeem_script =>
      Outcome.value (decide (scriptPubKey = ops.GetScriptForScriptID redeem_script))
    | Outcome.thrown e => Outcome.thrown e
    | Outcome.aborted => Outcome.aborted

/-- The branch of `IsPremineAddressScript` for a group of one entry `s`
(chainparams.cpp:639-654). -/
def checkSingleEntry {Script : Type} [DecidableEq Script] (ops : ScriptOps Script)
    (s : String) (scriptPubKey : Script) : Outcome Bool :=
  if ops.IsValidAddress s then
    Outcome.value (decide (scriptPubKey = ops.GetScriptForAddress s))
  else if ¬ hasCompressedKeyPrefix s then Outcome.thrown ChainParamsError.badPublicKey
  else if ¬ ops.IsFullyValidPubKey s then Outcome.thrown ChainParamsError.invalidPublicKey
  else Outcome.value (decide (scriptPubKey = ops.GetScriptForRawPubKey s))

/-- The part of `IsPremineAddressScript` after the selection of the group
(chainparams.cpp:619-655). -/
def checkPremineGroup {Script : Type} [DecidableEq Script] (ops : ScriptOps Script)
    (pubkeys : List String) (scriptPubKey : Script) : Outcome Bool :=
  if ¬ (pubkeys.length > 0 ∧ pubkeys.length < 101) then Outcome.aborted
  else if pubkeys.length > 1 then checkMultisigGroup ops pubkeys scriptPubKey
  else
    match pubkeys with
    | s :: _ => checkSingleEntry ops s scriptPubKey
    | [] => Outcome.aborted

/-- The variable `block` of `IsPremineAddressScript` (chainparams.cpp:606-610):
`height - BCRMHeight` stored in an `int`, less one when `BCRMHeight == 0`. -/
def premineBlockIndex (cp : CChainParams) (height : Nat) : Int :=
  let block := toInt32 ((height : Int) - cp.consensus.BCRMHeight)
  if cp.consensus.BCRMHeight = 0 then block - 1 else block

/-- The group chosen at chainparams.cpp:617: round robin when there is more than
one group, with `block` converted to the unsigned 64-bit type of the size. -/
def selectedPremineGroup (cp : CChainParams) (height : Nat) : Option (List String) :=
  if cp.vPreminePubkeys.length > 1 then
    cp.vPreminePubkeys[toUint64 (premineBlockIndex cp height) % cp.vPreminePubkeys.length]?
  else cp.vPreminePubkeys[0]?

/-- `CChainParams::IsPremineAddressScript` (chainparams.cpp:603-656). -/
def IsPremineAddressScript {Script : Type} [DecidableEq Script] (ops : ScriptOps Script)
    (cp : CChainParams) (scriptPubKey : Script) (height : Nat) : Outcome Bool :=
  if ¬ (toUint32 cp.consensus.BCRMHeight ≤ height ∧
      height < toUint32 cp.consensus.BCRMHeightRegular) then Outcome.aborted
  else if ¬ (cp.vPreminePubkeys.length > 0 ∧ cp.vPreminePubkeys.length < 101) then
    Outcome.aborted
  else
    match selectedPremineGroup cp height with
    | some pubkeys => checkPremineGroup ops pubkeys scriptPubKey
    | none => Outcome.aborted

/-- `CChainParams::GetFoundersRewardAddress` (chainparams.cpp:658-666).  The
difference `height - BCRMHeightRegular` is stored in an `int` and converted to
the unsigned 64-bit type of the size for the remainder. -/
def GetFoundersRewardAddress (cp : CChainParams) (height : Nat) : Outcome String :=
  let block : Int := toInt32 ((height : Int) - cp.consensus.BCRMHeightRegular)
  let n := cp.vFoundersRewardAddress.length
  if n = 0 ∨ n > 100 then Outcome.thrown ChainParamsError.invalidFoundersCount
  else
    match (if n > 1 then cp.vFoundersRewardAddress[toUint64 block % n]?
      else cp.vFoundersRewardAddress[0]?) with
    | some address => Outcome.value address
    | none => Outcome.aborted

/-- `CChainParams::GetFoundersRewardScript` (chainparams.cpp:668-682).  The
argument handed to `GetFoundersRewardAddress` is the 32-bit unsigned difference
`height - (uint32_t)BCRMHeightRegular`. -/
def GetFoundersRewardScript {Script : Type} (ops : ScriptOps Script) (cp : CChainParams)
    (height : Nat) : Outcome Script :=
  if height < toUint32 cp.consensus.BCRMHeightRegular then
    Outcome.thrown ChainParamsError.invalidFoundersHeight
  else
    match GetFoundersRewardAddress cp
        (toUint32 ((height : Int) - (toUint32 cp.consensus.BCRMHeightRegular : Int))) with
    | Outcome.value s =>
      if ¬ ops.IsValidAddress s then Outcome.thrown ChainParamsError.badFoundersAddress
      else Outcome.value (ops.GetScriptForAddress s)
    | Outcome.thrown e => Outcome.thrown e
    | Outcome.aborted => Outcome.aborted

/-! ## The legacy algorithm in the words of the specification -/

/-- The stopping test of the walk back over min-difficulty blocks, in the words
of the specification: the block has no predecessor, or its height is a multiple
of the adjustment interval, or its bits differ from the encoded pre-fork
ceiling. -/
def specWalkStops (c : Chain) (params : Params) (g : Nat) : Prop :=
  g = 0 ∨ params.DifficultyAdjustmentInterval ∣ (g : Int) ∨
    (c.block g).nBits ≠ GetCompact (UintToArith256 params.powLimitLegacy)

/-! ## Concrete inputs used to evaluate the definitions -/

/-- A parameter set with the LWMA constants of the main network
(chainparams.cpp:113-123) and the loosest possible post-fork ceiling. -/
def exampleParams : Params :=
  { BCRMHeight := 0, BCRMPremineWindow := 21, BCRMHeightRegular := 21,
    powLimit := 2 ^ 256 - 1, powLimitStart := 2 ^ 240 - 1, powLimitLegacy := 2 ^ 224 - 1,
    nPowTargetTimespanLegacy := 1209600, nPowTargetSpacing := 60,
    nZawyLwmaAveragingWindow := 90, nZawyLwmaAdjustedWeight := 245209,
    nZawyLwmaMinDenominator := 10, fZawyLwmaSolvetimeLimitation := true,
    BCRMMaxFutureBlockTime := 300,
    fPowAllowMinDifficultyBlocks := false, fPowNoRetargeting := false }

/-- A chain whose blocks are exactly 60 seconds apart and all carry the compact
target `b`. -/
def steadyChain (nHeight b : Nat) : Chain :=
  { nHeight := nHeight, block := fun h => { nTime := 1000000 + 60 * h, nBits := b } }

/-- A chain like `steadyChain` at height 200 with target `0x1d00ffff`, except
that the last three blocks are 40 seconds apart. -/
def fastTipChain : Chain :=
  { nHeight := 200
    block := fun h =>
      { nTime := if h ≤ 197 then 1000000 + 60 * h else 1011820 + 40 * (h - 197)
        nBits := 0x1d00ffff } }

/-- A chain like `steadyChain` at height 200 with target `0x1d00ffff`, except
that the last three blocks are 10 seconds apart. -/
def veryFastTipChain : Chain :=
  { nHeight := 200
    block := fun h =>
      { nTime := if h ≤ 197 then 1000000 + 60 * h else 1011820 + 10 * (h - 197)
        nBits := 0x1d00ffff } }

/-- The LWMA constants of `exampleParams` changed to a window of one block, the
weight `2 ^ 31 - 1`, the denominator 1 and no solve-time limitation. -/
def wrapParams : Params :=
  { exampleParams with
    nZawyLwmaAveragingWindow := 1, nZawyLwmaAdjustedWeight := 2 ^ 31 - 1,
    nZawyLwmaMinDenominator := 1, fZawyLwmaSolvetimeLimitation := false }

/-- A chain of two blocks whose times are `0` and `2 ^ 31`. -/
def wrapChain : Chain :=
  { nHeight := 1
    block := fun h => { nTime := if h = 0 then 0 else 2 ^ 31, nBits := 0x1d00ffff } }

/-- The premine groups of the main network (chainparams.cpp:208-229). -/
def mainPreminePubkeys : List (List String) :=
  [["RJzPFMaERA7a5ibdFWo1jaxymqempvju37"], ["RBxwCX6EjvSXH8L6mX4UF3mzP2fuAT8xGp"],
   ["RA2kQBNgM9c96sL1p5LrkbifZSVY6buw2k"], ["REGrMDHKx5zr4jsHUoqGyUBBKBhAnBr1sU"],
   ["RRAxkqfE3WDgThaeNrq7goVJ6uSmkoS9wF"], ["RScDFnWjbRFQjfWTfPjDUhm1CnfdqiPTR5"],
   ["R9ZTwv8teAFDZRn5tjo64zsKXVUWya4xij"], ["RA2bKF2qWUGTSyTab4LEg7z25nZBP1ZTYS"],
   ["RCshRauH1CxgnYgTEVW5SGxvsrV33YQS5H"], ["RB1v8Vk1b6XhrVNmh7otucZs5VpsiX6wPj"],
   ["RA2bKF2qWUGTSyTab4LEg7z25nZBP1ZTYS"], ["RT9XitNbiXbb3HGhTebV9QzSnbZXP4mwbg"],
   ["RNsXpypzskk1owLqf3ZoGKXHcEqxNmsAXS"], ["RWFP48SaLJJAHbJKMZAuowzo8G95TconNu"],
   ["RW3wEjscC28Dhy5GzLfkxuPpggEb346Wtt"], ["RXWn5RnRWAcNabGZ1bjaqFinVA98rfnkyz"],
   ["RWFP48SaLJJAHbJKMZAuowzo8G95TconNu"], ["RHcoHKgu8HuTZx1mNKwKsdJsZyoKC1Uuh9"],
   ["RDGcz3LW579cVti1TdJCRWAoBgoxmdu3fy"], ["RBeEwbDGgSJS3ZKQkmfXbdoUAiFpLUEwBK"]]

/-- The founders-reward addresses of the main network (chainparams.cpp:232-253). -/
def mainFoundersRewardAddress : List String :=
  ["RTBGFbhro71i2pka5RQGfYFrNA6WKvWr2i", "RYJZRWc1BNtBgzFAZpczU7M1tHWiYA5vzP",
   "RKkYrny3ZJEn8bCZhq1PLE3tob3HUnUVhh", "RTBGFbhro71i2pka5RQGfYFrNA6WKvWr2i",
   "RYJZRWc1BNtBgzFAZpczU7M1tHWiYA5vzP", "RKkYrny3ZJEn8bCZhq1PLE3tob3HUnUVhh",
   "RM5yaELh1qWTywm6ULnzCT9ttF3QKcBSfn", "RFGVe1ZVrTKpjbTY3nbTx494yoJqDmFSpK",
   "RJJv8UBAQBkveRJ54qaCj2s396VomcGbsX", "RM5yaELh1qWTywm6ULnzCT9ttF3QKcBSfn",
   "RFGVe1ZVrTKpjbTY3nbTx494yoJqDmFSpK", "RJJv8UBAQBkveRJ54qaCj2s396VomcGbsX",
   "RFXjPp69Gb5SRujbjjBfdbeW9dsAoCJw4K", "RMLyyofFyzC6hBtoBKRdA4L3mtvDmK3JTG",
   "RDLLNvApwDso39EUJizN7EGy6W7Yk6UyCL", "RFXjPp69Gb5SRujbjjBfdbeW9dsAoCJw4K",
   "R9gNyz1ZwW4kh2NMdRHozQyZTkFb2gp8Z7", "RLpDqrJnAiRr1QyHTXKrLPjevrmG3kTwds",
   "RR9yFJSB65qaJEvw537vJAmPqrBnc5DHwT", "RC5bJBHSfQeVj252MfbTbpzB2a3jKJMhXM"]

/-- The premine groups of the regression-test network (chainparams.cpp:523-527). -/
def regTestPreminePubkeys : List (List String) :=
  [["YXfjKB7SABiZUT8Fvkocjd9V2dMLajVe5f"], ["YUC6H4dGqTE1hTYT9PvN9oDrJTKbQHNv7m"],
   ["Yg4DxykSpWKkwrYyJBsFnEqKZCeJbzoBfo"]]

/-- The founders-reward addresses of the regression-test network
(chainparams.cpp:530-534). -/
def regTestFoundersRewardAddress : List String :=
  ["YXfjKB7SABiZUT8Fvkocjd9V2dMLajVe5f", "YUC6H4dGqTE1hTYT9PvN9oDrJTKbQHNv7m",
   "Yg4DxykSpWKkwrYyJBsFnEqKZCeJbzoBfo"]

/-- Chain parameters with the heights of the built-in networks (fork at 0,
regular mining from 21) and the premine and founders lists of the main
network. -/
def mainListsChainParams : CChainParams :=
  { strNetworkID := "main"
    consensus := exampleParams
    nEquihashN := 144
    nEquihashK := 5
    vPreminePubkeys := mainPreminePubkeys
    vFoundersRewardAddress := mainFoundersRewardAddress }

/-- Chain parameters with the heights of the built-in networks and the premine
and founders lists of the regression-test network. -/
def regTestListsChainParams : CChainParams :=
  { strNetworkID := "regtest"
    consensus := exampleParams
    nEquihashN := 48
    nEquihashK := 5
    vPreminePubkeys := regTestPreminePubkeys
    vFoundersRewardAddress := regTestFoundersRewardAddress }

/-- Scripts for evaluation: each is tagged with the primitive that built it. -/
inductive TaggedScript where
  | forAddress : String → TaggedScript
  | forScriptID : List ScriptItem → TaggedScript
  | forRawPubKey : String → TaggedScript
deriving DecidableEq, Repr

/-- Script primitives for evaluation: every address and key is valid and the
three script builders are the three tags. -/
def exampleScriptOps : ScriptOps TaggedScript :=
  { IsValidAddress := fun _ => true
    GetScriptForAddress := TaggedScript.forAddress
    GetScriptForScriptID := TaggedScript.forScriptID
    IsFullyValidPubKey := fun _ => true
    GetScriptForRawPubKey := TaggedScript.forRawPubKey }

/-- Parameters of a legacy phase: the constants of `exampleParams` with the fork
at height 100000 and the pre-fork ceiling `2 ^ 255 - 1`. -/
def legacyParams : Params :=
  { exampleParams with
    BCRMHeight := 100000, BCRMPremineWindow := 20, BCRMHeightRegular := 100020,
    powLimitLegacy := 2 ^ 255 - 1 }

/-- A chain of height 50 whose blocks are 60 seconds apart; the last three carry
the compact value `0x207fffff` of the ceiling `2 ^ 255 - 1`, the others
`0x1c7fffff`. -/
def minDifficultyTailChain : Chain :=
  { nHeight := 50
    block := fun h =>
      { nTime := 1000000 + 60 * h, nBits := if 48 ≤ h then 0x207fffff else 0x1c7fffff } }

/-- A chain-parameter set whose single premine group holds two compressed keys
and one address. -/
def badGroupChainParams : CChainParams :=
  { strNetworkID := "regtest"
    consensus := exampleParams
    nEquihashN := 48
    nEquihashK := 5
    vPreminePubkeys := [["02aa", "03bb", "YXfjKB7SABiZUT8Fvkocjd9V2dMLajVe5f"]]
    vFoundersRewardAddress := regTestFoundersRewardAddress }

/-! ## The built-in networks and `CreateChainParams` (`chainparams.cpp`) -/

/-- The premine groups of the test network (chainparams.cpp:369-390). -/
def testPreminePubkeys : List (List String) :=
  [["XJDHayP2x55Eg7u6MKgFhJvQV1DCgf3sfM"], ["XCX1Ck4jXpsKJLARQS8FvD925cahpHizKQ"],
   ["XUbw1uYqQybYeFBDoqyZC5ejyxw5yjbbh3"], ["XLKzLkqQjKD5YX1CgEWssSRDN4vKkTeUGc"],
   ["XEGXopbSAEPks38MYBxrERznBCXKZitVeE"], ["XXfPLKmFNaetqpTDhTsvmGanagDQSYDuj3"],
   ["XFcEEjgAjfUVBWr37i16VvmDHvWYZCN5rC"], ["XMYJhQ6rcuf2ZpRf7tdUtS2niWXEoEELjg"],
   ["XFhZXEjaNHRN28RHbh9N2GJ2CCnYG7pco3"], ["XE25T1V24ibj2yHBsTdVks2WfZNwL2oWMT"],
   ["XC1tXLjrK48VWSqJWE1KoTJYFZ8sPH4qJf"], ["XUeVZTtHTVz1skU1jswDEXXssDYUx68gSN"],
   ["XNpX1q6xG6c5HzpGYXAoam6iPD6a2mjuNF"], ["XWpCrur2T4KeWHHH99wqyHa1or3Mv7ha4C"],
   ["XJXj7iGwk77WoWrLp92UQJHYBCMc6r8C71"], ["XC4MTG8voF3AiLsKkgkVH631U2dpoFq4Yh"],
   ["XLRMPT2QUyW8y7ZazsY6Fxm5XqziYpSzUt"], ["XVfTfq3w9d9FpR4utAbsRK1KnSYwcc5zWm"],
   ["XEvfGaPixdNGmcMw5ETabVr865XRFQcwPK"], ["XFh1Hz7omQfGRh7kazdhSPBGGXGrXaZHdc"]]

/-- The founders-reward addresses of the test network (chainparams.cpp:393-414). -/
def testFoundersRewardAddress : List String :=
  ["XLwmCpLHeZDuAThp3xgGvYwDs5a91bfTzv", "XCX1Ck4jXpsKJLARQS8FvD925cahpHizKQ",
   "XUbw1uYqQybYeFBDoqyZC5ejyxw5yjbbh3", "XLKzLkqQjKD5YX1CgEWssSRDN4vKkTeUGc",
   "XEGXopbSAEPks38MYBxrERznBCXKZitVeE", "XXfPLKmFNaetqpTDhTsvmGanagDQSYDuj3",
   "XFcEEjgAjfUVBWr37i16VvmDHvWYZCN5rC", "XMYJhQ6rcuf2ZpRf7tdUtS2niWXEoEELjg",
   "XFhZXEjaNHRN28RHbh9N2GJ2CCnYG7pco3", "XE25T1V24ibj2yHBsTdVks2WfZNwL2oWMT",
   "XC1tXLjrK48VWSqJWE1KoTJYFZ8sPH4qJf", "XUeVZTtHTVz1skU1jswDEXXssDYUx68gSN",
   "XNpX1q6xG6c5HzpGYXAoam6iPD6a2mjuNF", "XWpCrur2T4KeWHHH99wqyHa1or3Mv7ha4C",
   "XJXj7iGwk77WoWrLp92UQJHYBCMc6r8C71", "XC4MTG8voF3AiLsKkgkVH631U2dpoFq4Yh",
   "XLRMPT2QUyW8y7ZazsY6Fxm5XqziYpSzUt", "XVfTfq3w9d9FpR4utAbsRK1KnSYwcc5zWm",
   "XEvfGaPixdNGmcMw5ETabVr865XRFQcwPK", "XFh1Hz7omQfGRh7kazdhSPBGGXGrXaZHdc"]

/-- The values that `chainparams.cpp` takes from macros and from the genesis
block, none of which is among the sources: the three post-fork ceilings, and for
each network whether the two assertions on the genesis block (its hash and its
merkle root against the macro constants) hold. -/
structure BuildConstants where
  MAIN_POWLIMIT : Nat
  TEST_POWLIMIT : Nat
  REG_POWLIMIT : Nat
  mainGenesisMatches : Bool
  testGenesisMatches : Bool
  regTestGenesisMatches : Bool

/-- The assignment `BCRMPremineWindow = BCRMHeight > 0 ? 20 : 21` made by each
constructor. -/
def premineWindowFor (BCRMHeight : Int) : Int := if BCRMHeight > 0 then 20 else 21

/-- The members set by the constructor `CMainParams::CMainParams`
(chainparams.cpp:92-254). -/
def CMainParams (k : BuildConstants) : CChainParams :=
  let BCRMHeight : Int := 0
  let BCRMPremineWindow : Int := premineWindowFor BCRMHeight
  { strNetworkID := "main"
    consensus :=
      { BCRMHeight := BCRMHeight
        BCRMPremineWindow := BCRMPremineWindow
        BCRMHeightRegular := BCRMHeight + BCRMPremineWindow
        powLimit := k.MAIN_POWLIMIT
        powLimitStart := 0x0000ffffffffffffffffffffffffffffffffffffffffffffffffffffffffffff
        powLimitLegacy := 0x00000000ffffffffffffffffffffffffffffffffffffffffffffffffffffffff
        nPowTargetTimespanLegacy := 14 * 24 * 60 * 60
        nPowTargetSpacing := 60
        nZawyLwmaAveragingWindow := 90
        nZawyLwmaAdjustedWeight := 245209
        nZawyLwmaMinDenominator := 10
        fZawyLwmaSolvetimeLimitation := true
        BCRMMaxFutureBlockTime := 300
        fPowAllowMinDifficultyBlocks := false
        fPowNoRetargeting := false }
    nEquihashN := 144
    nEquihashK := 5
    vPreminePubkeys := mainPreminePubkeys
    vFoundersRewardAddress := mainFoundersRewardAddress }

/-- The members set by the constructor `CTestNetParams::CTestNetParams`
(chainparams.cpp:262-415). -/
def CTestNetParams (k : BuildConstants) : CChainParams :=
  let BCRMHeight : Int := 0
  let BCRMPremineWindow : Int := premineWindowFor BCRMHeight
  { strNetworkID := "test"
    consensus :=
      { BCRMHeight := BCRMHeight
        BCRMPremineWindow := BCRMPremineWindow
        BCRMHeightRegular := BCRMHeight + BCRMPremineWindow
        powLimit := k.TEST_POWLIMIT
        powLimitStart := 0x0000ffffffffffffffffffffffffffffffffffffffffffffffffffffffffffff
        powLimitLegacy := 0x00000000ffffffffffffffffffffffffffffffffffffffffffffffffffffffff
        nPowTargetTimespanLegacy := 14 * 24 * 60 * 60
        nPowTargetSpacing := 60
        nZawyLwmaAveragingWindow := 90
        nZawyLwmaAdjustedWeight := 245209
        nZawyLwmaMinDenominator := 10
        fZawyLwmaSolvetimeLimitation := true
        BCRMMaxFutureBlockTime := 300
        fPowAllowMinDifficultyBlocks := true
        fPowNoRetargeting := false }
    nEquihashN := 144
    nEquihashK := 5
    vPreminePubkeys := testPreminePubkeys
    vFoundersRewardAddress := testFoundersRewardAddress }

/-- The members set by the constructor `CRegTestParams::CRegTestParams`
(chainparams.cpp:423-535). -/
def CRegTestParams (k : BuildConstants) : CChainParams :=
  let BCRMHeight : Int := 0
  let BCRMPremineWindow : Int := premineWindowFor BCRMHeight
  { strNetworkID := "regtest"
    consensus :=
      { BCRMHeight := BCRMHeight
        BCRMPremineWindow := BCRMPremineWindow
        BCRMHeightRegular := BCRMHeight + BCRMPremineWindow
        powLimit := k.REG_POWLIMIT
        powLimitStart := 0x7fffffffffffffffffffffffffffffffffffffffffffffffffffffffffffffff
        powLimitLegacy := 0x7fffffffffffffffffffffffffffffffffffffffffffffffffffffffffffffff
        nPowTargetTimespanLegacy := 14 * 24 * 60 * 60
        nPowTargetSpacing := 60
        nZawyLwmaAveragingWindow := 90
        nZawyLwmaAdjustedWeight := 245209
        nZawyLwmaMinDenominator := 10
        fZawyLwmaSolvetimeLimitation := true
        BCRMMaxFutureBlockTime := 300
        fPowAllowMinDifficultyBlocks := true
        fPowNoRetargeting := true }
    nEquihashN := 48
    nEquihashK := 5
    vPreminePubkeys := regTestPreminePubkeys
    vFoundersRewardAddress := regTestFoundersRewardAddress }

/-- A constructor call: the members are set and the two assertions on the
genesis block are checked; a failed assertion aborts. -/
def constructChainParams (genesisMatches : Bool) (members : CChainParams) :
    Outcome CChainParams :=
  if genesisMatches then Outcome.value members else Outcome.aborted

/-- Modelled from the spec: `CBaseChainParams::MAIN` (`chainparamsbase.cpp` is
not among the sources), the network identifier `main`. -/
def CBaseChainParams.MAIN : String := "main"

/-- Modelled from the spec: `CBaseChainParams::TESTNET` (`chainparamsbase.cpp`
is not among the sources), the network identifier `test`. -/
def CBaseChainParams.TESTNET : String := "test"

/-- Modelled from the spec: `CBaseChainParams::REGTEST` (`chainparamsbase.cpp`
is not among the sources), the network identifier `regtest`. -/
def CBaseChainParams.REGTEST : String := "regtest"

/-- `CreateChainParams` (chainparams.cpp:563-572). -/
def CreateChainParams (k : BuildConstants) (chain : String) : Outcome CChainParams :=
  if chain = CBaseChainParams.MAIN then
    constructChainParams k.mainGenesisMatches (CMainParams k)
  else if chain = CBaseChainParams.TESTNET then
    constructChainParams k.testGenesisMatches (CTestNetParams k)
  else if chain = CBaseChainParams.REGTEST then
    constructChainParams k.regTestGenesisMatches (CRegTestParams k)
  else Outcome.thrown ChainParamsError.unknownChain

/-! ## `CheckEquihashSolution` (`pow.cpp`) -/

/-- The height invariant of the specification: `regularMiningHeight =
forkHeight + premineWindowLength`, the window is 20 or 21, and it is 21 exactly
when `forkHeight` is 0. -/
def specHeightInvariant (p : Params) : Prop :=
  p.BCRMHeightRegular = p.BCRMHeight + p.BCRMPremineWindow ∧
  (p.BCRMPremineWindow = 20 ∨ p.BCRMPremineWindow = 21) ∧
  (p.BCRMPremineWindow = 21 ↔ p.BCRMHeight = 0)

/-- The size invariant of the specification: 1 to 100 premine groups, each of 1
to 100 entries, 1 to 100 founders addresses, and a positive averaging window. -/
def specSizeInvariant (cp : CChainParams) : Prop :=
  1 ≤ cp.vPreminePubkeys.length ∧ cp.vPreminePubkeys.length ≤ 100 ∧
  (∀ group ∈ cp.vPreminePubkeys, 1 ≤ group.length ∧ group.length ≤ 100) ∧
  1 ≤ cp.vFoundersRewardAddress.length ∧ cp.vFoundersRewardAddress.length ≤ 100 ∧
  0 < cp.consensus.nZawyLwmaAveragingWindow

/-! ## Concrete inputs for the built-in networks -/

/-- Build constants for evaluation: the loosest ceilings and genesis blocks that
match. -/
def exampleBuildConstants : BuildConstants :=
  { MAIN_POWLIMIT := 2 ^ 256 - 1, TEST_POWLIMIT := 2 ^ 256 - 1, REG_POWLIMIT := 2 ^ 256 - 1
    mainGenesisMatches := true, testGenesisMatches := true, regTestGenesisMatches := true }

/-- C1: with `h = tip height + 1`, `GetNextWorkRequired` returns the legacy
result if `h < forkHeight`; else the encoded post-fork ceiling if
`h < regularMiningHeight`; else the encoded warm-up ceiling `powLimitStart` if
`h < regularMiningHeight + averagingWindow` (whatever the timestamps and the two
flags are); else the encoded post-fork ceiling if min-difficulty blocks are
allowed and the candidate is more than `20 * targetSpacing` later than the tip;
else the LWMA result. -/
theorem GetNextWorkRequired_dispatch (pindexLast : Chain) (pblock : CBlockHeader)
    (params : Params) :
    (((pindexLast.nHeight : Int) + 1 < params.BCRMHeight) →
      GetNextWorkRequired pindexLast pblock params =
        BitcoinGetNextWorkRequired pindexLast pblock params) ∧
    (¬ ((pindexLast.nHeight : Int) + 1 < params.BCRMHeight) →
      ((pindexLast.nHeight : Int) + 1 < params.BCRMHeightRegular) →
      GetNextWorkRequired pindexLast pblock params =
        some (GetCompact (UintToArith256 params.powLimit))) ∧
    (¬ ((pindexLast.nHeight : Int) + 1 < params.BCRMHeight) →
      ¬ ((pindexLast.nHeight : Int) + 1 < params.BCRMHeightRegular) →
      ((pindexLast.nHeight : Int) + 1 <
        params.BCRMHeightRegular + params.nZawyLwmaAveragingWindow) →
      GetNextWorkRequired pindexLast pblock params =
        some (GetCompact (UintToArith256 params.powLimitStart))) ∧
    (¬ ((pindexLast.nHeight : Int) + 1 < params.BCRMHeight) →
      ¬ ((pindexLast.nHeight : Int) + 1 < params.BCRMHeightRegular) →
      ¬ ((pindexLast.nHeight : Int) + 1 <
        params.BCRMHeightRegular + params.nZawyLwmaAveragingWindow) →
      params.fPowAllowMinDifficultyBlocks = true →
      ((pblock.nTime : Int) > (pindexLast.tip.nTime : Int) + params.nPowTargetSpacing * 20) →
      GetNextWorkRequired pindexLast pblock params =
        some (GetCompact (UintToArith256 params.powLimit))) ∧
    (¬ ((pindexLast.nHeight : Int) + 1 < params.BCRMHeight) →
      ¬ ((pindexLast.nHeight : Int) + 1 < params.BCRMHeightRegular) →
      ¬ ((pindexLast.nHeight : Int) + 1 <
        params.BCRMHeightRegular + params.nZawyLwmaAveragingWindow) →
      ¬ (params.fPowAllowMinDifficultyBlocks = true ∧
        (pblock.nTime : Int) > (pindexLast.tip.nTime : Int) + params.nPowTargetSpacing * 20) →
      GetNextWorkRequired pindexLast pblock params =
        CalculateNextWorkRequired pindexLast params) := by
  refine ⟨?_, ?_, ?_, ?_, ?_⟩
  · intro h1
    simp [GetNextWorkRequired, h1]
  · intro h1 h2
    simp [GetNextWorkRequired, Params.PowLimit, h1, h2]
  · intro h1 h2 h3
    simp [GetNextWorkRequired, h1, h2, h3]
  · intro h1 h2 h3 h4 h5
    have h5a : pblock.GetBlockTime >
        pindexLast.tip.GetBlockTime + params.nPowTargetSpacing * 20 := h5
    simp [GetNextWorkRequired, Params.PowLimit, h1, h2, h3, h4, h5a]
  · intro h1 h2 h3 h4
    have h4a : ¬ (params.fPowAllowMinDifficultyBlocks = true ∧ pblock.GetBlockTime >
        pindexLast.tip.GetBlockTime + params.nPowTargetSpacing * 20) := h4
    unfold GetNextWorkRequired
    simp only [h1, h2, h3, h4a, if_false]

/-- The dispatch evaluated in the warm-up window, at tip height 50 with the
test-network flag `fPowAllowMinDifficultyBlocks` set and a candidate one hour
later than the tip: the warm-up ceiling is returned all the same. -/
theorem GetNextWorkRequired_dispatch_witness :
    GetNextWorkRequired (steadyChain 50 0x1d00ffff) { nTime := 1006600 }
        { exampleParams with fPowAllowMinDifficultyBlocks := true } =
      some (GetCompact (UintToArith256 (2 ^ 240 - 1))) :=
  (GetNextWorkRequired_dispatch (steadyChain 50 0x1d00ffff) { nTime := 1006600 }
      { exampleParams with fPowAllowMinDifficultyBlocks := true }).2.2.1
    (by decide) (by decide) (by decide)

/-! ### `CheckProofOfWork` -/

/-- C2: `CheckProofOfWork` returns false whenever the decoded target is flagged
negative, or is zero, or is flagged overflow, or is strictly greater than the
ceiling selected by `postfork` (`powLimit` if set, `powLimitLegacy` otherwise),
whatever the hash is. -/
theorem CheckProofOfWork_rejects_out_of_range (hash nBits : Nat) (postfork : Bool)
    (params : Params)
    (h : (SetCompact nBits).fNegative = true ∨ (SetCompact nBits).value = 0 ∨
      (SetCompact nBits).fOverflow = true ∨
      (SetCompact nBits).value >
        UintToArith256 (if postfork then params.powLimit else params.powLimitLegacy)) :
    CheckProofOfWork hash nBits postfork params = false := by
  unfold CheckProofOfWork Params.PowLimit
  rcases h with h | h | h | h <;> simp [h]

/-- The target `0x1d00ffff` is above a post-fork ceiling of `2 ^ 200`, so even
the hash zero is rejected. -/
theorem CheckProofOfWork_rejects_out_of_range_witness :
    CheckProofOfWork 0 0x1d00ffff true { exampleParams with powLimit := 2 ^ 200 } = false :=
  CheckProofOfWork_rejects_out_of_range 0 0x1d00ffff true
    { exampleParams with powLimit := 2 ^ 200 } (by decide)

/-- C3: for a compact value whose decoded target is non-negative, non-zero,
non-overflowing and at most the ceiling selected by `postfork`,
`CheckProofOfWork` returns true exactly when the 256-bit numeric value of the
hash is at most the decoded target. -/
theorem CheckProofOfWork_accepts_iff (hash nBits : Nat) (postfork : Bool) (params : Params)
    (hneg : (SetCompact nBits).fNegative = false)
    (hzero : (SetCompact nBits).value ≠ 0)
    (hover : (SetCompact nBits).fOverflow = false)
    (hlim : (SetCompact nBits).value ≤
      UintToArith256 (if postfork then params.powLimit else params.powLimitLegacy)) :
    CheckProofOfWork hash nBits postfork params = true ↔
      UintToArith256 hash ≤ (SetCompact nBits).value := by
  unfold CheckProofOfWork Params.PowLimit
  simp [hneg, hzero, hover, Nat.not_lt.mpr hlim]

/-- With the target `0x1d00ffff` under the ceiling, the hash equal to the
target is accepted. -/
theorem CheckProofOfWork_accepts_iff_witness :
    CheckProofOfWork (0xffff * 2 ^ 208) 0x1d00ffff true exampleParams = true :=
  (CheckProofOfWork_accepts_iff (0xffff * 2 ^ 208) 0x1d00ffff true exampleParams
    (by decide) (by decide) (by decide) (by decide)).2 (by decide)

/-! ### The LWMA algorithm without retargeting -/

/-- C9: with `fPowNoRetargeting` set, `CalculateNextWorkRequired` returns the
compact bits of the tip unchanged, for every chain: no ancestor is read and the
precondition `height > N` is not evaluated (the result is a value also on a
chain shorter than the averaging window). -/
theorem CalculateNextWorkRequired_noRetargeting (pindexLast : Chain) (params : Params)
    (h : params.fPowNoRetargeting = true) :
    CalculateNextWorkRequired pindexLast params = some pindexLast.tip.nBits := by
  simp [CalculateNextWorkRequired, h]

/-- On a chain of height 0, far below the window of 90, the tip bits are
returned. -/
theorem CalculateNextWorkRequired_noRetargeting_witness :
    CalculateNextWorkRequired (steadyChain 0 0x207fffff)
      { exampleParams with fPowNoRetargeting := true } = some 0x207fffff :=
  CalculateNextWorkRequired_noRetargeting (steadyChain 0 0x207fffff)
    { exampleParams with fPowNoRetargeting := true } rfl

/-! ### The compact encoding -/

/-- Every value below `256 ^ fuel` has a byte length `n ≤ fuel` that brackets it. -/
theorem byteLen_bounds (fuel : Nat) : ∀ (x : Nat), x < 256 ^ fuel →
    x < 256 ^ (byteLen fuel x) ∧ (byteLen fuel x ≠ 0 → 256 ^ (byteLen fuel x - 1) ≤ x) ∧
    byteLen fuel x ≤ fuel := by
  induction fuel with
  | zero =>
    intro x hx
    simp [byteLen] at hx ⊢
    omega
  | succ f ih =>
    intro x hx
    by_cases hx0 : x = 0
    · simp [byteLen, hx0]
    · have hdiv : x / 256 < 256 ^ f := by
        rw [Nat.div_lt_iff_lt_mul (by norm_num)]
        rw [pow_succ] at hx
        exact hx
      obtain ⟨h1, h2, h3⟩ := ih (x / 256) hdiv
      simp only [byteLen, hx0, if_false]
      refine ⟨?_, ?_, by omega⟩
      · rw [pow_succ]
        have := (Nat.div_lt_iff_lt_mul (by norm_num : 0 < 256)).1 h1
        exact this
      · intro _
        simp only [Nat.add_sub_cancel]
        by_cases hb : byteLen f (x / 256) = 0
        · rw [hb]; simp; omega
        · have h2' := h2 hb
          have : 256 ^ (byteLen f (x / 256) - 1) * 256 = 256 ^ (byteLen f (x / 256)) := by
            rw [← pow_succ]
            congr 1
            omega
          have h4 := (Nat.le_div_iff_mul_le (by norm_num : 0 < 256)).1 h2'
          omega

theorem two_pow_eight_mul (k : Nat) : 2 ^ (8 * k) = 256 ^ k := by
  rw [Nat.pow_mul]

/-- Decoding a word assembled from a 23-bit mantissa `w` and an exponent `s`. -/
theorem SetCompact_assembled (w s : Nat) (hw : w < 2 ^ 23) :
    SetCompact (w + s * 2 ^ 24) =
      { value := if s ≤ 3 then w / 256 ^ (3 - s) else (w * 256 ^ (s - 3)) % two256
        fNegative := false
        fOverflow := decide ((if s ≤ 3 then w / 256 ^ (3 - s) else w) ≠ 0) &&
          (decide (s > 34) ||
            (decide ((if s ≤ 3 then w / 256 ^ (3 - s) else w) > 0xff) && decide (s > 33)) ||
            (decide ((if s ≤ 3 then w / 256 ^ (3 - s) else w) > 0xffff) && decide (s > 32))) } := by
  have h1 : (w + s * 2 ^ 24) / 2 ^ 24 = s := by omega
  have h2 : (w + s * 2 ^ 24) % 2 ^ 23 = w := by omega
  have h3 : (w + s * 2 ^ 24) / 2 ^ 23 % 2 = 0 := by omega
  unfold SetCompact
  simp only [h1, h2, h3, two_pow_eight_mul]
  by_cases hs : s ≤ 3 <;> simp [hs]

theorem GetCompact_eq (x : Nat) :
    GetCompact x =
      if (if byteLen 32 x ≤ 3 then x * 256 ^ (3 - byteLen 32 x)
          else x / 256 ^ (byteLen 32 x - 3)) / 2 ^ 23 % 2 = 1 then
        (if byteLen 32 x ≤ 3 then x * 256 ^ (3 - byteLen 32 x)
          else x / 256 ^ (byteLen 32 x - 3)) / 256 + (byteLen 32 x + 1) * 2 ^ 24
      else
        (if byteLen 32 x ≤ 3 then x * 256 ^ (3 - byteLen 32 x)
          else x / 256 ^ (byteLen 32 x - 3)) + byteLen 32 x * 2 ^ 24 := by
  unfold GetCompact
  simp only [two_pow_eight_mul]
  rfl

theorem two256_eq : two256 = 256 ^ 32 := by
  unfold two256
  norm_num

/-- Round trip for a value with at most three significant bytes. -/
theorem roundtrip_small (x n : Nat) (hn : n ≤ 3) (hub : x < 256 ^ n)
    (hlb : n ≠ 0 → 256 ^ (n - 1) ≤ x) (hdiv : 2 ^ 23 ≤ x → x % 256 = 0) :
    SetCompact (if (x * 256 ^ (3 - n)) / 2 ^ 23 % 2 = 1 then
        (x * 256 ^ (3 - n)) / 256 + (n + 1) * 2 ^ 24
      else x * 256 ^ (3 - n) + n * 2 ^ 24) =
      { value := x, fNegative := false, fOverflow := false } := by
  interval_cases n
  · have hx : x = 0 := by simpa using hub
    subst hx
    decide
  · norm_num at hub hlb ⊢
    by_cases hs : 128 ≤ x
    · have h1 : x * 65536 / 8388608 % 2 = 1 := by omega
      rw [if_pos h1]
      have h2 : x * 65536 / 256 = x * 256 := by omega
      rw [h2]
      have := SetCompact_assembled (x * 256) 2 (by omega)
      norm_num at this
      rw [this]
    · have h1 : ¬ x * 65536 / 8388608 % 2 = 1 := by omega
      rw [if_neg h1]
      have := SetCompact_assembled (x * 65536) 1 (by omega)
      norm_num at this
      rw [this]
  · norm_num at hub hlb ⊢
    by_cases hs : 32768 ≤ x
    · have h1 : x * 256 / 8388608 % 2 = 1 := by omega
      rw [if_pos h1]
      have := SetCompact_assembled x 3 (by omega)
      norm_num at this
      rw [this]
    · have h1 : ¬ x * 256 / 8388608 % 2 = 1 := by omega
      rw [if_neg h1]
      have := SetCompact_assembled (x * 256) 2 (by omega)
      norm_num at this
      rw [this]
  · norm_num at hub hlb hdiv ⊢
    by_cases hs : 8388608 ≤ x
    · have h1 : x / 8388608 % 2 = 1 := by omega
      rw [if_pos h1]
      have := SetCompact_assembled (x / 256) 4 (by omega)
      norm_num at this
      rw [this]
      have hd := hdiv hs
      have h3 : x / 256 * 256 = x := by omega
      have h4 : x % two256 = x := by
        apply Nat.mod_eq_of_lt
        rw [two256_eq]
        omega
      simp [h3, h4]
    · have h1 : ¬ x / 8388608 % 2 = 1 := by omega
      rw [if_neg h1]
      have := SetCompact_assembled x 3 (by omega)
      norm_num at this
      rw [this]

/-- Round trip for a value with more than three significant bytes whose bits
below the mantissa are zero. -/
theorem roundtrip_large (x n : Nat) (hn : 3 < n) (hn32 : n ≤ 32) (hub : x < 256 ^ n)
    (hlb : 256 ^ (n - 1) ≤ x) (hd : 256 ^ (n - 3) ∣ x)
    (hd2 : 2 ^ 23 ≤ x / 256 ^ (n - 3) → 256 ^ (n - 2) ∣ x) :
    SetCompact (if (x / 256 ^ (n - 3)) / 2 ^ 23 % 2 = 1 then
        (x / 256 ^ (n - 3)) / 256 + (n + 1) * 2 ^ 24
      else x / 256 ^ (n - 3) + n * 2 ^ 24) =
      { value := x, fNegative := false, fOverflow := false } := by
  have hP : 0 < 256 ^ (n - 3) := Nat.pow_pos (by norm_num)
  have e1 : 256 ^ (n - 1) = 256 ^ (n - 3) * 65536 := by
    rw [show n - 1 = (n - 3) + 2 by omega, pow_add]
    norm_num
  have e2 : 256 ^ n = 256 ^ (n - 3) * 16777216 := by
    conv_lhs => rw [show n = (n - 3) + 3 by omega, pow_add]
    norm_num
  have e3 : 256 ^ (n - 2) = 256 ^ (n - 3) * 256 := by
    rw [show n - 2 = (n - 3) + 1 by omega, pow_add]
    norm_num
  have hx256 : x < two256 := by
    rw [two256_eq]
    exact lt_of_lt_of_le hub (Nat.pow_le_pow_right (by norm_num) hn32)
  obtain ⟨q, hq⟩ := hd
  have hxq : x / 256 ^ (n - 3) = q := by
    rw [hq, Nat.mul_div_cancel_left _ hP]
  rw [hxq] at hd2 ⊢
  rw [e3] at hd2
  rw [e1, hq] at hlb
  rw [e2, hq] at hub
  have hq1 : 65536 ≤ q := Nat.le_of_mul_le_mul_left hlb hP
  have hq2 : q < 16777216 := Nat.lt_of_mul_lt_mul_left hub
  by_cases hs : 2 ^ 23 ≤ q
  · have h1 : q / 2 ^ 23 % 2 = 1 := by omega
    rw [if_pos h1]
    have hdq : 256 ∣ q := by
      have := hd2 hs
      rw [hq] at this
      exact (Nat.mul_dvd_mul_iff_left hP).1 this
    obtain ⟨r, hr⟩ := hdq
    have hr1 : q / 256 = r := by omega
    rw [hr1, SetCompact_assembled r (n + 1) (by omega)]
    have hval : r * 256 ^ (n - 2) = x := by
      rw [e3, hq, hr]
      ring
    have hmod : x % two256 = x := Nat.mod_eq_of_lt hx256
    have hn1 : ¬ (n + 1 ≤ 3) := by omega
    have hr2 : ¬ (65535 < r) := by omega
    have hn2 : ¬ (33 < n + 1) := by omega
    have hn3 : ¬ (34 < n + 1) := by omega
    simp [hn1, hval, hmod, hr2, hn2, hn3]
  · have h1 : ¬ q / 2 ^ 23 % 2 = 1 := by omega
    rw [if_neg h1]
    rw [SetCompact_assembled q n (by omega)]
    have hval : q * 256 ^ (n - 3) = x := by
      rw [hq]
      ring
    have hmod : x % two256 = x := Nat.mod_eq_of_lt hx256
    have hn1 : ¬ (n ≤ 3) := by omega
    have hn2 : ¬ (32 < n) := by omega
    have hn3 : ¬ (33 < n) := by omega
    have hn4 : ¬ (34 < n) := by omega
    simp [hn1, hval, hmod, hn2, hn3, hn4]

/-- Encoding then decoding a value `m * 256 ^ e` with a 23-bit `m` that fits on
256 bits gives the value back, with both flags clear. -/
theorem compact_roundtrip_mantissa (m e : Nat) (hm : m < 2 ^ 23)
    (hlt : m * 256 ^ e < two256) :
    SetCompact (GetCompact (m * 256 ^ e)) =
      { value := m * 256 ^ e, fNegative := false, fOverflow := false } := by
  have hlt32 : m * 256 ^ e < 256 ^ 32 := by
    rw [← two256_eq]
    exact hlt
  obtain ⟨hub, hlb, hn32⟩ := byteLen_bounds 32 (m * 256 ^ e) hlt32
  rw [GetCompact_eq]
  generalize byteLen 32 (m * 256 ^ e) = n at hub hlb hn32
  have hE : 0 < 256 ^ e := Nat.pow_pos (by norm_num)
  by_cases hn : n ≤ 3
  · simp only [hn, if_true]
    apply roundtrip_small _ n hn hub hlb
    intro hbig
    cases e with
    | zero => simp at hbig; omega
    | succ e1 =>
      rw [pow_succ, ← Nat.mul_assoc]
      exact Nat.mul_mod_left _ _
  · simp only [hn, if_false]
    have hn0 : n ≠ 0 := by omega
    have hlb1 := hlb hn0
    -- the exponent of the value is at least `n - 3`
    have hen : n - 3 ≤ e := by
      by_contra hcon
      have h1 : e + 3 ≤ n - 1 := by omega
      have h2 : m * 256 ^ e < 256 ^ (e + 3) := by
        rw [pow_add, Nat.mul_comm (256 ^ e)]
        apply Nat.mul_lt_mul_of_pos_right _ hE
        norm_num at hm ⊢
        omega
      have h3 : 256 ^ (e + 3) ≤ 256 ^ (n - 1) := Nat.pow_le_pow_right (by norm_num) h1
      omega
    have hdvd : 256 ^ (n - 3) ∣ m * 256 ^ e :=
      Dvd.dvd.mul_left (Nat.pow_dvd_pow 256 hen) m
    apply roundtrip_large _ n (by omega) hn32 hub hlb1 hdvd
    intro hbig
    have hen2 : n - 2 ≤ e := by
      by_contra hcon
      have he : e = n - 3 := by omega
      rw [he, Nat.mul_div_cancel _ (Nat.pow_pos (by norm_num))] at hbig
      omega
    exact Dvd.dvd.mul_left (Nat.pow_dvd_pow 256 hen2) m

theorem SetCompact_value_small (c : Nat) (h : c / 2 ^ 24 ≤ 3) :
    (SetCompact c).value = c % 2 ^ 23 / 256 ^ (3 - c / 2 ^ 24) := by
  unfold SetCompact
  simp only [h, if_true, two_pow_eight_mul]

theorem SetCompact_value_large (c : Nat) (h : ¬ c / 2 ^ 24 ≤ 3) :
    (SetCompact c).value = (c % 2 ^ 23 * 256 ^ (c / 2 ^ 24 - 3)) % two256 := by
  unfold SetCompact
  simp only [h, if_false, two_pow_eight_mul]

theorem SetCompact_overflow_large (c : Nat) (h : ¬ c / 2 ^ 24 ≤ 3) :
    (SetCompact c).fOverflow = (decide (c % 2 ^ 23 ≠ 0) &&
      (decide (c / 2 ^ 24 > 34) || (decide (c % 2 ^ 23 > 0xff) && decide (c / 2 ^ 24 > 33)) ||
        (decide (c % 2 ^ 23 > 0xffff) && decide (c / 2 ^ 24 > 32)))) := by
  unfold SetCompact
  simp only [h, if_false]

/-- The decoded value always fits on 256 bits. -/
theorem SetCompact_value_lt (c : Nat) : (SetCompact c).value < two256 := by
  by_cases hs : c / 2 ^ 24 ≤ 3
  · rw [SetCompact_value_small c hs]
    have h1 : c % 2 ^ 23 / 256 ^ (3 - c / 2 ^ 24) ≤ c % 2 ^ 23 := Nat.div_le_self _ _
    have h2 : c % 2 ^ 23 < 2 ^ 23 := Nat.mod_lt _ (by norm_num)
    have h3 : (2 : Nat) ^ 23 < two256 := by
      unfold two256
      norm_num
    omega
  · rw [SetCompact_value_large c hs]
    exact Nat.mod_lt _ (by unfold two256; norm_num)

/-- A decoded value whose overflow flag is clear is a 23-bit mantissa times a
power of 256, below `2 ^ 256`. -/
theorem SetCompact_value_repr (c : Nat) (hover : (SetCompact c).fOverflow = false) :
    ∃ m e, m < 2 ^ 23 ∧ m * 256 ^ e < two256 ∧ (SetCompact c).value = m * 256 ^ e := by
  have hw : c % 2 ^ 23 < 2 ^ 23 := Nat.mod_lt _ (by norm_num)
  by_cases hs : c / 2 ^ 24 ≤ 3
  · refine ⟨(SetCompact c).value, 0, ?_, ?_, by simp⟩
    · rw [SetCompact_value_small c hs]
      exact lt_of_le_of_lt (Nat.div_le_self _ _) hw
    · simpa using SetCompact_value_lt c
  · by_cases hw0 : c % 2 ^ 23 = 0
    · refine ⟨0, 0, by norm_num, by unfold two256; norm_num, ?_⟩
      rw [SetCompact_value_large c hs, hw0]
      simp
    · have hlt : c % 2 ^ 23 * 256 ^ (c / 2 ^ 24 - 3) < two256 := by
        rw [SetCompact_overflow_large c hs] at hover
        simp only [ne_eq, hw0, not_false_eq_true, decide_True, Bool.true_and,
          Bool.or_eq_false_iff, Bool.and_eq_false_imp, decide_eq_true_eq, decide_eq_false_iff_not,
          not_lt] at hover
        obtain ⟨⟨h34, h33⟩, h32⟩ := hover
        rw [two256_eq]
        generalize c % 2 ^ 23 = w at *
        generalize c / 2 ^ 24 = s at *
        have hcase : s ≤ 32 ∨ s = 33 ∨ s = 34 := by omega
        rcases hcase with h | h | h
        · calc w * 256 ^ (s - 3) < 256 ^ 3 * 256 ^ (s - 3) := by
                apply Nat.mul_lt_mul_of_pos_right _ (Nat.pow_pos (by norm_num))
                norm_num at hw ⊢
                omega
            _ = 256 ^ (3 + (s - 3)) := by rw [pow_add]
            _ ≤ 256 ^ 32 := Nat.pow_le_pow_right (by norm_num) (by omega)
        · subst h
          have : w ≤ 65535 := by
            by_contra hc
            have := h32 (by omega)
            omega
          norm_num
          omega
        · subst h
          have : w ≤ 255 := by
            by_contra hc
            have := h33 (by omega)
            omega
          norm_num
          omega
      refine ⟨c % 2 ^ 23, c / 2 ^ 24 - 3, hw, hlt, ?_⟩
      rw [SetCompact_value_large c hs, Nat.mod_eq_of_lt hlt]

/-- C10: compact round trip.  For every value that is the decoding of a compact
word with the sign bit clear and the overflow flag clear, encoding and decoding
again gives the same value with the negative and the overflow flag both false.
(The sign-bit hypothesis is not needed by the proof.) -/
theorem compact_decode_encode (nCompact : Nat) (_hsign : nCompact / 2 ^ 23 % 2 = 0)
    (hover : (SetCompact nCompact).fOverflow = false) :
    SetCompact (GetCompact (SetCompact nCompact).value) =
      { value := (SetCompact nCompact).value, fNegative := false, fOverflow := false } := by
  obtain ⟨m, e, hm, hlt, hv⟩ := SetCompact_value_repr nCompact hover
  rw [hv]
  exact compact_roundtrip_mantissa m e hm hlt

/-- The round trip at the compact word `0x1d00ffff`. -/
theorem compact_decode_encode_witness :
    SetCompact (GetCompact (SetCompact 0x1d00ffff).value) =
      { value := (SetCompact 0x1d00ffff).value, fNegative := false, fOverflow := false } :=
  compact_decode_encode 0x1d00ffff (by decide) (by decide)

/-! ### The loop of the LWMA algorithm -/

theorem toInt32_add_toInt32 (a b : Int) : toInt32 (toInt32 a + b) = toInt32 (a + b) := by
  unfold toInt32
  norm_num
  omega

theorem toInt32_of_range (a : Int) (h1 : -2 ^ 31 ≤ a) (h2 : a < 2 ^ 31) : toInt32 a = a := by
  unfold toInt32
  norm_num at *
  omega

theorem toUint64_of_range (a : Int) (h1 : 0 ≤ a) (h2 : a < 2 ^ 64) : toUint64 a = a.toNat := by
  unfold toUint64
  rw [Int.emod_eq_of_lt h1 h2]

theorem add256_mod (a b : Nat) : add256 (a % two256) b = (a + b) % two256 := by
  unfold add256
  exact Nat.mod_add_mod a two256 b

theorem GetAncestor_of_range (c : Chain) (i : Int) (h0 : 0 ≤ i) (h1 : i ≤ c.nHeight) :
    c.GetAncestor i = some (c.block i.toNat) := by
  unfold Chain.GetAncestor
  rw [if_neg]
  omega

/-- One loop iteration maps the sums over `m` heights to the sums over `m + 1`. -/
theorem lwmaStep_stateAfter (c : Chain) (params : Params) (height base : Int) (m : Nat)
    (hdiv : lwmaDivisor params ≠ 0) (h0 : 1 ≤ base + m) (h1 : base + m ≤ c.nHeight) :
    lwmaStep c params height (base + m) (lwmaStateAfter c params height base m) =
      some (lwmaStateAfter c params height base (m + 1)) := by
  unfold lwmaStep
  rw [GetAncestor_of_range c (base + m) (by omega) h1,
    GetAncestor_of_range c (base + m - 1) (by omega) (by omega)]
  have hd : ¬ toUint64 (toInt32 (params.nZawyLwmaAdjustedWeight *
      params.nZawyLwmaAveragingWindow)) = 0 := hdiv
  simp only [hd, if_false]
  simp only [lwmaStateAfter, weightedSolvetimes, recentSolvetimes, summedTargets, solvetimeAt,
    lwmaDivisor, toInt32_add_toInt32, add256_mod, Nat.cast_add, Nat.cast_one]
  split <;> simp

/-- The loop run for `n` iterations from the sums over `m` heights. -/
theorem lwmaLoop_stateAfter (c : Chain) (params : Params) (height base : Int)
    (hdiv : lwmaDivisor params ≠ 0) (h0 : 1 ≤ base) :
    ∀ (n m : Nat), base + (m + n : Nat) ≤ (c.nHeight : Int) + 1 →
      lwmaLoop c params height n (base + m) (lwmaStateAfter c params height base m) =
        some (lwmaStateAfter c params height base (m + n)) := by
  intro n
  induction n with
  | zero =>
    intro m _
    rfl
  | succ n ih =>
    intro m hm
    have hstep := lwmaStep_stateAfter c params height base m hdiv (by omega)
      (by push_cast at hm; omega)
    simp only [lwmaLoop, hstep]
    have hrec := ih (m + 1) (by push_cast at hm ⊢; omega)
    have e1 : base + (m : Int) + 1 = base + ((m + 1 : Nat) : Int) := by push_cast; ring
    have e2 : m + 1 + n = m + (n + 1) := by ring
    rw [e1, hrec, e2]

/-- The loop of `CalculateNextWorkRequired` completes whenever `height > N` and
the divisor `k * N` is not zero, and leaves the sums over the window. -/
theorem lwmaWindow_eq (c : Chain) (params : Params)
    (hN : (c.nHeight : Int) + 1 > params.nZawyLwmaAveragingWindow)
    (hdiv : lwmaDivisor params ≠ 0) :
    lwmaWindow c params = some (lwmaStateAfter c params ((c.nHeight : Int) + 1)
      ((c.nHeight : Int) + 1 - params.nZawyLwmaAveragingWindow)
      params.nZawyLwmaAveragingWindow.toNat) := by
  unfold lwmaWindow
  by_cases hneg : params.nZawyLwmaAveragingWindow ≤ 0
  · have h0 : params.nZawyLwmaAveragingWindow.toNat = 0 := Int.toNat_eq_zero.2 hneg
    simp only [h0]
    rfl
  · have h := lwmaLoop_stateAfter c params ((c.nHeight : Int) + 1)
      ((c.nHeight : Int) + 1 - params.nZawyLwmaAveragingWindow) hdiv (by omega)
      params.nZawyLwmaAveragingWindow.toNat 0 (by
        have := Int.toNat_of_nonneg (a := params.nZawyLwmaAveragingWindow) (by omega)
        simp only [Nat.zero_add]
        omega)
    simp only [Nat.zero_add, Nat.cast_zero, add_zero] at h
    rw [← h]
    rfl

/-- Encoding then decoding never increases a value with at most three
significant bytes, and sets no flag. -/
theorem decode_encode_small (x n : Nat) (hn : n ≤ 3) (hub : x < 256 ^ n)
    (hlb : n ≠ 0 → 256 ^ (n - 1) ≤ x) :
    (SetCompact (if (x * 256 ^ (3 - n)) / 2 ^ 23 % 2 = 1 then
        (x * 256 ^ (3 - n)) / 256 + (n + 1) * 2 ^ 24
      else x * 256 ^ (3 - n) + n * 2 ^ 24)).value ≤ x ∧
    (SetCompact (if (x * 256 ^ (3 - n)) / 2 ^ 23 % 2 = 1 then
        (x * 256 ^ (3 - n)) / 256 + (n + 1) * 2 ^ 24
      else x * 256 ^ (3 - n) + n * 2 ^ 24)).fNegative = false ∧
    (SetCompact (if (x * 256 ^ (3 - n)) / 2 ^ 23 % 2 = 1 then
        (x * 256 ^ (3 - n)) / 256 + (n + 1) * 2 ^ 24
      else x * 256 ^ (3 - n) + n * 2 ^ 24)).fOverflow = false := by
  by_cases hbig : 2 ^ 23 ≤ x
  · have hn3 : n = 3 := by
      by_contra hne
      have h2 : 256 ^ n ≤ 256 ^ 2 := Nat.pow_le_pow_right (by norm_num) (by omega)
      norm_num at h2 hbig
      omega
    subst hn3
    norm_num at hub hbig ⊢
    have h1 : x / 8388608 % 2 = 1 := by omega
    rw [if_pos h1]
    have := SetCompact_assembled (x / 256) 4 (by omega)
    norm_num at this
    rw [this]
    have h4 : x / 256 * 256 < two256 := by
      rw [two256_eq]
      norm_num
      omega
    simp only [Nat.mod_eq_of_lt h4]
    refine ⟨by omega, trivial, ?_⟩
    simp
  · rw [roundtrip_small x n hn hub hlb (fun h => absurd h hbig)]
    exact ⟨le_refl _, rfl, rfl⟩

/-- Encoding then decoding never increases a value with more than three
significant bytes, and sets no flag. -/
theorem decode_encode_large (x n : Nat) (hn : 3 < n) (hn32 : n ≤ 32) (hub : x < 256 ^ n)
    (hlb : 256 ^ (n - 1) ≤ x) :
    (SetCompact (if (x / 256 ^ (n - 3)) / 2 ^ 23 % 2 = 1 then
        (x / 256 ^ (n - 3)) / 256 + (n + 1) * 2 ^ 24
      else x / 256 ^ (n - 3) + n * 2 ^ 24)).value ≤ x ∧
    (SetCompact (if (x / 256 ^ (n - 3)) / 2 ^ 23 % 2 = 1 then
        (x / 256 ^ (n - 3)) / 256 + (n + 1) * 2 ^ 24
      else x / 256 ^ (n - 3) + n * 2 ^ 24)).fNegative = false ∧
    (SetCompact (if (x / 256 ^ (n - 3)) / 2 ^ 23 % 2 = 1 then
        (x / 256 ^ (n - 3)) / 256 + (n + 1) * 2 ^ 24
      else x / 256 ^ (n - 3) + n * 2 ^ 24)).fOverflow = false := by
  have hP : 0 < 256 ^ (n - 3) := Nat.pow_pos (by norm_num)
  have e1 : 256 ^ (n - 1) = 256 ^ (n - 3) * 65536 := by
    rw [show n - 1 = (n - 3) + 2 by omega, pow_add]
    norm_num
  have e2 : 256 ^ n = 256 ^ (n - 3) * 16777216 := by
    conv_lhs => rw [show n = (n - 3) + 3 by omega, pow_add]
    norm_num
  have e3 : 256 ^ (n - 2) = 256 ^ (n - 3) * 256 := by
    rw [show n - 2 = (n - 3) + 1 by omega, pow_add]
    norm_num
  have hx256 : x < two256 := by
    rw [two256_eq]
    exact lt_of_lt_of_le hub (Nat.pow_le_pow_right (by norm_num) hn32)
  have hqle : x / 256 ^ (n - 3) * 256 ^ (n - 3) ≤ x := Nat.div_mul_le_self x _
  have hq1 : 65536 ≤ x / 256 ^ (n - 3) := by
    rw [Nat.le_div_iff_mul_le hP, Nat.mul_comm, ← e1]
    exact hlb
  have hq2 : x / 256 ^ (n - 3) < 16777216 := by
    rw [Nat.div_lt_iff_lt_mul hP, Nat.mul_comm, ← e2]
    exact hub
  generalize x / 256 ^ (n - 3) = q at hqle hq1 hq2 ⊢
  by_cases hs : 2 ^ 23 ≤ q
  · have h1 : q / 2 ^ 23 % 2 = 1 := by omega
    rw [if_pos h1, SetCompact_assembled (q / 256) (n + 1) (by omega)]
    have hval : q / 256 * 256 ^ (n - 2) ≤ x := by
      rw [e3]
      calc q / 256 * (256 ^ (n - 3) * 256) = (q / 256 * 256) * 256 ^ (n - 3) := by ring
        _ ≤ q * 256 ^ (n - 3) := Nat.mul_le_mul_right _ (Nat.div_mul_le_self q 256)
        _ ≤ x := hqle
    have hmod : q / 256 * 256 ^ (n - 2) % two256 = q / 256 * 256 ^ (n - 2) :=
      Nat.mod_eq_of_lt (lt_of_le_of_lt hval hx256)
    have hn1 : ¬ (n + 1 ≤ 3) := by omega
    have hr2 : ¬ (65535 < q / 256) := by omega
    have hn2 : ¬ (33 < n + 1) := by omega
    have hn3 : ¬ (34 < n + 1) := by omega
    simp [hn1, hmod, hval, hr2, hn2, hn3]
  · have h1 : ¬ q / 2 ^ 23 % 2 = 1 := by omega
    rw [if_neg h1, SetCompact_assembled q n (by omega)]
    have hmod : q * 256 ^ (n - 3) % two256 = q * 256 ^ (n - 3) :=
      Nat.mod_eq_of_lt (lt_of_le_of_lt hqle hx256)
    have hn1 : ¬ (n ≤ 3) := by omega
    have hn2 : ¬ (32 < n) := by omega
    have hn3 : ¬ (33 < n) := by omega
    have hn4 : ¬ (34 < n) := by omega
    simp [hn1, hmod, hqle, hn2, hn3, hn4]

/-- Encoding a 256-bit value and decoding it again gives a value that is not
larger, with the negative and the overflow flag clear. -/
theorem decode_encode_le (x : Nat) (hlt : x < two256) :
    (SetCompact (GetCompact x)).value ≤ x ∧ (SetCompact (GetCompact x)).fNegative = false ∧
      (SetCompact (GetCompact x)).fOverflow = false := by
  have hlt32 : x < 256 ^ 32 := by
    rw [← two256_eq]
    exact hlt
  obtain ⟨hub, hlb, hn32⟩ := byteLen_bounds 32 x hlt32
  rw [GetCompact_eq]
  generalize byteLen 32 x = n at hub hlb hn32
  by_cases hn : n ≤ 3
  · simp only [hn, if_true]
    exact decode_encode_small x n hn hub hlb
  · simp only [hn, if_false]
    exact decode_encode_large x n (by omega) hn32 hub (hlb (by omega))

/-! ### The clamps of the LWMA algorithm -/

theorem UintToArith256_lt (x : Nat) : UintToArith256 x < two256 :=
  Nat.mod_lt _ (by unfold two256; norm_num)

theorem scale256_le (prev a b : Nat) : scale256 prev a b ≤ prev * a / b := by
  unfold scale256 mul256
  exact Nat.div_le_div_right (Nat.mod_le _ _)

theorem scale256_exact (prev a b : Nat) (h : prev * a < two256) :
    scale256 prev a b = prev * a / b := by
  unfold scale256 mul256
  rw [Nat.mod_eq_of_lt h]

/-- Without a wrap of `prev_target * 150` the band clamp lands in the exact
band. -/
theorem clampBand_bounds (prev next : Nat) (h : prev * 150 < two256) :
    prev * 100 / 150 ≤ clampBand prev next ∧ clampBand prev next ≤ prev * 150 / 100 := by
  unfold clampBand
  rw [scale256_exact prev 150 100 h, scale256_exact prev 100 150 (by omega)]
  split
  · omega
  · split <;> omega

/-- The band clamp never exceeds the exact upper limit, whether or not a
product wraps. -/
theorem clampBand_le (prev next : Nat) : clampBand prev next ≤ prev * 150 / 100 := by
  have hA := scale256_le prev 150 100
  have hB := scale256_le prev 100 150
  have hLU : prev * 100 / 150 ≤ prev * 150 / 100 := by omega
  unfold clampBand
  split
  · exact hA
  · split <;> omega

/-- A value inside the exact band is left alone by the band clamp when
`prev_target * 150` does not wrap. -/
theorem clampBand_id (prev next : Nat) (h : prev * 150 < two256)
    (hlo : prev * 100 / 150 ≤ next) (hhi : next ≤ prev * 150 / 100) :
    clampBand prev next = next := by
  unfold clampBand
  rw [scale256_exact prev 150 100 h, scale256_exact prev 100 150 (by omega)]
  rw [if_neg (by omega), if_neg (by omega)]

theorem fastMiningCap_le (T sum_3_st : Int) (prev next : Nat)
    (h : sum_3_st < (T * 80).tdiv 100) :
    fastMiningCap T sum_3_st prev next ≤ prev * 100 / 106 := by
  unfold fastMiningCap
  rw [if_pos h]
  have := scale256_le prev 100 106
  split <;> omega

theorem fastMiningCap_id (T sum_3_st : Int) (prev next : Nat)
    (h : (T * 80).tdiv 100 ≤ sum_3_st) :
    fastMiningCap T sum_3_st prev next = next := by
  unfold fastMiningCap
  rw [if_neg (by omega)]

theorem clampPowLimit_le (pow_limit next : Nat) : clampPowLimit pow_limit next ≤ next := by
  unfold clampPowLimit
  split <;> omega

theorem clampPowLimit_le_limit (pow_limit next : Nat) :
    clampPowLimit pow_limit next ≤ pow_limit := by
  unfold clampPowLimit
  split <;> omega

theorem clampPowLimit_eq_min (pow_limit next : Nat) :
    clampPowLimit pow_limit next = min pow_limit next := by
  unfold clampPowLimit
  split <;> omega

theorem lwmaWindow_eq_sums (c : Chain) (params : Params)
    (hN : (c.nHeight : Int) + 1 > params.nZawyLwmaAveragingWindow)
    (hdiv : lwmaDivisor params ≠ 0) :
    lwmaWindow c params = some (lwmaSums c params) :=
  lwmaWindow_eq c params hN hdiv

/-- `CalculateNextWorkRequired` returns a value whenever retargeting is on,
`height > N`, and neither `k * N` nor `dnorm` is zero: the encoding of the target
computed from the sums over the window. -/
theorem CalculateNextWorkRequired_eq (c : Chain) (params : Params)
    (hno : params.fPowNoRetargeting = false)
    (hN : (c.nHeight : Int) + 1 > params.nZawyLwmaAveragingWindow)
    (hdiv : lwmaDivisor params ≠ 0) (hdn : params.nZawyLwmaMinDenominator ≠ 0) :
    CalculateNextWorkRequired c params =
      some (GetCompact (finalNextTarget c params (lwmaSums c params))) := by
  unfold CalculateNextWorkRequired
  simp [hno, hN, lwmaWindow_eq_sums c params hN hdiv, hdn]

theorem finalNextTarget_lt (c : Chain) (params : Params) (s : LwmaState) :
    finalNextTarget c params s < two256 := by
  unfold finalNextTarget
  exact lt_of_le_of_lt (clampPowLimit_le_limit _ _) (UintToArith256_lt _)

/-! ### The band clamp -/

/-- C6, as amended: for every chain with `height > N`, retargeting on and a
non-zero divisor `k * N`, whatever the solve times are, the loop completes and
the value of `next_target` right after the band clamp is at most
`prevTarget * 150 / 100` (exact integers, multiplication before the truncating
division), with no condition on the previous target; it is at least
`prevTarget * 100 / 150` whenever `prevTarget * 150 < 2 ^ 256`; and it is from
that value that the result of `CalculateNextWorkRequired` is computed. -/
theorem nextTargetAfterBand_bounds (c : Chain) (params : Params)
    (hno : params.fPowNoRetargeting = false)
    (hN : (c.nHeight : Int) + 1 > params.nZawyLwmaAveragingWindow)
    (hdiv : lwmaDivisor params ≠ 0) :
    ∃ s, lwmaWindow c params = some s ∧
      nextTargetAfterBand c params s ≤ (SetCompact c.tip.nBits).value * 150 / 100 ∧
      ((SetCompact c.tip.nBits).value * 150 < two256 →
        (SetCompact c.tip.nBits).value * 100 / 150 ≤ nextTargetAfterBand c params s) ∧
      (params.nZawyLwmaMinDenominator ≠ 0 →
        CalculateNextWorkRequired c params = some (GetCompact (finalNextTarget c params s))) := by
  refine ⟨lwmaSums c params, lwmaWindow_eq_sums c params hN hdiv, ?_, ?_, ?_⟩
  · exact clampBand_le _ _
  · intro hprev
    exact (clampBand_bounds _ _ hprev).1
  · intro hdn
    exact CalculateNextWorkRequired_eq c params hno hN hdiv hdn

/-- The band bounds on a steady chain at target `0x1d00ffff`, and the upper
bound on the steady chain at target `0x207fffff`, where `prev_target * 150`
wraps. -/
theorem nextTargetAfterBand_bounds_witness :
    (∃ s, lwmaWindow (steadyChain 200 0x1d00ffff) exampleParams = some s ∧
      nextTargetAfterBand (steadyChain 200 0x1d00ffff) exampleParams s ≤
        (SetCompact (steadyChain 200 0x1d00ffff).tip.nBits).value * 150 / 100 ∧
      ((SetCompact (steadyChain 200 0x1d00ffff).tip.nBits).value * 150 < two256 →
        (SetCompact (steadyChain 200 0x1d00ffff).tip.nBits).value * 100 / 150 ≤
          nextTargetAfterBand (steadyChain 200 0x1d00ffff) exampleParams s) ∧
      (exampleParams.nZawyLwmaMinDenominator ≠ 0 →
        CalculateNextWorkRequired (steadyChain 200 0x1d00ffff) exampleParams =
          some (GetCompact (finalNextTarget (steadyChain 200 0x1d00ffff) exampleParams s)))) ∧
    (SetCompact (steadyChain 200 0x1d00ffff).tip.nBits).value * 150 < two256 ∧
    (∃ s, lwmaWindow (steadyChain 200 0x207fffff) exampleParams = some s ∧
      nextTargetAfterBand (steadyChain 200 0x207fffff) exampleParams s ≤
        (SetCompact (steadyChain 200 0x207fffff).tip.nBits).value * 150 / 100) :=
  ⟨nextTargetAfterBand_bounds (steadyChain 200 0x1d00ffff) exampleParams rfl (by decide)
      (by decide),
    by decide,
    (nextTargetAfterBand_bounds (steadyChain 200 0x207fffff) exampleParams rfl (by decide)
      (by decide)).imp fun _ h => ⟨h.1, h.2.1⟩⟩

/-- C6 fails as stated: on a steady chain whose blocks all carry the compact
target `0x207fffff` (height 201 > N = 90, retargeting on), the product
`prev_target * 150` wraps on 256 bits and the value of `next_target` after the
band clamp is below `prevTarget * 100 / 150`. -/
theorem nextTargetAfterBand_counterexample :
    exampleParams.fPowNoRetargeting = false ∧
    ((steadyChain 200 0x207fffff).nHeight : Int) + 1 > exampleParams.nZawyLwmaAveragingWindow ∧
    (lwmaWindow (steadyChain 200 0x207fffff) exampleParams).map
      (fun s => decide ((SetCompact (steadyChain 200 0x207fffff).tip.nBits).value * 100 / 150 ≤
        nextTargetAfterBand (steadyChain 200 0x207fffff) exampleParams s)) = some false := by
  decide

/-! ### The fast-mining cap -/

theorem recentSolvetimes_zero (c : Chain) (params : Params) (height base : Int) :
    ∀ n : Nat, base + n ≤ height - 3 → recentSolvetimes c params height base n = 0 := by
  intro n
  induction n with
  | zero => intro _; rfl
  | succ n ih =>
    intro h
    have h1 := ih (by push_cast at h; omega)
    have h2 : ¬ (base + (n : Int) ≥ height - 3) := by push_cast at h; omega
    simp only [recentSolvetimes, h1, h2, if_false, add_zero]

/-- With a window of at least three blocks, the recent sum is the sum of the
limited solve times of the three blocks at heights `height - 3`, `height - 2`
and `height - 1`. -/
theorem recentSolvetimeSum_three (c : Chain) (params : Params)
    (h3 : 3 ≤ params.nZawyLwmaAveragingWindow) :
    recentSolvetimeSum c params =
      solvetimeAt c params ((c.nHeight : Int) + 1 - 3) +
      solvetimeAt c params ((c.nHeight : Int) + 1 - 2) +
      solvetimeAt c params ((c.nHeight : Int) + 1 - 1) := by
  unfold recentSolvetimeSum
  obtain ⟨m, hm⟩ : ∃ m : Nat, params.nZawyLwmaAveragingWindow.toNat = m + 3 :=
    ⟨params.nZawyLwmaAveragingWindow.toNat - 3, by omega⟩
  have hN : params.nZawyLwmaAveragingWindow = (m : Int) + 3 := by omega
  rw [hm]
  simp only [recentSolvetimes]
  rw [recentSolvetimes_zero c params _ _ m (by omega)]
  have e1 : (c.nHeight : Int) + 1 - params.nZawyLwmaAveragingWindow + (m : Int) =
      (c.nHeight : Int) + 1 - 3 := by omega
  have e2 : (c.nHeight : Int) + 1 - params.nZawyLwmaAveragingWindow + ((m + 1 : Nat) : Int) =
      (c.nHeight : Int) + 1 - 2 := by push_cast; omega
  have e3 : (c.nHeight : Int) + 1 - params.nZawyLwmaAveragingWindow + ((m + 1 + 1 : Nat) : Int) =
      (c.nHeight : Int) + 1 - 1 := by push_cast; omega
  rw [e1, e2, e3, if_pos (by omega), if_pos (by omega), if_pos (by omega), zero_add]

/-- C5, as amended: for every chain with `height > N`, retargeting on and
non-zero `k * N` and `dnorm`, if the sum of the three most recent limited solve
times of the window is less than `T * 80 / 100` (80% of one target spacing, not
of three), then `CalculateNextWorkRequired` returns the encoding of a target
that is at most `prevTarget * 100 / 106`, and the returned compact value decodes
to at most `prevTarget * 100 / 106` as well. -/
theorem fast_mining_cap (c : Chain) (params : Params)
    (hno : params.fPowNoRetargeting = false)
    (hN : (c.nHeight : Int) + 1 > params.nZawyLwmaAveragingWindow)
    (hdiv : lwmaDivisor params ≠ 0) (hdn : params.nZawyLwmaMinDenominator ≠ 0)
    (hfast : recentSolvetimeSum c params < (params.nPowTargetSpacing * 80).tdiv 100) :
    ∃ v, CalculateNextWorkRequired c params = some (GetCompact v) ∧
      v ≤ (SetCompact c.tip.nBits).value * 100 / 106 ∧
      (SetCompact (GetCompact v)).value ≤ (SetCompact c.tip.nBits).value * 100 / 106 := by
  have hv : finalNextTarget c params (lwmaSums c params) ≤
      (SetCompact c.tip.nBits).value * 100 / 106 := by
    unfold finalNextTarget
    exact le_trans (clampPowLimit_le _ _) (fastMiningCap_le _ _ _ _ hfast)
  refine ⟨finalNextTarget c params (lwmaSums c params),
    CalculateNextWorkRequired_eq c params hno hN hdiv hdn, hv, ?_⟩
  exact le_trans (decode_encode_le _ (finalNextTarget_lt c params _)).1 hv

/-- The cap on a chain whose last three solve times sum to 30 seconds, below
`60 * 80 / 100 = 48`. -/
theorem fast_mining_cap_witness :
    ∃ v, CalculateNextWorkRequired veryFastTipChain exampleParams = some (GetCompact v) ∧
      v ≤ (SetCompact veryFastTipChain.tip.nBits).value * 100 / 106 ∧
      (SetCompact (GetCompact v)).value ≤
        (SetCompact veryFastTipChain.tip.nBits).value * 100 / 106 :=
  fast_mining_cap veryFastTipChain exampleParams rfl (by decide) (by decide) (by decide)
    (by decide)

/-- C5 fails as stated: on `fastTipChain` the last three solve times sum to 120
seconds, less than 80% of `3 * 60` (144), yet no cap is applied (the code
compares with `60 * 80 / 100 = 48`) and the returned compact value `0x1d00faef`
decodes to more than `prevTarget * 100 / 106`. -/
theorem fast_mining_counterexample :
    exampleParams.fPowNoRetargeting = false ∧
    (fastTipChain.nHeight : Int) + 1 > exampleParams.nZawyLwmaAveragingWindow ∧
    recentSolvetimeSum fastTipChain exampleParams = 120 ∧
    (120 : Int) < (3 * exampleParams.nPowTargetSpacing * 80).tdiv 100 ∧
    CalculateNextWorkRequired fastTipChain exampleParams = some 0x1d00faef ∧
    ¬ ((SetCompact 0x1d00faef).value ≤ (SetCompact fastTipChain.tip.nBits).value * 100 / 106) := by
  decide

/-! ### The divisor and the running sum of the loop -/

theorem lwmaDivisor_eq (params : Params) (hk : 0 < params.nZawyLwmaAdjustedWeight)
    (hNpos : 0 < params.nZawyLwmaAveragingWindow)
    (hkN : params.nZawyLwmaAdjustedWeight * params.nZawyLwmaAveragingWindow < 2 ^ 31) :
    lwmaDivisor params =
      (params.nZawyLwmaAdjustedWeight * params.nZawyLwmaAveragingWindow).toNat := by
  have hpos : 0 < params.nZawyLwmaAdjustedWeight * params.nZawyLwmaAveragingWindow :=
    Int.mul_pos hk hNpos
  unfold lwmaDivisor
  rw [toInt32_of_range _ (by omega) hkN, toUint64_of_range _ (by omega) (by omega)]

theorem window_le_divisor (params : Params) (hk : 0 < params.nZawyLwmaAdjustedWeight)
    (hNpos : 0 < params.nZawyLwmaAveragingWindow) :
    params.nZawyLwmaAveragingWindow.toNat ≤
      (params.nZawyLwmaAdjustedWeight * params.nZawyLwmaAveragingWindow).toNat := by
  apply Int.toNat_le_toNat
  have : 1 * params.nZawyLwmaAveragingWindow ≤
      params.nZawyLwmaAdjustedWeight * params.nZawyLwmaAveragingWindow :=
    Int.mul_le_mul_of_nonneg_right (by omega) (by omega)
  omega

theorem summedTargets_le (c : Chain) (d : Nat) (base : Int) :
    ∀ n : Nat, summedTargets c d base n ≤ n * ((two256 - 1) / d) := by
  intro n
  induction n with
  | zero => simp [summedTargets]
  | succ n ih =>
    have h1 := SetCompact_value_lt (c.block (base + (n : Int)).toNat).nBits
    have h2 : (SetCompact (c.block (base + (n : Int)).toNat).nBits).value / d ≤
        (two256 - 1) / d := Nat.div_le_div_right (by omega)
    simp only [summedTargets]
    rw [Nat.succ_mul]
    omega

/-- A sum of at most `d` truncated quotients by `d` stays below `2 ^ 256`. -/
theorem summedTargets_lt (c : Chain) (d : Nat) (base : Int) (n : Nat) (hnd : n ≤ d) :
    summedTargets c d base n < two256 := by
  have h1 := summedTargets_le c d base n
  have h2 : n * ((two256 - 1) / d) ≤ d * ((two256 - 1) / d) := Nat.mul_le_mul_right _ hnd
  have h3 : d * ((two256 - 1) / d) ≤ two256 - 1 := Nat.mul_div_le _ _
  have h4 : 0 < two256 := by unfold two256; norm_num
  omega

theorem lwmaStateAfter_zero (c : Chain) (params : Params) (height base : Int) :
    lwmaStateAfter c params height base 0 = { t := 0, j := 0, sum_3_st := 0, sum_target := 0 } := by
  rfl

/-! ### The unclamped LWMA result -/

theorem lwmaSums_sum_target (c : Chain) (params : Params)
    (hk : 0 < params.nZawyLwmaAdjustedWeight)
    (hNpos : 0 < params.nZawyLwmaAveragingWindow)
    (hkN : params.nZawyLwmaAdjustedWeight * params.nZawyLwmaAveragingWindow < 2 ^ 31) :
    (lwmaSums c params).sum_target = specSumTarget c params := by
  simp only [lwmaSums, lwmaStateAfter, specSumTarget]
  rw [lwmaDivisor_eq params hk hNpos hkN]
  exact Nat.mod_eq_of_lt (summedTargets_lt c _ _ _ (window_le_divisor params hk hNpos))

theorem lwmaDivisor_ne_zero (params : Params) (hk : 0 < params.nZawyLwmaAdjustedWeight)
    (hNpos : 0 < params.nZawyLwmaAveragingWindow)
    (hkN : params.nZawyLwmaAdjustedWeight * params.nZawyLwmaAveragingWindow < 2 ^ 31) :
    lwmaDivisor params ≠ 0 := by
  have hpos : 0 < params.nZawyLwmaAdjustedWeight * params.nZawyLwmaAveragingWindow :=
    Int.mul_pos hk hNpos
  rw [lwmaDivisor_eq params hk hNpos hkN]
  omega

theorem flooredT_lwmaSums (c : Chain) (params : Params)
    (hfit : -2 ^ 31 ≤ weightedSolvetimes c params
        ((c.nHeight : Int) + 1 - params.nZawyLwmaAveragingWindow)
        params.nZawyLwmaAveragingWindow.toNat ∧
      weightedSolvetimes c params
        ((c.nHeight : Int) + 1 - params.nZawyLwmaAveragingWindow)
        params.nZawyLwmaAveragingWindow.toNat < 2 ^ 31) :
    flooredT params (lwmaSums c params).t = specWeightedTime c params := by
  simp only [lwmaSums, lwmaStateAfter, flooredT, specWeightedTime]
  rw [toInt32_of_range _ hfit.1 hfit.2]

theorem tdiv_le_self_of_nonneg (k d : Int) (hk : 0 ≤ k) : k.tdiv d ≤ k := by
  have h1 : (k.tdiv d).natAbs ≤ k.natAbs := by
    rw [Int.natAbs_tdiv]
    exact Nat.div_le_self _ _
  have h2 : k.tdiv d ≤ ((k.tdiv d).natAbs : Int) := Int.le_natAbs
  have h3 : (k.natAbs : Int) = k := Int.natAbs_of_nonneg hk
  omega

theorem specWeightedTime_lt (c : Chain) (params : Params)
    (hk : 0 < params.nZawyLwmaAdjustedWeight)
    (hk31 : params.nZawyLwmaAdjustedWeight < 2 ^ 31)
    (hW : weightedSolvetimes c params
        ((c.nHeight : Int) + 1 - params.nZawyLwmaAveragingWindow)
        params.nZawyLwmaAveragingWindow.toNat < 2 ^ 31) :
    specWeightedTime c params < 2 ^ 64 := by
  have hq : params.nZawyLwmaAdjustedWeight.tdiv params.nZawyLwmaMinDenominator ≤
      params.nZawyLwmaAdjustedWeight := tdiv_le_self_of_nonneg _ _ (by omega)
  simp only [specWeightedTime]
  split <;> omega

/-- The product `t * sum_target` of the source equals the unclamped target of
the specification when the weighted sum fits the 32-bit accumulator and the
exact product is non-negative and below `2 ^ 256`. -/
theorem initialNextTarget_eq_spec (c : Chain) (params : Params)
    (hk : 0 < params.nZawyLwmaAdjustedWeight)
    (hNpos : 0 < params.nZawyLwmaAveragingWindow)
    (hkN : params.nZawyLwmaAdjustedWeight * params.nZawyLwmaAveragingWindow < 2 ^ 31)
    (hfit : -2 ^ 31 ≤ weightedSolvetimes c params
        ((c.nHeight : Int) + 1 - params.nZawyLwmaAveragingWindow)
        params.nZawyLwmaAveragingWindow.toNat ∧
      weightedSolvetimes c params
        ((c.nHeight : Int) + 1 - params.nZawyLwmaAveragingWindow)
        params.nZawyLwmaAveragingWindow.toNat < 2 ^ 31)
    (h0 : 0 ≤ specUnclampedTarget c params)
    (hlt : (specUnclampedTarget c params).toNat < two256) :
    initialNextTarget params (lwmaSums c params) = (specUnclampedTarget c params).toNat := by
  have hk31 : params.nZawyLwmaAdjustedWeight < 2 ^ 31 := by
    have : params.nZawyLwmaAdjustedWeight * 1 ≤
        params.nZawyLwmaAdjustedWeight * params.nZawyLwmaAveragingWindow :=
      Int.mul_le_mul_of_nonneg_left (by omega) (by omega)
    omega
  simp only [initialNextTarget, mul256]
  rw [flooredT_lwmaSums c params hfit, lwmaSums_sum_target c params hk hNpos hkN]
  by_cases ht : 0 ≤ specWeightedTime c params
  · rw [toUint64_of_range _ ht (specWeightedTime_lt c params hk hk31 hfit.2)]
    have hU : specUnclampedTarget c params =
        (((specWeightedTime c params).toNat * specSumTarget c params : Nat) : Int) := by
      unfold specUnclampedTarget
      push_cast
      rw [Int.toNat_of_nonneg ht]
    have hU2 : (specUnclampedTarget c params).toNat =
        (specWeightedTime c params).toNat * specSumTarget c params := by
      rw [hU]
      exact Int.toNat_natCast _
    rw [← hU2]
    exact Nat.mod_eq_of_lt hlt
  · have hST : specSumTarget c params = 0 := by
      by_contra hne
      have hpos : (0 : Int) < (specSumTarget c params : Int) := by
        have : 0 < specSumTarget c params := Nat.pos_of_ne_zero hne
        exact_mod_cast this
      have : specWeightedTime c params * (specSumTarget c params : Int) < 0 :=
        Int.mul_neg_of_neg_of_pos (by omega) hpos
      unfold specUnclampedTarget at h0
      omega
    have hU : specUnclampedTarget c params = 0 := by
      unfold specUnclampedTarget
      rw [hST]
      simp
    rw [hST, hU]
    simp

/-- The result of `CalculateNextWorkRequired` when the unclamped target of the
specification is inside the exact band, nothing wraps and the fast-mining cap
does not apply: the encoding of the unclamped target, clamped to the ceiling. -/
theorem CalculateNextWorkRequired_of_band (c : Chain) (params : Params)
    (hno : params.fPowNoRetargeting = false)
    (hN : (c.nHeight : Int) + 1 > params.nZawyLwmaAveragingWindow)
    (hk : 0 < params.nZawyLwmaAdjustedWeight)
    (hNpos : 0 < params.nZawyLwmaAveragingWindow)
    (hkN : params.nZawyLwmaAdjustedWeight * params.nZawyLwmaAveragingWindow < 2 ^ 31)
    (hdn : params.nZawyLwmaMinDenominator ≠ 0)
    (hfit : -2 ^ 31 ≤ weightedSolvetimes c params
        ((c.nHeight : Int) + 1 - params.nZawyLwmaAveragingWindow)
        params.nZawyLwmaAveragingWindow.toNat ∧
      weightedSolvetimes c params
        ((c.nHeight : Int) + 1 - params.nZawyLwmaAveragingWindow)
        params.nZawyLwmaAveragingWindow.toNat < 2 ^ 31)
    (hprev : (SetCompact c.tip.nBits).value * 150 < two256)
    (hlo : (((SetCompact c.tip.nBits).value * 100 / 150 : Nat) : Int) ≤
      specUnclampedTarget c params)
    (hhi : specUnclampedTarget c params ≤
      (((SetCompact c.tip.nBits).value * 150 / 100 : Nat) : Int))
    (hsum3 : (params.nPowTargetSpacing * 80).tdiv 100 ≤ recentSolvetimeSum c params) :
    CalculateNextWorkRequired c params =
      some (GetCompact (min (UintToArith256 (params.PowLimit true))
        (specUnclampedTarget c params).toNat)) := by
  have h0 : 0 ≤ specUnclampedTarget c params := by omega
  have hhiN : (specUnclampedTarget c params).toNat ≤
      (SetCompact c.tip.nBits).value * 150 / 100 := by omega
  have hloN : (SetCompact c.tip.nBits).value * 100 / 150 ≤
      (specUnclampedTarget c params).toNat := by omega
  have hlt : (specUnclampedTarget c params).toNat < two256 := by omega
  rw [CalculateNextWorkRequired_eq c params hno hN (lwmaDivisor_ne_zero params hk hNpos hkN) hdn]
  have hs3 : (lwmaSums c params).sum_3_st = recentSolvetimeSum c params := rfl
  simp only [finalNextTarget, nextTargetAfterBand]
  rw [initialNextTarget_eq_spec c params hk hNpos hkN hfit h0 hlt,
    clampBand_id _ _ hprev hloN hhiN, hs3, fastMiningCap_id _ _ _ _ hsum3,
    clampPowLimit_eq_min]

/-- C7, as amended: for every chain with `height > N`, retargeting on, and
parameters with `0 < k`, `0 < N`, `k * N < 2 ^ 31`, `minDenominator ≠ 0` and
`0 ≤ T`, let `t` be the sum over the window of the (limited) solve times
weighted by `j = 1 .. N`, floored at `k / minDenominator`, and
`U = t * Σ floor(decode(bits_i) / (k * N))`.  If the weighted sum fits the
32-bit accumulator, `prevTarget * 150 < 2 ^ 256`, `U` lies in the band
`[prevTarget * 100 / 150, prevTarget * 150 / 100]`, the three most recent solve
times sum to at least 80% of `3 * T`, and `U` is at most the post-fork ceiling,
then `CalculateNextWorkRequired` returns `encode(U)`. -/
theorem CalculateNextWorkRequired_unclamped (c : Chain) (params : Params)
    (hno : params.fPowNoRetargeting = false)
    (hN : (c.nHeight : Int) + 1 > params.nZawyLwmaAveragingWindow)
    (hk : 0 < params.nZawyLwmaAdjustedWeight)
    (hNpos : 0 < params.nZawyLwmaAveragingWindow)
    (hkN : params.nZawyLwmaAdjustedWeight * params.nZawyLwmaAveragingWindow < 2 ^ 31)
    (hdn : params.nZawyLwmaMinDenominator ≠ 0)
    (hT : 0 ≤ params.nPowTargetSpacing)
    (hfit : -2 ^ 31 ≤ weightedSolvetimes c params
        ((c.nHeight : Int) + 1 - params.nZawyLwmaAveragingWindow)
        params.nZawyLwmaAveragingWindow.toNat ∧
      weightedSolvetimes c params
        ((c.nHeight : Int) + 1 - params.nZawyLwmaAveragingWindow)
        params.nZawyLwmaAveragingWindow.toNat < 2 ^ 31)
    (hprev : (SetCompact c.tip.nBits).value * 150 < two256)
    (hlo : (((SetCompact c.tip.nBits).value * 100 / 150 : Nat) : Int) ≤
      specUnclampedTarget c params)
    (hhi : specUnclampedTarget c params ≤
      (((SetCompact c.tip.nBits).value * 150 / 100 : Nat) : Int))
    (hsum3 : (3 * params.nPowTargetSpacing * 80).tdiv 100 ≤ recentSolvetimeSum c params)
    (hceil : specUnclampedTarget c params ≤ (UintToArith256 (params.PowLimit true) : Int)) :
    CalculateNextWorkRequired c params =
      some (GetCompact (specUnclampedTarget c params).toNat) := by
  have hthr : (params.nPowTargetSpacing * 80).tdiv 100 ≤ recentSolvetimeSum c params := by
    rw [Int.tdiv_eq_ediv (by omega) (by norm_num)] at hsum3 ⊢
    omega
  rw [CalculateNextWorkRequired_of_band c params hno hN hk hNpos hkN hdn hfit hprev hlo hhi hthr]
  have : (specUnclampedTarget c params).toNat ≤ UintToArith256 (params.PowLimit true) := by
    omega
  rw [min_eq_right this]

/-- The unclamped result on a steady chain at target `0x1d00ffff`. -/
theorem CalculateNextWorkRequired_unclamped_witness :
    CalculateNextWorkRequired (steadyChain 200 0x1d00ffff) exampleParams =
      some (GetCompact (specUnclampedTarget (steadyChain 200 0x1d00ffff) exampleParams).toNat) :=
  CalculateNextWorkRequired_unclamped (steadyChain 200 0x1d00ffff) exampleParams rfl
    (by decide) (by decide) (by decide) (by decide) (by decide) (by decide) (by decide)
    (by decide) (by decide) (by decide) (by decide) (by decide)

/-- C7 fails as stated, in two ways.  On the steady chain at target
`0x207fffff` the unclamped target `U` is inside the exact band, the last three
solve times sum to 180 ≥ 144 and `U` is below the ceiling, but
`prev_target * 150` wraps and the result is not `encode(U)`.  On `wrapChain`
with `wrapParams` (no solve-time limitation) the weighted sum `2 ^ 31` does not
fit the 32-bit accumulator `t`; all hypotheses of the claim hold and the result
is not `encode(U)` either. -/
theorem CalculateNextWorkRequired_unclamped_counterexample :
    (exampleParams.fPowNoRetargeting = false ∧
      ((steadyChain 200 0x207fffff).nHeight : Int) + 1 > exampleParams.nZawyLwmaAveragingWindow ∧
      (((SetCompact (steadyChain 200 0x207fffff).tip.nBits).value * 100 / 150 : Nat) : Int) ≤
        specUnclampedTarget (steadyChain 200 0x207fffff) exampleParams ∧
      specUnclampedTarget (steadyChain 200 0x207fffff) exampleParams ≤
        (((SetCompact (steadyChain 200 0x207fffff).tip.nBits).value * 150 / 100 : Nat) : Int) ∧
      (3 * exampleParams.nPowTargetSpacing * 80).tdiv 100 ≤
        recentSolvetimeSum (steadyChain 200 0x207fffff) exampleParams ∧
      specUnclampedTarget (steadyChain 200 0x207fffff) exampleParams ≤
        (UintToArith256 (exampleParams.PowLimit true) : Int) ∧
      CalculateNextWorkRequired (steadyChain 200 0x207fffff) exampleParams ≠
        some (GetCompact (specUnclampedTarget (steadyChain 200 0x207fffff) exampleParams).toNat)) ∧
    (wrapParams.fPowNoRetargeting = false ∧
      (wrapChain.nHeight : Int) + 1 > wrapParams.nZawyLwmaAveragingWindow ∧
      (((SetCompact wrapChain.tip.nBits).value * 100 / 150 : Nat) : Int) ≤
        specUnclampedTarget wrapChain wrapParams ∧
      specUnclampedTarget wrapChain wrapParams ≤
        (((SetCompact wrapChain.tip.nBits).value * 150 / 100 : Nat) : Int) ∧
      (3 * wrapParams.nPowTargetSpacing * 80).tdiv 100 ≤ recentSolvetimeSum wrapChain wrapParams ∧
      specUnclampedTarget wrapChain wrapParams ≤
        (UintToArith256 (wrapParams.PowLimit true) : Int) ∧
      CalculateNextWorkRequired wrapChain wrapParams ≠
        some (GetCompact (specUnclampedTarget wrapChain wrapParams).toNat)) := by
  decide

/-! ### The steady state -/

theorem weightedSolvetimes_const (c : Chain) (params : Params) (base s : Int) :
    ∀ n : Nat, (∀ i : Nat, i < n → solvetimeAt c params (base + i) = s) →
      2 * weightedSolvetimes c params base n = s * ((n : Int) * (n + 1)) := by
  intro n
  induction n with
  | zero => intro _; simp [weightedSolvetimes]
  | succ n ih =>
    intro h
    have h1 := ih (fun i hi => h i (by omega))
    have h2 := h n (by omega)
    simp only [weightedSolvetimes, h2]
    push_cast
    linear_combination h1

theorem summedTargets_const (c : Chain) (d : Nat) (base : Int) (v : Nat) :
    ∀ n : Nat, (∀ i : Nat, i < n →
        (SetCompact (c.block (base + (i : Int)).toNat).nBits).value = v) →
      summedTargets c d base n = n * (v / d) := by
  intro n
  induction n with
  | zero => intro _; simp [summedTargets]
  | succ n ih =>
    intro h
    have h1 := ih (fun i hi => h i (by omega))
    have h2 := h n (by omega)
    simp only [summedTargets, h1, h2]
    ring

theorem solvetimeAt_steady (c : Chain) (params : Params)
    (hTv : params.nPowTargetSpacing = 60) (hFTL : params.BCRMMaxFutureBlockTime = 300)
    (i : Int) (h1 : 1 ≤ i)
    (htime : (c.block i.toNat).nTime = (c.block (i.toNat - 1)).nTime + 60) :
    solvetimeAt c params i = 60 := by
  have e : (i - 1).toNat = i.toNat - 1 := by omega
  unfold solvetimeAt limitedSolvetime CBlockIndex.GetBlockTime
  rw [e, htime, hTv, hFTL]
  push_cast
  cases params.fZawyLwmaSolvetimeLimitation <;> simp

/-- C4, as amended: with the built-in LWMA constants (`N = 90`, `k = 245209`,
`T = 60`, `minDenominator = 10`, `FTL = 300`, retargeting on), for every chain
past the fork, the premine window and the warm-up whose last 91 blocks are
exactly 60 seconds apart and all carry the compact target `b`, with
`44137620 ≤ decode(b)` and `decode(b) * 150 < 2 ^ 256`, and a candidate that
does not trigger the anti-stall rule, `GetNextWorkRequired` returns the encoding
of `245700 * (90 * floor(decode(b) / 22068810))` clamped to the post-fork
ceiling: the target drifts up by the factor `245700 / 245209` instead of staying
at `b`. -/
theorem GetNextWorkRequired_steady (c : Chain) (pblock : CBlockHeader) (params : Params)
    (b : Nat)
    (hNv : params.nZawyLwmaAveragingWindow = 90)
    (hkv : params.nZawyLwmaAdjustedWeight = 245209)
    (hTv : params.nPowTargetSpacing = 60)
    (hdv : params.nZawyLwmaMinDenominator = 10)
    (hFTL : params.BCRMMaxFutureBlockTime = 300)
    (hno : params.fPowNoRetargeting = false)
    (hfork : ¬ ((c.nHeight : Int) + 1 < params.BCRMHeight))
    (hreg : ¬ ((c.nHeight : Int) + 1 < params.BCRMHeightRegular))
    (hwarm : ¬ ((c.nHeight : Int) + 1 <
      params.BCRMHeightRegular + params.nZawyLwmaAveragingWindow))
    (hstall : ¬ (params.fPowAllowMinDifficultyBlocks = true ∧
      (pblock.nTime : Int) > (c.tip.nTime : Int) + params.nPowTargetSpacing * 20))
    (hlen : 90 ≤ c.nHeight)
    (htime : ∀ i : Nat, c.nHeight - 90 < i → i ≤ c.nHeight →
      (c.block i).nTime = (c.block (i - 1)).nTime + 60)
    (hbits : ∀ i : Nat, c.nHeight - 90 ≤ i → i ≤ c.nHeight → (c.block i).nBits = b)
    (hmin : 44137620 ≤ (SetCompact b).value)
    (hprev : (SetCompact b).value * 150 < two256) :
    GetNextWorkRequired c pblock params =
      some (GetCompact (min (UintToArith256 params.powLimit)
        (245700 * (90 * ((SetCompact b).value / 22068810))))) := by
  have hstall2 : ¬ (params.fPowAllowMinDifficultyBlocks = true ∧ pblock.GetBlockTime >
      c.tip.GetBlockTime + params.nPowTargetSpacing * 20) := hstall
  have hdispatch : GetNextWorkRequired c pblock params = CalculateNextWorkRequired c params := by
    unfold GetNextWorkRequired
    simp only [hfork, hreg, hwarm, hstall2, if_false]
  have htip : c.tip.nBits = b := hbits c.nHeight (by omega) (le_refl _)
  -- the solve times of the window
  have hst : ∀ i : Nat, i < 90 →
      solvetimeAt c params ((c.nHeight : Int) + 1 - 90 + (i : Int)) = 60 := by
    intro i hi
    apply solvetimeAt_steady c params hTv hFTL _ (by omega)
    have e : ((c.nHeight : Int) + 1 - 90 + (i : Int)).toNat = c.nHeight + 1 - 90 + i := by omega
    rw [e]
    exact htime _ (by omega) (by omega)
  have hW : weightedSolvetimes c params ((c.nHeight : Int) + 1 - 90) 90 = 245700 := by
    have := weightedSolvetimes_const c params ((c.nHeight : Int) + 1 - 90) 60 90 hst
    norm_num at this
    omega
  have hval : ∀ i : Nat, i < 90 →
      (SetCompact (c.block ((c.nHeight : Int) + 1 - 90 + (i : Int)).toNat).nBits).value =
        (SetCompact b).value := by
    intro i hi
    have e : ((c.nHeight : Int) + 1 - 90 + (i : Int)).toNat = c.nHeight + 1 - 90 + i := by omega
    rw [e, hbits _ (by omega) (by omega)]
  have hN90 : params.nZawyLwmaAveragingWindow.toNat = 90 := by rw [hNv]; rfl
  have hST : specSumTarget c params = 90 * ((SetCompact b).value / 22068810) := by
    unfold specSumTarget
    rw [hNv, hkv]
    exact summedTargets_const c _ _ (SetCompact b).value 90 hval
  have hWT : specWeightedTime c params = 245700 := by
    unfold specWeightedTime
    rw [hN90, hNv, hW, hkv, hdv]
    decide
  have hU : specUnclampedTarget c params =
      ((245700 * (90 * ((SetCompact b).value / 22068810)) : Nat) : Int) := by
    unfold specUnclampedTarget
    rw [hWT, hST]
    push_cast
    ring
  have hR : recentSolvetimeSum c params = 180 := by
    rw [recentSolvetimeSum_three c params (by omega)]
    have h0 := hst 87 (by omega)
    have h1 := hst 88 (by omega)
    have h2 := hst 89 (by omega)
    have e0 : (c.nHeight : Int) + 1 - 90 + ((87 : Nat) : Int) = (c.nHeight : Int) + 1 - 3 := by
      push_cast; omega
    have e1 : (c.nHeight : Int) + 1 - 90 + ((88 : Nat) : Int) = (c.nHeight : Int) + 1 - 2 := by
      push_cast; omega
    have e2 : (c.nHeight : Int) + 1 - 90 + ((89 : Nat) : Int) = (c.nHeight : Int) + 1 - 1 := by
      push_cast; omega
    rw [e0] at h0
    rw [e1] at h1
    rw [e2] at h2
    rw [h0, h1, h2]
    rfl
  rw [hdispatch, CalculateNextWorkRequired_of_band c params hno (by omega) (by omega) (by omega)
    (by rw [hkv, hNv]; norm_num) (by omega)
    (by rw [hN90, hNv, hW]; norm_num) (by rw [htip]; exact hprev)
    (by rw [htip, hU]; omega) (by rw [htip, hU]; omega)
    (by rw [hR, hTv]; decide)]
  rw [hU]
  rfl

/-- The steady-state result at target `0x1d00ffff`, evaluated: `0x1d010082`. -/
theorem GetNextWorkRequired_steady_witness :
    GetNextWorkRequired (steadyChain 200 0x1d00ffff) { nTime := 1012060 } exampleParams =
      some (GetCompact (min (UintToArith256 exampleParams.powLimit)
        (245700 * (90 * ((SetCompact 0x1d00ffff).value / 22068810))))) :=
  GetNextWorkRequired_steady (steadyChain 200 0x1d00ffff) { nTime := 1012060 } exampleParams
    0x1d00ffff rfl rfl rfl rfl rfl rfl (by decide) (by decide) (by decide) (by decide)
    (by decide) (fun i _ _ => by simp [steadyChain]; omega) (fun _ _ _ => rfl)
    (by decide) (by decide)

/-- C4 fails as stated: on the steady chain of height 200 whose blocks all carry
the valid compact target `0x1d00ffff`, with a candidate 60 seconds after the
tip, `GetNextWorkRequired` returns `0x1d010082`, not `0x1d00ffff`. -/
theorem GetNextWorkRequired_steady_counterexample :
    (SetCompact 0x1d00ffff).fNegative = false ∧ (SetCompact 0x1d00ffff).value ≠ 0 ∧
    (SetCompact 0x1d00ffff).fOverflow = false ∧
    (SetCompact 0x1d00ffff).value ≤ UintToArith256 (exampleParams.PowLimit true) ∧
    GetNextWorkRequired (steadyChain 200 0x1d00ffff) { nTime := 1012060 } exampleParams =
      some 0x1d010082 ∧
    GetNextWorkRequired (steadyChain 200 0x1d00ffff) { nTime := 1012060 } exampleParams ≠
      some 0x1d00ffff := by
  decide

/-! ### Founders-reward address and script -/

theorem toUint32_of_range (a : Int) (h1 : 0 ≤ a) (h2 : a < 2 ^ 32) : toUint32 a = a.toNat := by
  unfold toUint32
  rw [Int.emod_eq_of_lt h1 h2]

/-- C12: for every height with `regularMiningHeight ≤ height <
2 ^ 31 + regularMiningHeight` and every founders list of 1 to 100 addresses,
`GetFoundersRewardAddress(height)` returns the address at index
`(height - regularMiningHeight) mod |foundersRewardAddresses|`, which is the sole
address when the list has one entry. -/
theorem GetFoundersRewardAddress_round_robin (cp : CChainParams) (height : Nat)
    (hlo : cp.consensus.BCRMHeightRegular ≤ (height : Int))
    (hhi : (height : Int) < 2 ^ 31 + cp.consensus.BCRMHeightRegular)
    (hn1 : 1 ≤ cp.vFoundersRewardAddress.length)
    (hn100 : cp.vFoundersRewardAddress.length ≤ 100) :
    ∃ address,
      cp.vFoundersRewardAddress[((height : Int) - cp.consensus.BCRMHeightRegular).toNat %
        cp.vFoundersRewardAddress.length]? = some address ∧
      GetFoundersRewardAddress cp height = Outcome.value address ∧
      (cp.vFoundersRewardAddress.length = 1 → cp.vFoundersRewardAddress[0]? = some address) := by
  have hpos : 0 < cp.vFoundersRewardAddress.length := by omega
  have hidx : ((height : Int) - cp.consensus.BCRMHeightRegular).toNat %
      cp.vFoundersRewardAddress.length < cp.vFoundersRewardAddress.length := Nat.mod_lt _ hpos
  have hblock : toUint64 (toInt32 ((height : Int) - cp.consensus.BCRMHeightRegular)) =
      ((height : Int) - cp.consensus.BCRMHeightRegular).toNat := by
    rw [toInt32_of_range _ (by omega) (by omega), toUint64_of_range _ (by omega) (by omega)]
  refine ⟨cp.vFoundersRewardAddress[((height : Int) - cp.consensus.BCRMHeightRegular).toNat %
    cp.vFoundersRewardAddress.length], List.getElem?_eq_getElem hidx, ?_, ?_⟩
  · unfold GetFoundersRewardAddress
    simp only [hblock]
    rw [if_neg (by omega)]
    by_cases h1 : cp.vFoundersRewardAddress.length > 1
    · simp only [h1, if_true, List.getElem?_eq_getElem hidx]
    · have hone : cp.vFoundersRewardAddress.length = 1 := by omega
      simp only [h1, if_false]
      have h0 : ((height : Int) - cp.consensus.BCRMHeightRegular).toNat %
          cp.vFoundersRewardAddress.length = 0 := by
        rw [hone]
        exact Nat.mod_one _
      simp only [h0, List.getElem?_eq_getElem hpos]
  · intro hone
    have h0 : ((height : Int) - cp.consensus.BCRMHeightRegular).toNat %
        cp.vFoundersRewardAddress.length = 0 := by
      rw [hone]
      exact Nat.mod_one _
    simp only [h0, List.getElem?_eq_getElem hpos]

/-- The round robin on the main list, 45 blocks after the start of regular
mining: index `45 mod 20 = 5`. -/
theorem GetFoundersRewardAddress_round_robin_witness :
    ∃ address,
      mainListsChainParams.vFoundersRewardAddress[((66 : Nat) -
        mainListsChainParams.consensus.BCRMHeightRegular).toNat %
        mainListsChainParams.vFoundersRewardAddress.length]? = some address ∧
      GetFoundersRewardAddress mainListsChainParams 66 = Outcome.value address ∧
      (mainListsChainParams.vFoundersRewardAddress.length = 1 →
        mainListsChainParams.vFoundersRewardAddress[0]? = some address) :=
  GetFoundersRewardAddress_round_robin mainListsChainParams 66 (by decide) (by decide)
    (by decide) (by decide)

/-- C14: for every height below `regularMiningHeight` (an `int`),
`GetFoundersRewardScript(height)` throws the invalid-height error and produces
no script. -/
theorem GetFoundersRewardScript_below_regular {Script : Type} (ops : ScriptOps Script)
    (cp : CChainParams) (height : Nat)
    (hlt : (height : Int) < cp.consensus.BCRMHeightRegular)
    (hint : cp.consensus.BCRMHeightRegular < 2 ^ 31) :
    GetFoundersRewardScript ops cp height =
      Outcome.thrown ChainParamsError.invalidFoundersHeight := by
  unfold GetFoundersRewardScript
  rw [toUint32_of_range _ (by omega) (by omega), if_pos (by omega)]

/-- The error at height 20, one below the regular mining height 21. -/
theorem GetFoundersRewardScript_below_regular_witness :
    GetFoundersRewardScript exampleScriptOps mainListsChainParams 20 =
      Outcome.thrown ChainParamsError.invalidFoundersHeight :=
  GetFoundersRewardScript_below_regular exampleScriptOps mainListsChainParams 20 (by decide)
    (by decide)

/-- C11 fails on the code: at `height = regularMiningHeight = 21` with the main
founders list, `GetFoundersRewardAddress(21)` is the address of index 0, but
`GetFoundersRewardScript(21)` is the script of the address of index 15, because
it hands `height - regularMiningHeight` to `GetFoundersRewardAddress`, which
subtracts `regularMiningHeight` again. -/
theorem GetFoundersRewardScript_at_regular_height :
    mainFoundersRewardAddress[0]? = some "RTBGFbhro71i2pka5RQGfYFrNA6WKvWr2i" ∧
    mainFoundersRewardAddress[15]? = some "RFXjPp69Gb5SRujbjjBfdbeW9dsAoCJw4K" ∧
    GetFoundersRewardAddress mainListsChainParams 21 =
      Outcome.value "RTBGFbhro71i2pka5RQGfYFrNA6WKvWr2i" ∧
    GetFoundersRewardScript exampleScriptOps mainListsChainParams 21 =
      Outcome.value (TaggedScript.forAddress "RFXjPp69Gb5SRujbjjBfdbeW9dsAoCJw4K") := by
  decide

/-- C13 fails on the code: `GetFoundersRewardAddress` has no test of the height;
at height 0, below the regular mining height 21, it returns the address of index
`(2 ^ 64 - 21) mod 20 = 15` of the main list instead of failing. -/
theorem GetFoundersRewardAddress_below_regular :
    (0 : Int) < mainListsChainParams.consensus.BCRMHeightRegular ∧
    GetFoundersRewardAddress mainListsChainParams 0 =
      Outcome.value "RFXjPp69Gb5SRujbjjBfdbeW9dsAoCJw4K" := by
  decide

/-! ### Premine group selection -/

/-- The asserts of `IsPremineAddressScript` hold inside the premine window. -/
theorem IsPremineAddressScript_in_window {Script : Type} [DecidableEq Script]
    (ops : ScriptOps Script) (cp : CChainParams) (scriptPubKey : Script) (height : Nat)
    (hfork : 0 ≤ cp.consensus.BCRMHeight)
    (hlo : cp.consensus.BCRMHeight ≤ (height : Int))
    (hhi : (height : Int) < cp.consensus.BCRMHeightRegular)
    (hint : cp.consensus.BCRMHeightRegular < 2 ^ 31)
    (hn1 : 1 ≤ cp.vPreminePubkeys.length) (hn100 : cp.vPreminePubkeys.length ≤ 100) :
    IsPremineAddressScript ops cp scriptPubKey height =
      match selectedPremineGroup cp height with
      | some pubkeys => checkPremineGroup ops pubkeys scriptPubKey
      | none => Outcome.aborted := by
  unfold IsPremineAddressScript
  rw [toUint32_of_range _ hfork (by omega), toUint32_of_range _ (by omega) (by omega),
    if_neg (by omega), if_neg (by omega)]

/-- C15, as amended: for every height with `forkHeight ≤ height <
regularMiningHeight` (heights being non-negative `int` values), 1 to 100 premine
groups, and a non-negative `blockIndex = height - forkHeight`, less one when
`forkHeight = 0` (so every height of the window except height 0 of a chain that
starts at `forkHeight = 0`), `IsPremineAddressScript` checks the script against
the group `premineKeyGroups[blockIndex mod |premineKeyGroups|]`, the sole group
when there is one. -/
theorem IsPremineAddressScript_group {Script : Type} [DecidableEq Script]
    (ops : ScriptOps Script) (cp : CChainParams) (scriptPubKey : Script) (height : Nat)
    (hfork : 0 ≤ cp.consensus.BCRMHeight)
    (hlo : cp.consensus.BCRMHeight ≤ (height : Int))
    (hhi : (height : Int) < cp.consensus.BCRMHeightRegular)
    (hint : cp.consensus.BCRMHeightRegular < 2 ^ 31)
    (hn1 : 1 ≤ cp.vPreminePubkeys.length) (hn100 : cp.vPreminePubkeys.length ≤ 100)
    (hidx : 0 ≤ (height : Int) - cp.consensus.BCRMHeight -
      (if cp.consensus.BCRMHeight = 0 then 1 else 0)) :
    ∃ pubkeys,
      cp.vPreminePubkeys[((height : Int) - cp.consensus.BCRMHeight -
        (if cp.consensus.BCRMHeight = 0 then 1 else 0)).toNat %
        cp.vPreminePubkeys.length]? = some pubkeys ∧
      IsPremineAddressScript ops cp scriptPubKey height =
        checkPremineGroup ops pubkeys scriptPubKey ∧
      (cp.vPreminePubkeys.length = 1 → cp.vPreminePubkeys[0]? = some pubkeys) := by
  have hpos : 0 < cp.vPreminePubkeys.length := by omega
  have hb : premineBlockIndex cp height = (height : Int) - cp.consensus.BCRMHeight -
      (if cp.consensus.BCRMHeight = 0 then 1 else 0) := by
    unfold premineBlockIndex
    rw [toInt32_of_range _ (by omega) (by omega)]
    split <;> simp
  have hlt : ((height : Int) - cp.consensus.BCRMHeight -
      (if cp.consensus.BCRMHeight = 0 then 1 else 0)).toNat % cp.vPreminePubkeys.length <
      cp.vPreminePubkeys.length := Nat.mod_lt _ hpos
  have hmod1 : cp.vPreminePubkeys.length = 1 →
      ((height : Int) - cp.consensus.BCRMHeight -
        (if cp.consensus.BCRMHeight = 0 then 1 else 0)).toNat % cp.vPreminePubkeys.length = 0 := by
    intro hone
    rw [hone]
    exact Nat.mod_one _
  have hsel : selectedPremineGroup cp height =
      cp.vPreminePubkeys[((height : Int) - cp.consensus.BCRMHeight -
        (if cp.consensus.BCRMHeight = 0 then 1 else 0)).toNat %
        cp.vPreminePubkeys.length]? := by
    unfold selectedPremineGroup
    rw [hb, toUint64_of_range _ hidx (by split at hidx <;> omega)]
    by_cases h1 : cp.vPreminePubkeys.length > 1
    · rw [if_pos h1]
    · rw [if_neg h1, hmod1 (by omega)]
  refine ⟨cp.vPreminePubkeys[((height : Int) - cp.consensus.BCRMHeight -
    (if cp.consensus.BCRMHeight = 0 then 1 else 0)).toNat % cp.vPreminePubkeys.length],
    List.getElem?_eq_getElem hlt, ?_, ?_⟩
  · rw [IsPremineAddressScript_in_window ops cp scriptPubKey height hfork hlo hhi hint hn1 hn100,
      hsel, List.getElem?_eq_getElem hlt]
  · intro hone
    simp only [hmod1 hone, List.getElem?_eq_getElem hpos]

/-- With `forkHeight = 0` and the three groups of the regression-test network,
heights 1 and 4 both select group 0. -/
theorem IsPremineAddressScript_group_witness :
    (∃ pubkeys,
      regTestListsChainParams.vPreminePubkeys[0]? = some pubkeys ∧
      IsPremineAddressScript exampleScriptOps regTestListsChainParams
          (TaggedScript.forAddress "YXfjKB7SABiZUT8Fvkocjd9V2dMLajVe5f") 1 =
        checkPremineGroup exampleScriptOps pubkeys
          (TaggedScript.forAddress "YXfjKB7SABiZUT8Fvkocjd9V2dMLajVe5f") ∧
      (regTestListsChainParams.vPreminePubkeys.length = 1 →
        regTestListsChainParams.vPreminePubkeys[0]? = some pubkeys)) ∧
    (∃ pubkeys,
      regTestListsChainParams.vPreminePubkeys[0]? = some pubkeys ∧
      IsPremineAddressScript exampleScriptOps regTestListsChainParams
          (TaggedScript.forAddress "YXfjKB7SABiZUT8Fvkocjd9V2dMLajVe5f") 4 =
        checkPremineGroup exampleScriptOps pubkeys
          (TaggedScript.forAddress "YXfjKB7SABiZUT8Fvkocjd9V2dMLajVe5f") ∧
      (regTestListsChainParams.vPreminePubkeys.length = 1 →
        regTestListsChainParams.vPreminePubkeys[0]? = some pubkeys)) :=
  ⟨IsPremineAddressScript_group exampleScriptOps regTestListsChainParams
      (TaggedScript.forAddress "YXfjKB7SABiZUT8Fvkocjd9V2dMLajVe5f") 1
      (by decide) (by decide) (by decide) (by decide) (by decide) (by decide) (by decide),
    IsPremineAddressScript_group exampleScriptOps regTestListsChainParams
      (TaggedScript.forAddress "YXfjKB7SABiZUT8Fvkocjd9V2dMLajVe5f") 4
      (by decide) (by decide) (by decide) (by decide) (by decide) (by decide) (by decide)⟩

/-- C15 fails as stated: with `forkHeight = 0` and the 20 groups of the main
network, height 0 lies in the window, `blockIndex` is `-1`, and the group checked
is group 15 (`(2 ^ 64 - 1) mod 20`), not group `-1 mod 20 = 19`: the script of
the address of group 15 is accepted and that of group 19 is rejected. -/
theorem IsPremineAddressScript_group_counterexample :
    mainListsChainParams.consensus.BCRMHeight ≤ ((0 : Nat) : Int) ∧
    ((0 : Nat) : Int) < mainListsChainParams.consensus.BCRMHeightRegular ∧
    premineBlockIndex mainListsChainParams 0 = -1 ∧
    mainPreminePubkeys[((-1 : Int) % 20).toNat]? =
      some ["RBeEwbDGgSJS3ZKQkmfXbdoUAiFpLUEwBK"] ∧
    mainPreminePubkeys[15]? = some ["RXWn5RnRWAcNabGZ1bjaqFinVA98rfnkyz"] ∧
    selectedPremineGroup mainListsChainParams 0 = some ["RXWn5RnRWAcNabGZ1bjaqFinVA98rfnkyz"] ∧
    IsPremineAddressScript exampleScriptOps mainListsChainParams
      (TaggedScript.forAddress "RXWn5RnRWAcNabGZ1bjaqFinVA98rfnkyz") 0 = Outcome.value true ∧
    IsPremineAddressScript exampleScriptOps mainListsChainParams
      (TaggedScript.forAddress "RBeEwbDGgSJS3ZKQkmfXbdoUAiFpLUEwBK") 0 = Outcome.value false := by
  decide

/-! ### The multisig threshold -/

/-- The exact rational `4/6 * n` rounded to the nearest integer, halves away
from zero, is `(4 * n + 3) / 6` in truncating integer division. -/
theorem round_four_sixths (n : Nat) : round ((4 : ℚ) / 6 * n) = (((4 * n + 3) / 6 : Nat) : Int) := by
  rw [round_eq]
  have h : (4 : ℚ) / 6 * n + 1 / 2 = (((4 * n + 3 : Nat) : Int) : ℚ) / ((6 : Nat) : ℚ) := by
    push_cast
    ring
  rw [h, Rat.floor_intCast_div_natCast]
  norm_cast

/-- The binary64 computation of the signature count agrees with the integer
formula on every admissible group size. -/
theorem requiredSignatures_eq : ∀ n : Nat, n < 101 → 2 ≤ n →
    requiredSignatures n = ((max 2 ((4 * n + 3) / 6) : Nat) : Int) := by
  decide

theorem requiredSignatures_round (n : Nat) (h2 : 2 ≤ n) (h100 : n ≤ 100) :
    requiredSignatures n = max 2 (round ((4 : ℚ) / 6 * n)) := by
  rw [requiredSignatures_eq n (by omega) h2, round_four_sixths]
  push_cast
  rfl

theorem requiredSignatures_bounds (n : Nat) (h2 : 2 ≤ n) (h100 : n ≤ 100) :
    2 ≤ requiredSignatures n ∧ requiredSignatures n ≤ n := by
  rw [requiredSignatures_eq n (by omega) h2]
  omega

/-- The multisig branch on a group whose entries all begin with `02` or `03`. -/
theorem checkMultisigGroup_eq {Script : Type} [DecidableEq Script] (ops : ScriptOps Script)
    (pubkeys : List String) (scriptPubKey : Script)
    (h2 : 2 ≤ pubkeys.length) (h100 : pubkeys.length ≤ 100)
    (hall : ∀ pubkey ∈ pubkeys, hasCompressedKeyPrefix pubkey = true) :
    checkMultisigGroup ops pubkeys scriptPubKey =
      Outcome.value (decide (scriptPubKey = ops.GetScriptForScriptID
        ([ScriptItem.number (requiredSignatures pubkeys.length).toNat] ++
          pubkeys.map ScriptItem.data ++
          [ScriptItem.number pubkeys.length, ScriptItem.OP_CHECKMULTISIG]))) := by
  obtain ⟨hb1, hb2⟩ := requiredSignatures_bounds pubkeys.length h2 h100
  have hany : pubkeys.any (fun pubkey => !hasCompressedKeyPrefix pubkey) = false := by
    rw [List.any_eq_false]
    intro x hx
    simp [hall x hx]
  have hu : toUint32 (requiredSignatures pubkeys.length) =
      (requiredSignatures pubkeys.length).toNat :=
    toUint32_of_range _ (by omega) (by omega)
  unfold checkMultisigGroup CltvMultiSigScript
  rw [hany, hu]
  have hpos : (requiredSignatures pubkeys.length).toNat > 0 := by omega
  have hlen : pubkeys.length > 0 ∧ pubkeys.length < 101 := by omega
  simp [hlen, hpos]

/-- C16: for every premine group with more than one entry (at most 100, all
beginning with `02` or `03`), the script compared with is the script-hash of the
multisig redeem script whose signature count is `max(2, round(4/6 * |group|))`,
the rounding being to the nearest integer, halves away from zero, of the exact
rational; the count the code obtains in binary64 arithmetic equals that value
for every size from 2 to 100; a group of size 3 yields 2; and a group of size 1
takes the single-entry branch, in which no redeem script is built. -/
theorem premine_multisig_threshold {Script : Type} [DecidableEq Script] (ops : ScriptOps Script)
    (pubkeys : List String) (s : String) (scriptPubKey : Script) :
    (2 ≤ pubkeys.length → pubkeys.length ≤ 100 →
      requiredSignatures pubkeys.length = max 2 (round ((4 : ℚ) / 6 * pubkeys.length))) ∧
    (2 ≤ pubkeys.length → pubkeys.length ≤ 100 →
      (∀ pubkey ∈ pubkeys, hasCompressedKeyPrefix pubkey = true) →
      checkPremineGroup ops pubkeys scriptPubKey =
        Outcome.value (decide (scriptPubKey = ops.GetScriptForScriptID
          ([ScriptItem.number (max 2 (round ((4 : ℚ) / 6 * pubkeys.length))).toNat] ++
            pubkeys.map ScriptItem.data ++
            [ScriptItem.number pubkeys.length, ScriptItem.OP_CHECKMULTISIG])))) ∧
    requiredSignatures 3 = 2 ∧
    checkPremineGroup ops [s] scriptPubKey = checkSingleEntry ops s scriptPubKey := by
  refine ⟨fun h2 h100 => requiredSignatures_round _ h2 h100, ?_, by decide, ?_⟩
  · intro h2 h100 hall
    unfold checkPremineGroup
    rw [if_neg (by omega), if_pos (by omega), checkMultisigGroup_eq ops pubkeys scriptPubKey
      h2 h100 hall, requiredSignatures_round _ h2 h100]
  · simp [checkPremineGroup]

/-- The threshold on a group of three compressed keys: the redeem script asks
for 2 of 3 signatures. -/
theorem premine_multisig_threshold_witness :
    checkPremineGroup exampleScriptOps ["02aa", "03bb", "02cc"]
        (TaggedScript.forScriptID [ScriptItem.number 2, ScriptItem.data "02aa",
          ScriptItem.data "03bb", ScriptItem.data "02cc", ScriptItem.number 3,
          ScriptItem.OP_CHECKMULTISIG]) =
      Outcome.value (decide (TaggedScript.forScriptID [ScriptItem.number 2,
          ScriptItem.data "02aa", ScriptItem.data "03bb", ScriptItem.data "02cc",
          ScriptItem.number 3, ScriptItem.OP_CHECKMULTISIG] =
        exampleScriptOps.GetScriptForScriptID
          ([ScriptItem.number (max 2 (round ((4 : ℚ) / 6 *
              (["02aa", "03bb", "02cc"] : List String).length))).toNat] ++
            (["02aa", "03bb", "02cc"] : List String).map ScriptItem.data ++
            [ScriptItem.number (["02aa", "03bb", "02cc"] : List String).length,
              ScriptItem.OP_CHECKMULTISIG]))) :=
  (premine_multisig_threshold exampleScriptOps ["02aa", "03bb", "02cc"] "02aa"
    (TaggedScript.forScriptID [ScriptItem.number 2, ScriptItem.data "02aa",
      ScriptItem.data "03bb", ScriptItem.data "02cc", ScriptItem.number 3,
      ScriptItem.OP_CHECKMULTISIG])).2.1 (by decide) (by decide) (by decide)

/-! ### Malformed premine groups -/

/-- C17: for every height in the premine window whose selected group has more
than one entry (at most 100), if some entry of that group does not begin with
`02` or `03`, `IsPremineAddressScript` returns false for every supplied script:
nothing is thrown and no multisig script is built. -/
theorem IsPremineAddressScript_bad_key {Script : Type} [DecidableEq Script]
    (ops : ScriptOps Script) (cp : CChainParams) (scriptPubKey : Script) (height : Nat)
    (pubkeys : List String)
    (hfork : 0 ≤ cp.consensus.BCRMHeight)
    (hlo : cp.consensus.BCRMHeight ≤ (height : Int))
    (hhi : (height : Int) < cp.consensus.BCRMHeightRegular)
    (hint : cp.consensus.BCRMHeightRegular < 2 ^ 31)
    (hn1 : 1 ≤ cp.vPreminePubkeys.length) (hn100 : cp.vPreminePubkeys.length ≤ 100)
    (hsel : selectedPremineGroup cp height = some pubkeys)
    (h2 : 1 < pubkeys.length) (h100 : pubkeys.length ≤ 100)
    (hbad : ∃ pubkey ∈ pubkeys, hasCompressedKeyPrefix pubkey = false) :
    IsPremineAddressScript ops cp scriptPubKey height = Outcome.value false := by
  rw [IsPremineAddressScript_in_window ops cp scriptPubKey height hfork hlo hhi hint hn1 hn100,
    hsel]
  have hany : pubkeys.any (fun pubkey => !hasCompressedKeyPrefix pubkey) = true := by
    rw [List.any_eq_true]
    obtain ⟨x, hx, hxb⟩ := hbad
    exact ⟨x, hx, by simp [hxb]⟩
  simp only [checkPremineGroup]
  rw [if_neg (by omega), if_pos (by omega)]
  unfold checkMultisigGroup
  rw [if_pos hany]

/-- The check at height 5 on a group of three whose last entry is an address. -/
theorem IsPremineAddressScript_bad_key_witness :
    IsPremineAddressScript exampleScriptOps badGroupChainParams
      (TaggedScript.forAddress "YXfjKB7SABiZUT8Fvkocjd9V2dMLajVe5f") 5 = Outcome.value false :=
  IsPremineAddressScript_bad_key exampleScriptOps badGroupChainParams
    (TaggedScript.forAddress "YXfjKB7SABiZUT8Fvkocjd9V2dMLajVe5f") 5
    ["02aa", "03bb", "YXfjKB7SABiZUT8Fvkocjd9V2dMLajVe5f"]
    (by decide) (by decide) (by decide) (by decide) (by decide) (by decide) (by decide)
    (by decide) (by decide) (by decide)

/-! ### The legacy algorithm -/

theorem tmod_ne_zero_iff_not_dvd (a b : Int) : a.tmod b ≠ 0 ↔ ¬ (b ∣ a) :=
  not_congr ⟨Int.dvd_of_tmod_eq_zero, Int.tmod_eq_zero_of_dvd⟩

/-- Off a retarget boundary with the min-difficulty rule disabled or a late
candidate, and the walk back otherwise. -/
theorem BitcoinGetNextWorkRequired_off_boundary_eq (c : Chain) (pblock : CBlockHeader)
    (params : Params)
    (hsp : params.nPowTargetSpacing ≠ 0)
    (hint : params.DifficultyAdjustmentInterval ≠ 0)
    (hoff : ¬ (params.DifficultyAdjustmentInterval ∣ (c.nHeight : Int) + 1)) :
    BitcoinGetNextWorkRequired c pblock params =
      if params.fPowAllowMinDifficultyBlocks then
        if pblock.GetBlockTime > c.tip.GetBlockTime + params.nPowTargetSpacing * 2 then
          some (GetCompact (UintToArith256 (params.PowLimit false)))
        else
          some (lastNonMinDifficulty c params.DifficultyAdjustmentInterval
            (GetCompact (UintToArith256 (params.PowLimit false))) c.nHeight).nBits
      else some c.tip.nBits := by
  have htm : ((c.nHeight : Int) + 1).tmod params.DifficultyAdjustmentInterval ≠ 0 :=
    (tmod_ne_zero_iff_not_dvd _ _).2 hoff
  unfold BitcoinGetNextWorkRequired
  simp only [hsp, hint, htm, if_false, ne_eq, not_false_eq_true, if_true]

/-- The walk back stops at the first height, going down from `h`, where the
stopping test of the specification holds. -/
theorem lastNonMinDifficulty_spec (c : Chain) (params : Params) :
    ∀ h : Nat, ∃ g : Nat, g ≤ h ∧
      lastNonMinDifficulty c params.DifficultyAdjustmentInterval
        (GetCompact (UintToArith256 params.powLimitLegacy)) h = c.block g ∧
      specWalkStops c params g ∧
      ∀ g' : Nat, g < g' → g' ≤ h → ¬ specWalkStops c params g' := by
  intro h
  induction h with
  | zero =>
    refine ⟨0, le_refl _, rfl, Or.inl rfl, ?_⟩
    intro g' h1 h2
    omega
  | succ h ih =>
    by_cases hcond : ((h + 1 : Nat) : Int).tmod params.DifficultyAdjustmentInterval ≠ 0 ∧
        (c.block (h + 1)).nBits = GetCompact (UintToArith256 params.powLimitLegacy)
    · obtain ⟨g, hg, heq, hstop, hfirst⟩ := ih
      refine ⟨g, by omega, ?_, hstop, ?_⟩
      · simp only [lastNonMinDifficulty, hcond, and_self, if_true, ne_eq, not_false_eq_true, heq]
      · intro g' h1 h2
        by_cases hg' : g' = h + 1
        · subst hg'
          unfold specWalkStops
          have hnd := (tmod_ne_zero_iff_not_dvd _ _).1 hcond.1
          have hb := hcond.2
          intro hs
          rcases hs with hs | hs | hs
          · omega
          · exact hnd hs
          · exact hs hb
        · exact hfirst g' h1 (by omega)
    · refine ⟨h + 1, le_refl _, ?_, ?_, ?_⟩
      · simp only [lastNonMinDifficulty, hcond, if_false]
      · unfold specWalkStops
        by_cases hd : params.DifficultyAdjustmentInterval ∣ ((h + 1 : Nat) : Int)
        · exact Or.inr (Or.inl hd)
        · refine Or.inr (Or.inr ?_)
          intro hb
          exact hcond ⟨(tmod_ne_zero_iff_not_dvd _ _).2 hd, hb⟩
      · intro g' h1 h2
        omega

/-- C20: legacy algorithm off a retarget boundary (the adjustment interval is
defined and non-zero and does not divide `h = tip height + 1`).  If
`allowMinDifficultyBlocks` is false the result is the bits of the tip; if it is
true and the candidate time exceeds the tip time by more than
`2 * targetSpacing` the result is the encoded pre-fork ceiling; if it is true
and the candidate is not that late, the result is the bits of the first block,
walking back from the tip, that has no predecessor, or whose height is a
multiple of the interval, or whose bits differ from the encoded pre-fork
ceiling. -/
theorem BitcoinGetNextWorkRequired_off_boundary (c : Chain) (pblock : CBlockHeader)
    (params : Params)
    (hsp : params.nPowTargetSpacing ≠ 0)
    (hint : params.DifficultyAdjustmentInterval ≠ 0)
    (hoff : ¬ (params.DifficultyAdjustmentInterval ∣ (c.nHeight : Int) + 1)) :
    (params.fPowAllowMinDifficultyBlocks = false →
      BitcoinGetNextWorkRequired c pblock params = some c.tip.nBits) ∧
    (params.fPowAllowMinDifficultyBlocks = true →
      (pblock.nTime : Int) > (c.tip.nTime : Int) + 2 * params.nPowTargetSpacing →
      BitcoinGetNextWorkRequired c pblock params =
        some (GetCompact (UintToArith256 params.powLimitLegacy))) ∧
    (params.fPowAllowMinDifficultyBlocks = true →
      ¬ ((pblock.nTime : Int) > (c.tip.nTime : Int) + 2 * params.nPowTargetSpacing) →
      ∃ g : Nat, g ≤ c.nHeight ∧
        BitcoinGetNextWorkRequired c pblock params = some (c.block g).nBits ∧
        specWalkStops c params g ∧
        ∀ g' : Nat, g < g' → g' ≤ c.nHeight → ¬ specWalkStops c params g') := by
  have heq := BitcoinGetNextWorkRequired_off_boundary_eq c pblock params hsp hint hoff
  have hlim : params.PowLimit false = params.powLimitLegacy := rfl
  refine ⟨?_, ?_, ?_⟩
  · intro ha
    rw [heq, ha]
    rfl
  · intro ha hlate
    have hl : pblock.GetBlockTime > c.tip.GetBlockTime + params.nPowTargetSpacing * 2 := by
      unfold CBlockHeader.GetBlockTime CBlockIndex.GetBlockTime
      omega
    rw [heq, ha, hlim]
    simp only [if_true, hl]
  · intro ha hnot
    have hl : ¬ (pblock.GetBlockTime > c.tip.GetBlockTime + params.nPowTargetSpacing * 2) := by
      unfold CBlockHeader.GetBlockTime CBlockIndex.GetBlockTime
      omega
    obtain ⟨g, hg, hblock, hstop, hfirst⟩ := lastNonMinDifficulty_spec c params c.nHeight
    refine ⟨g, hg, ?_, hstop, hfirst⟩
    rw [heq, ha, hlim]
    simp only [if_true, hl, if_false, hblock]

/-- The walk back on `minDifficultyTailChain` with a candidate 20 seconds after
the tip: it stops at height 47. -/
theorem BitcoinGetNextWorkRequired_off_boundary_witness :
    ∃ g : Nat, g ≤ minDifficultyTailChain.nHeight ∧
      BitcoinGetNextWorkRequired minDifficultyTailChain { nTime := 1003020 }
          { legacyParams with fPowAllowMinDifficultyBlocks := true } =
        some (minDifficultyTailChain.block g).nBits ∧
      specWalkStops minDifficultyTailChain
        { legacyParams with fPowAllowMinDifficultyBlocks := true } g ∧
      ∀ g' : Nat, g < g' → g' ≤ minDifficultyTailChain.nHeight →
        ¬ specWalkStops minDifficultyTailChain
          { legacyParams with fPowAllowMinDifficultyBlocks := true } g' :=
  (BitcoinGetNextWorkRequired_off_boundary minDifficultyTailChain { nTime := 1003020 }
    { legacyParams with fPowAllowMinDifficultyBlocks := true } (by decide) (by decide)
    (by decide)).2.2 rfl (by decide)

/-- A value returned by `CreateChainParams` is the member set of one of the
three constructors. -/
theorem CreateChainParams_value (k : BuildConstants) (chain : String) (cp : CChainParams)
    (h : CreateChainParams k chain = Outcome.value cp) :
    (chain = "main" ∧ cp = CMainParams k) ∨ (chain = "test" ∧ cp = CTestNetParams k) ∨
      (chain = "regtest" ∧ cp = CRegTestParams k) := by
  unfold CreateChainParams constructChainParams CBaseChainParams.MAIN CBaseChainParams.TESTNET
    CBaseChainParams.REGTEST at h
  by_cases h1 : chain = "main"
  · left
    rw [if_pos h1] at h
    split at h
    · exact ⟨h1, (Outcome.value.inj h).symm⟩
    · exact absurd h (by simp)
  · rw [if_neg h1] at h
    by_cases h2 : chain = "test"
    · right; left
      rw [if_pos h2] at h
      split at h
      · exact ⟨h2, (Outcome.value.inj h).symm⟩
      · exact absurd h (by simp)
    · rw [if_neg h2] at h
      by_cases h3 : chain = "regtest"
      · right; right
        rw [if_pos h3] at h
        split at h
        · exact ⟨h3, (Outcome.value.inj h).symm⟩
        · exact absurd h (by simp)
      · rw [if_neg h3] at h
        exact absurd h (by simp)

theorem specHeightInvariant_main (k : BuildConstants) :
    specHeightInvariant (CMainParams k).consensus := by
  unfold specHeightInvariant CMainParams premineWindowFor
  simp

theorem specHeightInvariant_test (k : BuildConstants) :
    specHeightInvariant (CTestNetParams k).consensus := by
  unfold specHeightInvariant CTestNetParams premineWindowFor
  simp

theorem specHeightInvariant_regtest (k : BuildConstants) :
    specHeightInvariant (CRegTestParams k).consensus := by
  unfold specHeightInvariant CRegTestParams premineWindowFor
  simp

/-- C21: for each of the three built-in networks (main, test, regtest), the
constructed parameters satisfy `regularMiningHeight = forkHeight +
premineWindowLength` with a window of 20 or 21, 21 exactly when `forkHeight` is
0; this holds of the members set by each constructor and of every object that
`CreateChainParams` returns. -/
theorem builtin_height_invariant (k : BuildConstants) :
    specHeightInvariant (CMainParams k).consensus ∧
    specHeightInvariant (CTestNetParams k).consensus ∧
    specHeightInvariant (CRegTestParams k).consensus ∧
    (∀ (chain : String) (cp : CChainParams),
      CreateChainParams k chain = Outcome.value cp → specHeightInvariant cp.consensus) := by
  refine ⟨specHeightInvariant_main k, specHeightInvariant_test k,
    specHeightInvariant_regtest k, ?_⟩
  intro chain cp h
  rcases CreateChainParams_value k chain cp h with ⟨_, rfl⟩ | ⟨_, rfl⟩ | ⟨_, rfl⟩
  · exact specHeightInvariant_main k
  · exact specHeightInvariant_test k
  · exact specHeightInvariant_regtest k

/-- The height invariant on the object created for the main network. -/
theorem builtin_height_invariant_witness :
    specHeightInvariant (CMainParams exampleBuildConstants).consensus :=
  (builtin_height_invariant exampleBuildConstants).2.2.2 "main" (CMainParams exampleBuildConstants)
    rfl

theorem specSizeInvariant_main (k : BuildConstants) : specSizeInvariant (CMainParams k) := by
  unfold specSizeInvariant
  refine ⟨?_, ?_, ?_, ?_, ?_, ?_⟩ <;> dsimp only [CMainParams] <;> decide

theorem specSizeInvariant_test (k : BuildConstants) : specSizeInvariant (CTestNetParams k) := by
  unfold specSizeInvariant
  refine ⟨?_, ?_, ?_, ?_, ?_, ?_⟩ <;> dsimp only [CTestNetParams] <;> decide

theorem specSizeInvariant_regtest (k : BuildConstants) :
    specSizeInvariant (CRegTestParams k) := by
  unfold specSizeInvariant
  refine ⟨?_, ?_, ?_, ?_, ?_, ?_⟩ <;> dsimp only [CRegTestParams] <;> decide

/-- C22: for each of the three built-in networks, the constructed parameters
have 1 to 100 premine groups, each of 1 to 100 entries, 1 to 100 founders
addresses, and a positive averaging window; this holds of the members set by
each constructor and of every object that `CreateChainParams` returns. -/
theorem builtin_size_invariant (k : BuildConstants) :
    specSizeInvariant (CMainParams k) ∧ specSizeInvariant (CTestNetParams k) ∧
    specSizeInvariant (CRegTestParams k) ∧
    (∀ (chain : String) (cp : CChainParams),
      CreateChainParams k chain = Outcome.value cp → specSizeInvariant cp) := by
  refine ⟨specSizeInvariant_main k, specSizeInvariant_test k, specSizeInvariant_regtest k, ?_⟩
  intro chain cp h
  rcases CreateChainParams_value k chain cp h with ⟨_, rfl⟩ | ⟨_, rfl⟩ | ⟨_, rfl⟩
  · exact specSizeInvariant_main k
  · exact specSizeInvariant_test k
  · exact specSizeInvariant_regtest k

/-- The size invariant on the object created for the test network. -/
theorem builtin_size_invariant_witness :
    specSizeInvariant (CTestNetParams exampleBuildConstants) :=
  (builtin_size_invariant exampleBuildConstants).2.2.2 "test" (CTestNetParams exampleBuildConstants)
    rfl

/-- C23: `CreateChainParams(chain)` throws if and only if `chain` is not one of
`main`, `test`, `regtest`; an object it returns has `chain` as its network
identifier; and for each of the three identifiers, the genesis assertions of the
constructor holding, it returns the object of that network. -/
theorem CreateChainParams_identifiers (k : BuildConstants) (chain : String) :
    ((∃ e, CreateChainParams k chain = Outcome.thrown e) ↔
      (chain ≠ "main" ∧ chain ≠ "test" ∧ chain ≠ "regtest")) ∧
    (∀ cp, CreateChainParams k chain = Outcome.value cp → cp.strNetworkID = chain) ∧
    (chain = "main" → k.mainGenesisMatches = true →
      CreateChainParams k chain = Outcome.value (CMainParams k) ∧
        (CMainParams k).strNetworkID = chain) ∧
    (chain = "test" → k.testGenesisMatches = true →
      CreateChainParams k chain = Outcome.value (CTestNetParams k) ∧
        (CTestNetParams k).strNetworkID = chain) ∧
    (chain = "regtest" → k.regTestGenesisMatches = true →
      CreateChainParams k chain = Outcome.value (CRegTestParams k) ∧
        (CRegTestParams k).strNetworkID = chain) := by
  refine ⟨?_, ?_, ?_, ?_, ?_⟩
  · unfold CreateChainParams constructChainParams CBaseChainParams.MAIN CBaseChainParams.TESTNET
      CBaseChainParams.REGTEST
    constructor
    · rintro ⟨e, he⟩
      refine ⟨?_, ?_, ?_⟩
      · intro h1
        rw [if_pos h1] at he
        split at he <;> exact absurd he (by simp)
      · intro h2
        by_cases h1 : chain = "main"
        · rw [if_pos h1] at he
          split at he <;> exact absurd he (by simp)
        · rw [if_neg h1, if_pos h2] at he
          split at he <;> exact absurd he (by simp)
      · intro h3
        by_cases h1 : chain = "main"
        · rw [if_pos h1] at he
          split at he <;> exact absurd he (by simp)
        · by_cases h2 : chain = "test"
          · rw [if_neg h1, if_pos h2] at he
            split at he <;> exact absurd he (by simp)
          · rw [if_neg h1, if_neg h2, if_pos h3] at he
            split at he <;> exact absurd he (by simp)
    · rintro ⟨h1, h2, h3⟩
      exact ⟨ChainParamsError.unknownChain, by rw [if_neg h1, if_neg h2, if_neg h3]⟩
  · intro cp h
    rcases CreateChainParams_value k chain cp h with ⟨hc, rfl⟩ | ⟨hc, rfl⟩ | ⟨hc, rfl⟩ <;>
      exact hc.symm
  · intro hc hg
    subst hc
    exact ⟨by simp [CreateChainParams, constructChainParams, CBaseChainParams.MAIN, hg], rfl⟩
  · intro hc hg
    subst hc
    exact ⟨by simp [CreateChainParams, constructChainParams, CBaseChainParams.MAIN,
      CBaseChainParams.TESTNET, hg], rfl⟩
  · intro hc hg
    subst hc
    exact ⟨by simp [CreateChainParams, constructChainParams, CBaseChainParams.MAIN,
      CBaseChainParams.TESTNET, CBaseChainParams.REGTEST, hg], rfl⟩

/-- The object created for `regtest`, and the error for `signet`. -/
theorem CreateChainParams_identifiers_witness :
    (CreateChainParams exampleBuildConstants "regtest" =
        Outcome.value (CRegTestParams exampleBuildConstants) ∧
      (CRegTestParams exampleBuildConstants).strNetworkID = "regtest") ∧
    ∃ e, CreateChainParams exampleBuildConstants "signet" = Outcome.thrown e :=
  ⟨(CreateChainParams_identifiers exampleBuildConstants "regtest").2.2.2.2 rfl rfl,
    (CreateChainParams_identifiers exampleBuildConstants "signet").1.2
      ⟨by decide, by decide, by decide⟩⟩

/-! ### `CheckEquihashSolution` -/

/-- C25: for every chain with `height > N` and retargeting on, a compact value
returned by `CalculateNextWorkRequired` decodes with the negative and overflow
flags clear to a target that is at most the post-fork ceiling, so that
`CheckProofOfWork` with `postfork = true` rejects it in its range check only
when the decoded target is zero, and otherwise compares the hash with the
target; nothing is assumed about the 256-bit products, which may wrap; and the
function does return a value when neither `k * N` nor `dnorm` is zero. -/
theorem lwma_result_within_ceiling (c : Chain) (params : Params)
    (hno : params.fPowNoRetargeting = false)
    (hN : (c.nHeight : Int) + 1 > params.nZawyLwmaAveragingWindow) :
    (∀ bits, CalculateNextWorkRequired c params = some bits →
      (SetCompact bits).fNegative = false ∧ (SetCompact bits).fOverflow = false ∧
      (SetCompact bits).value ≤ UintToArith256 (params.PowLimit true) ∧
      ((SetCompact bits).value ≠ 0 → ∀ hash, CheckProofOfWork hash bits true params =
        decide (UintToArith256 hash ≤ (SetCompact bits).value)) ∧
      ((SetCompact bits).value = 0 → ∀ hash, CheckProofOfWork hash bits true params = false)) ∧
    (lwmaDivisor params ≠ 0 → params.nZawyLwmaMinDenominator ≠ 0 →
      ∃ bits, CalculateNextWorkRequired c params = some bits) := by
  constructor
  · intro bits hbits
    unfold CalculateNextWorkRequired at hbits
    rw [hno] at hbits
    simp only [Bool.false_eq_true, if_false, hN, not_true_eq_false] at hbits
    cases hw : lwmaWindow c params with
    | none =>
      rw [hw] at hbits
      exact absurd hbits (by simp)
    | some s =>
      rw [hw] at hbits
      simp only at hbits
      split at hbits
      · exact absurd hbits (by simp)
      · have hb : bits = GetCompact (finalNextTarget c params s) := (Option.some.inj hbits).symm
        obtain ⟨hle, hneg, hov⟩ :=
          decode_encode_le (finalNextTarget c params s) (finalNextTarget_lt c params s)
        have hceil : finalNextTarget c params s ≤ UintToArith256 (params.PowLimit true) := by
          unfold finalNextTarget
          exact clampPowLimit_le_limit _ _
        rw [← hb] at hle hneg hov
        have hval : (SetCompact bits).value ≤ UintToArith256 (params.PowLimit true) :=
          le_trans hle hceil
        refine ⟨hneg, hov, hval, ?_, ?_⟩
        · intro hnz hash
          unfold CheckProofOfWork
          simp only [hneg, hov, hnz, Bool.false_or, Bool.or_false, decide_False]
          have hgt : ¬ ((SetCompact bits).value > UintToArith256 (params.PowLimit true)) := by
            omega
          simp only [hgt, decide_False, Bool.false_eq_true, if_false]
          by_cases hh : UintToArith256 hash > (SetCompact bits).value
          · rw [if_pos hh]
            symm
            rw [decide_eq_false_iff_not]
            omega
          · rw [if_neg hh]
            symm
            rw [decide_eq_true_iff]
            omega
        · intro hz hash
          unfold CheckProofOfWork
          simp [hz]
  · intro hdiv hdn
    exact ⟨_, CalculateNextWorkRequired_eq c params hno hN hdiv hdn⟩

/-- On `wrapChain` with `wrapParams`, where the weighted sum leaves the range
of `int`, the function returns a value that decodes to a target within the
ceiling. -/
theorem lwma_result_within_ceiling_witness :
    (∃ bits, CalculateNextWorkRequired wrapChain wrapParams = some bits) ∧
    (∀ bits, CalculateNextWorkRequired wrapChain wrapParams = some bits →
      (SetCompact bits).value ≤ UintToArith256 (wrapParams.PowLimit true)) :=
  ⟨(lwma_result_within_ceiling wrapChain wrapParams rfl (by decide)).2 (by decide) (by decide),
    fun bits hbits =>
      ((lwma_result_within_ceiling wrapChain wrapParams rfl (by decide)).1 bits hbits).2.2.1⟩

/-! ### The ancestors requested by the loop -/

/-- C26: for every parameter set with `forkHeight ≥ 0`, `premineWindowLength ≥
1` and `regularMiningHeight = forkHeight + premineWindowLength` (whatever the
window `N` is, `N ≥ 1` included), and every chain tip that passes the warm-up
test of `GetNextWorkRequired` (as it does whenever the LWMA call is reached),
the assertion `height > N` holds; every
height `i` of the loop, `height - N ≤ i < height`, has `0 ≤ i - 1` and
`i ≤` tip height, so both ancestor lookups find a block, each iteration of the
loop completes when `k * N` is not zero, and so does the whole loop; and when
the other three tests fail too, the result of `GetNextWorkRequired` is that of
`CalculateNextWorkRequired`. -/
theorem lwma_call_ancestors_in_range (c : Chain) (pblock : CBlockHeader) (params : Params)
    (hfork : 0 ≤ params.BCRMHeight) (hwin : 1 ≤ params.BCRMPremineWindow)
    (hreg : params.BCRMHeightRegular = params.BCRMHeight + params.BCRMPremineWindow)
    (hwarm : ¬ ((c.nHeight : Int) + 1 <
      params.BCRMHeightRegular + params.nZawyLwmaAveragingWindow)) :
    (c.nHeight : Int) + 1 > params.nZawyLwmaAveragingWindow ∧
    (∀ i : Int, (c.nHeight : Int) + 1 - params.nZawyLwmaAveragingWindow ≤ i →
      i < (c.nHeight : Int) + 1 →
      (0 ≤ i - 1 ∧ i ≤ c.nHeight) ∧
      c.GetAncestor i = some (c.block i.toNat) ∧
      c.GetAncestor (i - 1) = some (c.block (i - 1).toNat) ∧
      (lwmaDivisor params ≠ 0 → ∀ s, ∃ s1,
        lwmaStep c params ((c.nHeight : Int) + 1) i s = some s1)) ∧
    (lwmaDivisor params ≠ 0 → ∃ s, lwmaWindow c params = some s) ∧
    (¬ ((c.nHeight : Int) + 1 < params.BCRMHeight) →
      ¬ ((c.nHeight : Int) + 1 < params.BCRMHeightRegular) →
      ¬ (params.fPowAllowMinDifficultyBlocks ∧
        pblock.GetBlockTime > c.tip.GetBlockTime + params.nPowTargetSpacing * 20) →
      GetNextWorkRequired c pblock params = CalculateNextWorkRequired c params) := by
  have hgt : (c.nHeight : Int) + 1 > params.nZawyLwmaAveragingWindow := by omega
  refine ⟨hgt, ?_, ?_, ?_⟩
  · intro i hlo hhi
    have h1 : c.GetAncestor i = some (c.block i.toNat) :=
      GetAncestor_of_range c i (by omega) (by omega)
    have h2 : c.GetAncestor (i - 1) = some (c.block (i - 1).toNat) :=
      GetAncestor_of_range c (i - 1) (by omega) (by omega)
    refine ⟨⟨by omega, by omega⟩, h1, h2, ?_⟩
    intro hdiv s
    unfold lwmaStep
    rw [h1, h2]
    have hd : toUint64 (toInt32 (params.nZawyLwmaAdjustedWeight *
        params.nZawyLwmaAveragingWindow)) ≠ 0 := hdiv
    simp only [hd, if_false]
    exact ⟨_, rfl⟩
  · intro hdiv
    exact ⟨_, lwmaWindow_eq_sums c params hgt hdiv⟩
  · intro h1 h2 h4
    unfold GetNextWorkRequired
    simp only [h1, h2, hwarm, h4, if_false]

/-- On the steady chain of height 200 with the constants of the main network
the loop completes. -/
theorem lwma_call_ancestors_in_range_witness :
    ∃ s, lwmaWindow (steadyChain 200 0x1d00ffff) exampleParams = some s :=
  (lwma_call_ancestors_in_range (steadyChain 200 0x1d00ffff) { nTime := 1012060 } exampleParams
    (by decide) (by decide) (by decide) (by decide)).2.2.1 (by decide)

/-! ### The range of the weighted time -/

theorem limitedSolvetime_bounds (T FTL solvetime : Int) (hint : -FTL ≤ 6 * T) :
    -FTL ≤ limitedSolvetime T FTL true solvetime ∧
      limitedSolvetime T FTL true solvetime ≤ 6 * T := by
  unfold limitedSolvetime
  simp only [if_true]
  split
  · omega
  · split <;> omega

theorem solvetimeAt_bounds (c : Chain) (params : Params)
    (hlim : params.fZawyLwmaSolvetimeLimitation = true)
    (hint : -params.BCRMMaxFutureBlockTime ≤ 6 * params.nPowTargetSpacing) (i : Int) :
    -params.BCRMMaxFutureBlockTime ≤ solvetimeAt c params i ∧
      solvetimeAt c params i ≤ 6 * params.nPowTargetSpacing := by
  unfold solvetimeAt
  rw [hlim]
  exact limitedSolvetime_bounds _ _ _ hint

/-- Twice the weighted sum of `n` limited solve times lies between
`-FTL * n * (n + 1)` and `6 * T * n * (n + 1)`. -/
theorem weightedSolvetimes_bounds (c : Chain) (params : Params) (base : Int)
    (hlim : params.fZawyLwmaSolvetimeLimitation = true)
    (hint : -params.BCRMMaxFutureBlockTime ≤ 6 * params.nPowTargetSpacing) :
    ∀ n : Nat,
      -params.BCRMMaxFutureBlockTime * ((n : Int) * (n + 1)) ≤
          2 * weightedSolvetimes c params base n ∧
        2 * weightedSolvetimes c params base n ≤
          6 * params.nPowTargetSpacing * ((n : Int) * (n + 1)) := by
  intro n
  induction n with
  | zero => simp [weightedSolvetimes]
  | succ n ih =>
    obtain ⟨hs1, hs2⟩ := solvetimeAt_bounds c params hlim hint (base + n)
    have hpos : (0 : Int) ≤ (n : Int) + 1 := by omega
    have m1 := mul_le_mul_of_nonneg_right hs1 hpos
    have m2 := mul_le_mul_of_nonneg_right hs2 hpos
    simp only [weightedSolvetimes]
    push_cast
    constructor
    · nlinarith [ih.1, m1]
    · nlinarith [ih.2, m2]

/-- C27: with the solve-time limitation enabled and a non-empty interval
`[-FTL, 6 * T]`, every limited solve time lies in that interval and the weighted
sum of `n` of them lies between `-FTL * n * (n + 1) / 2` and
`6 * T * n * (n + 1) / 2`; for the built-in constants (`N = 90`, `T = 60`,
`FTL = 300`, `k = 245209`, `dnorm = 10`) and `height > N`, after every iteration
of the loop the `int` accumulator `t` holds the exact weighted sum, which lies in
`[-1228500, 1474200]`, and after the floor `t` is at least `k / dnorm = 24520`,
so that its conversion to the unsigned factor of `t * sum_target` keeps its
value. -/
theorem weighted_time_range (c : Chain) (params : Params)
    (hlim : params.fZawyLwmaSolvetimeLimitation = true)
    (hint : -params.BCRMMaxFutureBlockTime ≤ 6 * params.nPowTargetSpacing) :
    (∀ i : Int, -params.BCRMMaxFutureBlockTime ≤ solvetimeAt c params i ∧
      solvetimeAt c params i ≤ 6 * params.nPowTargetSpacing) ∧
    (∀ (base : Int) (n : Nat),
      -params.BCRMMaxFutureBlockTime * n * (n + 1) / 2 ≤ weightedSolvetimes c params base n ∧
      weightedSolvetimes c params base n ≤ 6 * params.nPowTargetSpacing * n * (n + 1) / 2) ∧
    (params.nZawyLwmaAveragingWindow = 90 → params.nPowTargetSpacing = 60 →
      params.BCRMMaxFutureBlockTime = 300 → params.nZawyLwmaAdjustedWeight = 245209 →
      params.nZawyLwmaMinDenominator = 10 →
      (c.nHeight : Int) + 1 > params.nZawyLwmaAveragingWindow →
      (-params.BCRMMaxFutureBlockTime * 90 * (90 + 1) / 2 = -1228500 ∧
        6 * params.nPowTargetSpacing * 90 * (90 + 1) / 2 = 1474200) ∧
      (∀ n : Nat, n ≤ 90 →
        ∃ s, lwmaLoop c params ((c.nHeight : Int) + 1) n ((c.nHeight : Int) + 1 - 90)
            { t := 0, j := 0, sum_3_st := 0, sum_target := 0 } = some s ∧
          s.t = weightedSolvetimes c params ((c.nHeight : Int) + 1 - 90) n ∧
          -1228500 ≤ s.t ∧ s.t ≤ 1474200 ∧ -2 ^ 31 ≤ s.t ∧ s.t < 2 ^ 31) ∧
      (∃ s, lwmaWindow c params = some s ∧
        s.t = weightedSolvetimes c params ((c.nHeight : Int) + 1 - 90) 90 ∧
        params.nZawyLwmaAdjustedWeight.tdiv params.nZawyLwmaMinDenominator = 24520 ∧
        24520 ≤ flooredT params s.t ∧ 0 < flooredT params s.t ∧
        (toUint64 (flooredT params s.t) : Int) = flooredT params s.t)) := by
  have hW : ∀ (base : Int) (n : Nat),
      -params.BCRMMaxFutureBlockTime * n * (n + 1) / 2 ≤ weightedSolvetimes c params base n ∧
      weightedSolvetimes c params base n ≤ 6 * params.nPowTargetSpacing * n * (n + 1) / 2 := by
    intro base n
    obtain ⟨h1, h2⟩ := weightedSolvetimes_bounds c params base hlim hint n
    have e1 : -params.BCRMMaxFutureBlockTime * n * (n + 1) =
        -params.BCRMMaxFutureBlockTime * ((n : Int) * (n + 1)) := by ring
    have e2 : 6 * params.nPowTargetSpacing * n * (n + 1) =
        6 * params.nPowTargetSpacing * ((n : Int) * (n + 1)) := by ring
    rw [e1, e2]
    constructor
    · omega
    · omega
  refine ⟨solvetimeAt_bounds c params hlim hint, hW, ?_⟩
  intro hN hT hFTL hk hd hh
  have hdiv : lwmaDivisor params ≠ 0 :=
    lwmaDivisor_ne_zero params (by rw [hk]; decide) (by rw [hN]; decide)
      (by rw [hk, hN]; decide)
  have hrun : ∀ n : Nat, n ≤ 90 →
      -1228500 ≤ weightedSolvetimes c params ((c.nHeight : Int) + 1 - 90) n ∧
        weightedSolvetimes c params ((c.nHeight : Int) + 1 - 90) n ≤ 1474200 := by
    intro n hn
    obtain ⟨h1, h2⟩ := weightedSolvetimes_bounds c params ((c.nHeight : Int) + 1 - 90) hlim hint n
    rw [hFTL] at h1
    rw [hT] at h2
    have hnn : n * (n + 1) ≤ 90 * 91 := Nat.mul_le_mul hn (by omega)
    have hnnZ : ((n : Int) * (n + 1)) ≤ 8190 := by
      have : ((n * (n + 1) : Nat) : Int) ≤ ((90 * 91 : Nat) : Int) := Int.ofNat_le.2 hnn
      push_cast at this
      omega
    have hnn0 : (0 : Int) ≤ (n : Int) * (n + 1) := by positivity
    generalize (n : Int) * (n + 1) = q at h1 h2 hnnZ hnn0
    constructor <;> omega
  refine ⟨⟨by rw [hFTL]; decide, by rw [hT]; decide⟩, ?_, ?_⟩
  · intro n hn
    have hloop := lwmaLoop_stateAfter c params ((c.nHeight : Int) + 1)
      ((c.nHeight : Int) + 1 - 90) hdiv (by omega) n 0 (by push_cast; omega)
    rw [lwmaStateAfter_zero, Nat.zero_add] at hloop
    simp only [Nat.cast_zero, add_zero] at hloop
    obtain ⟨hr1, hr2⟩ := hrun n hn
    have ht : (lwmaStateAfter c params ((c.nHeight : Int) + 1) ((c.nHeight : Int) + 1 - 90) n).t =
        weightedSolvetimes c params ((c.nHeight : Int) + 1 - 90) n := by
      show toInt32 _ = _
      exact toInt32_of_range _ (by omega) (by omega)
    refine ⟨_, hloop, ht, ?_, ?_, ?_, ?_⟩ <;> rw [ht] <;> omega
  · obtain ⟨hr1, hr2⟩ := hrun 90 (le_refl 90)
    have hw := lwmaWindow_eq c params hh hdiv
    have h90 : (90 : Int).toNat = 90 := rfl
    rw [hN, h90] at hw
    have ht : (lwmaStateAfter c params ((c.nHeight : Int) + 1) ((c.nHeight : Int) + 1 - 90)
        90).t = weightedSolvetimes c params ((c.nHeight : Int) + 1 - 90) 90 := by
      show toInt32 _ = _
      exact toInt32_of_range _ (by omega) (by omega)
    have hq : params.nZawyLwmaAdjustedWeight.tdiv params.nZawyLwmaMinDenominator = 24520 := by
      rw [hk, hd]
      decide
    have hfl : 24520 ≤ flooredT params (weightedSolvetimes c params
        ((c.nHeight : Int) + 1 - 90) 90) ∧ flooredT params (weightedSolvetimes c params
        ((c.nHeight : Int) + 1 - 90) 90) ≤ 1474200 := by
      unfold flooredT
      simp only [hq]
      split <;> omega
    refine ⟨_, hw, ht, hq, ?_, ?_, ?_⟩
    · rw [ht]
      exact hfl.1
    · rw [ht]
      omega
    · rw [ht, toUint64_of_range _ (by omega) (by omega)]
      exact Int.toNat_of_nonneg (by omega)

/-- The constants of the main network on the steady chain of height 200: the
loop completes with the exact weighted sum and the floored time is at least
24520. -/
theorem weighted_time_range_witness :
    ∃ s, lwmaWindow (steadyChain 200 0x1d00ffff) (CMainParams exampleBuildConstants).consensus =
        some s ∧
      s.t = weightedSolvetimes (steadyChain 200 0x1d00ffff)
        (CMainParams exampleBuildConstants).consensus
        (((steadyChain 200 0x1d00ffff).nHeight : Int) + 1 - 90) 90 ∧
      (CMainParams exampleBuildConstants).consensus.nZawyLwmaAdjustedWeight.tdiv
        (CMainParams exampleBuildConstants).consensus.nZawyLwmaMinDenominator = 24520 ∧
      24520 ≤ flooredT (CMainParams exampleBuildConstants).consensus s.t ∧
      0 < flooredT (CMainParams exampleBuildConstants).consensus s.t ∧
      (toUint64 (flooredT (CMainParams exampleBuildConstants).consensus s.t) : Int) =
        flooredT (CMainParams exampleBuildConstants).consensus s.t :=
  ((weighted_time_range (steadyChain 200 0x1d00ffff) (CMainParams exampleBuildConstants).consensus
    rfl (by decide)).2.2 rfl rfl rfl rfl rfl (by decide)).2.2

/-! ### The premine group of the genesis height -/

theorem premineBlockIndex_genesis (cp : CChainParams) (hfork : cp.consensus.BCRMHeight = 0) :
    premineBlockIndex cp 0 = -1 := by
  unfold premineBlockIndex
  rw [hfork]
  decide

/-- With `BCRMHeight = 0` and more than one group, height 0 selects the group
at index `(2 ^ 64 - 1) mod |groups|`. -/
theorem selectedPremineGroup_genesis (cp : CChainParams) (hfork : cp.consensus.BCRMHeight = 0)
    (hn : 1 < cp.vPreminePubkeys.length) :
    selectedPremineGroup cp 0 =
      cp.vPreminePubkeys[(2 ^ 64 - 1) % cp.vPreminePubkeys.length]? := by
  have hu : toUint64 (premineBlockIndex cp 0) = 2 ^ 64 - 1 := by
    rw [premineBlockIndex_genesis cp hfork]
    decide
  unfold selectedPremineGroup
  rw [if_pos hn, hu]

theorem selectedPremineGroup_genesis_main (k : BuildConstants) :
    (CMainParams k).vPreminePubkeys.length = 20 ∧
      (2 ^ 64 - 1) % (CMainParams k).vPreminePubkeys.length = 15 ∧
      selectedPremineGroup (CMainParams k) 0 = (CMainParams k).vPreminePubkeys[15]? := by
  have hlen : (CMainParams k).vPreminePubkeys.length = 20 := by
    show mainPreminePubkeys.length = 20
    decide
  have hmod : (2 ^ 64 - 1) % 20 = 15 := by norm_num
  refine ⟨hlen, by rw [hlen, hmod], ?_⟩
  rw [selectedPremineGroup_genesis (CMainParams k) rfl (by rw [hlen]; decide), hlen, hmod]

theorem selectedPremineGroup_genesis_test (k : BuildConstants) :
    (CTestNetParams k).vPreminePubkeys.length = 20 ∧
      (2 ^ 64 - 1) % (CTestNetParams k).vPreminePubkeys.length = 15 ∧
      selectedPremineGroup (CTestNetParams k) 0 = (CTestNetParams k).vPreminePubkeys[15]? := by
  have hlen : (CTestNetParams k).vPreminePubkeys.length = 20 := by
    show testPreminePubkeys.length = 20
    decide
  have hmod : (2 ^ 64 - 1) % 20 = 15 := by norm_num
  refine ⟨hlen, by rw [hlen, hmod], ?_⟩
  rw [selectedPremineGroup_genesis (CTestNetParams k) rfl (by rw [hlen]; decide), hlen, hmod]

theorem selectedPremineGroup_genesis_regtest (k : BuildConstants) :
    (CRegTestParams k).vPreminePubkeys.length = 3 ∧
      (2 ^ 64 - 1) % (CRegTestParams k).vPreminePubkeys.length = 0 ∧
      selectedPremineGroup (CRegTestParams k) 0 = (CRegTestParams k).vPreminePubkeys[0]? := by
  have hlen : (CRegTestParams k).vPreminePubkeys.length = 3 := by
    show regTestPreminePubkeys.length = 3
    decide
  have hmod : (2 ^ 64 - 1) % 3 = 0 := by norm_num
  refine ⟨hlen, by rw [hlen, hmod], ?_⟩
  rw [selectedPremineGroup_genesis (CRegTestParams k) rfl (by rw [hlen]; decide), hlen, hmod]

/-- C28: for `forkHeight = 0` and more than one premine group, at height 0 the
variable `block` is `-1`, its conversion to 64 unsigned bits is `2 ^ 64 - 1`, and
the group selected is the one at index `(2 ^ 64 - 1) mod |groups|`; height 0
passes the window assertion when `regularMiningHeight` is positive, so that with
at most 100 groups `IsPremineAddressScript` goes on to check that group; for
every height the index is strictly less than `|groups|` and a group is selected;
and for the built-in networks the index at height 0 is 15 for the 20 groups of
main and of test and 0 for the 3 groups of regtest, not `|groups| - 1`. -/
theorem premine_genesis_group_index (k : BuildConstants) (cp : CChainParams)
    (hfork : cp.consensus.BCRMHeight = 0) (hn : 1 < cp.vPreminePubkeys.length) :
    premineBlockIndex cp 0 = -1 ∧
    toUint64 (premineBlockIndex cp 0) = 2 ^ 64 - 1 ∧
    selectedPremineGroup cp 0 = cp.vPreminePubkeys[(2 ^ 64 - 1) % cp.vPreminePubkeys.length]? ∧
    (∀ {Script : Type} [DecidableEq Script] (ops : ScriptOps Script) (scriptPubKey : Script),
      0 < toUint32 cp.consensus.BCRMHeightRegular → cp.vPreminePubkeys.length ≤ 100 →
      IsPremineAddressScript ops cp scriptPubKey 0 =
        match cp.vPreminePubkeys[(2 ^ 64 - 1) % cp.vPreminePubkeys.length]? with
        | some pubkeys => checkPremineGroup ops pubkeys scriptPubKey
        | none => Outcome.aborted) ∧
    (∀ height : Nat,
      toUint64 (premineBlockIndex cp height) % cp.vPreminePubkeys.length <
        cp.vPreminePubkeys.length ∧
      ∃ pubkeys, selectedPremineGroup cp height = some pubkeys ∧
        cp.vPreminePubkeys[toUint64 (premineBlockIndex cp height) %
          cp.vPreminePubkeys.length]? = some pubkeys) ∧
    ((CMainParams k).consensus.BCRMHeight = 0 ∧ (CMainParams k).vPreminePubkeys.length = 20 ∧
      (2 ^ 64 - 1) % (CMainParams k).vPreminePubkeys.length = 15 ∧
      selectedPremineGroup (CMainParams k) 0 = (CMainParams k).vPreminePubkeys[15]?) ∧
    ((CTestNetParams k).consensus.BCRMHeight = 0 ∧
      (CTestNetParams k).vPreminePubkeys.length = 20 ∧
      (2 ^ 64 - 1) % (CTestNetParams k).vPreminePubkeys.length = 15 ∧
      selectedPremineGroup (CTestNetParams k) 0 = (CTestNetParams k).vPreminePubkeys[15]?) ∧
    ((CRegTestParams k).consensus.BCRMHeight = 0 ∧
      (CRegTestParams k).vPreminePubkeys.length = 3 ∧
      (2 ^ 64 - 1) % (CRegTestParams k).vPreminePubkeys.length = 0 ∧
      selectedPremineGroup (CRegTestParams k) 0 = (CRegTestParams k).vPreminePubkeys[0]?) := by
  have hblock : premineBlockIndex cp 0 = -1 := premineBlockIndex_genesis cp hfork
  have hu : toUint64 (premineBlockIndex cp 0) = 2 ^ 64 - 1 := by
    rw [hblock]
    decide
  have hsel : selectedPremineGroup cp 0 =
      cp.vPreminePubkeys[(2 ^ 64 - 1) % cp.vPreminePubkeys.length]? :=
    selectedPremineGroup_genesis cp hfork hn
  refine ⟨hblock, hu, hsel, ?_, ?_, ?_, ?_, ?_⟩
  · intro Script _ ops scriptPubKey hreg h100
    unfold IsPremineAddressScript
    rw [hfork, hsel]
    have hz : toUint32 0 = 0 := by decide
    have ha : toUint32 0 ≤ 0 ∧ 0 < toUint32 cp.consensus.BCRMHeightRegular := by
      rw [hz]
      exact ⟨le_refl 0, hreg⟩
    have hb : cp.vPreminePubkeys.length > 0 ∧ cp.vPreminePubkeys.length < 101 := by omega
    simp only [ha, hb, and_self, not_true_eq_false, if_false]
  · intro height
    have hlt : toUint64 (premineBlockIndex cp height) % cp.vPreminePubkeys.length <
        cp.vPreminePubkeys.length := Nat.mod_lt _ (by omega)
    refine ⟨hlt, cp.vPreminePubkeys.get ⟨_, hlt⟩, ?_, ?_⟩
    · unfold selectedPremineGroup
      rw [if_pos hn]
      exact List.getElem?_eq_getElem hlt
    · exact List.getElem?_eq_getElem hlt
  · exact ⟨rfl, selectedPremineGroup_genesis_main k⟩
  · exact ⟨rfl, selectedPremineGroup_genesis_test k⟩
  · exact ⟨rfl, selectedPremineGroup_genesis_regtest k⟩

/-- The main network at height 0: `block` is `-1` and the group selected is the
one at index 15. -/
theorem premine_genesis_group_index_witness :
    premineBlockIndex (CMainParams exampleBuildConstants) 0 = -1 ∧
    toUint64 (premineBlockIndex (CMainParams exampleBuildConstants) 0) = 2 ^ 64 - 1 ∧
    selectedPremineGroup (CMainParams exampleBuildConstants) 0 =
      (CMainParams exampleBuildConstants).vPreminePubkeys[(2 ^ 64 - 1) %
        (CMainParams exampleBuildConstants).vPreminePubkeys.length]? :=
  ⟨(premine_genesis_group_index exampleBuildConstants (CMainParams exampleBuildConstants)
      rfl (by decide)).1,
    (premine_genesis_group_index exampleBuildConstants (CMainParams exampleBuildConstants)
      rfl (by decide)).2.1,
    (premine_genesis_group_index exampleBuildConstants (CMainParams exampleBuildConstants)
      rfl (by decide)).2.2.1⟩

/-! ### The signature count never exceeds the key count -/

/-- C29: for every premine group of `n` entries with `2 ≤ n ≤ 100`, the
signature count computed by `IsPremineAddressScript` satisfies `2 ≤ num_sigs ≤
n`, its conversion to the `uint32_t` argument of `CltvMultiSigScript` keeps its
value, and the redeem script built from it holds a threshold that is at most the
number of keys that follow it. -/
theorem premine_num_sigs_bounds (pubkeys : List String)
    (h2 : 2 ≤ pubkeys.length) (h100 : pubkeys.length ≤ 100) :
    2 ≤ requiredSignatures pubkeys.length ∧
    requiredSignatures pubkeys.length ≤ pubkeys.length ∧
    (toUint32 (requiredSignatures pubkeys.length) : Int) = requiredSignatures pubkeys.length ∧
    ∃ num_sigs : Nat, 2 ≤ num_sigs ∧ num_sigs ≤ (pubkeys.map ScriptItem.data).length ∧
      CltvMultiSigScript pubkeys 0 (toUint32 (requiredSignatures pubkeys.length)) =
        Outcome.value ([ScriptItem.number num_sigs] ++ pubkeys.map ScriptItem.data ++
          [ScriptItem.number pubkeys.length, ScriptItem.OP_CHECKMULTISIG]) := by
  obtain ⟨hb1, hb2⟩ := requiredSignatures_bounds pubkeys.length h2 h100
  have hu : toUint32 (requiredSignatures pubkeys.length) =
      (requiredSignatures pubkeys.length).toNat :=
    toUint32_of_range _ (by omega) (by omega)
  refine ⟨hb1, hb2, ?_, (requiredSignatures pubkeys.length).toNat, by omega, ?_, ?_⟩
  · rw [hu]
    exact Int.toNat_of_nonneg (by omega)
  · rw [List.length_map]
    omega
  · rw [hu]
    unfold CltvMultiSigScript
    have hlen : pubkeys.length > 0 ∧ pubkeys.length < 101 := by omega
    have hpos : (requiredSignatures pubkeys.length).toNat > 0 := by omega
    simp [hlen, hpos]

/-- A group of six keys: the count is 4, between 2 and 6. -/
theorem premine_num_sigs_bounds_witness :
    2 ≤ requiredSignatures (["02a", "02b", "02c", "03d", "03e", "03f"] : List String).length ∧
    requiredSignatures (["02a", "02b", "02c", "03d", "03e", "03f"] : List String).length ≤
      ((["02a", "02b", "02c", "03d", "03e", "03f"] : List String).length : Int) :=
  ⟨(premine_num_sigs_bounds ["02a", "02b", "02c", "03d", "03e", "03f"]
      (by decide) (by decide)).1,
    (premine_num_sigs_bounds ["02a", "02b", "02c", "03d", "03e", "03f"]
      (by decide) (by decide)).2.1⟩

/-! ### The built-in networks never use the legacy algorithm -/

theorem lwmaLoop_powLimitLegacy (c : Chain) (params : Params) (x : Nat) (height : Int) :
    ∀ (n : Nat) (i : Int) (s : LwmaState),
      lwmaLoop c { params with powLimitLegacy := x } height n i s =
        lwmaLoop c params height n i s := by
  intro n
  induction n with
  | zero =>
    intro i s
    rfl
  | succ n ih =>
    intro i s
    have hstep : lwmaStep c { params with powLimitLegacy := x } height i s =
        lwmaStep c params height i s := rfl
    simp only [lwmaLoop, hstep]
    cases lwmaStep c params height i s with
    | none => rfl
    | some s1 => exact ih (i + 1) s1

theorem CalculateNextWorkRequired_powLimitLegacy (c : Chain) (params : Params) (x : Nat) :
    CalculateNextWorkRequired c { params with powLimitLegacy := x } =
      CalculateNextWorkRequired c params := by
  have hw : lwmaWindow c { params with powLimitLegacy := x } = lwmaWindow c params := by
    unfold lwmaWindow
    exact lwmaLoop_powLimitLegacy c params x _ _ _ _
  have hf : ∀ s, finalNextTarget c { params with powLimitLegacy := x } s =
      finalNextTarget c params s := fun _ => rfl
  unfold CalculateNextWorkRequired
  rw [hw]
  simp only [hf]

/-- When `BCRMHeight ≤ 1` the first test of `GetNextWorkRequired` fails for every
chain tip, the result is that of the remaining four branches, and it does not
depend on `powLimitLegacy`. -/
theorem GetNextWorkRequired_not_legacy (c : Chain) (pblock : CBlockHeader) (params : Params)
    (hfork : params.BCRMHeight ≤ 1) :
    ¬ ((c.nHeight : Int) + 1 < params.BCRMHeight) ∧
    GetNextWorkRequired c pblock params =
      (if (c.nHeight : Int) + 1 < params.BCRMHeightRegular then
        some (GetCompact (UintToArith256 (params.PowLimit true)))
      else if (c.nHeight : Int) + 1 <
          params.BCRMHeightRegular + params.nZawyLwmaAveragingWindow then
        some (GetCompact (UintToArith256 params.powLimitStart))
      else if params.fPowAllowMinDifficultyBlocks ∧
          pblock.GetBlockTime > c.tip.GetBlockTime + params.nPowTargetSpacing * 20 then
        some (GetCompact (UintToArith256 (params.PowLimit true)))
      else CalculateNextWorkRequired c params) ∧
    ∀ x : Nat, GetNextWorkRequired c pblock { params with powLimitLegacy := x } =
      GetNextWorkRequired c pblock params := by
  have h1 : ¬ ((c.nHeight : Int) + 1 < params.BCRMHeight) := by omega
  refine ⟨h1, ?_, ?_⟩
  · unfold GetNextWorkRequired
    simp only [h1, if_false]
  · intro x
    have hp : ∀ p : Params, p.PowLimit true = p.powLimit := fun _ => rfl
    unfold GetNextWorkRequired
    simp only [h1, if_false, hp, CalculateNextWorkRequired_powLimitLegacy]

/-- C30: for each of the three built-in networks `forkHeight` is 0, so for
every chain tip the first test of `GetNextWorkRequired` fails, its result is
that of the four remaining branches, none of which calls
`BitcoinGetNextWorkRequired` or `BitcoinCalculateNextWorkRequired`, and the
result is the same whatever value `powLimitLegacy` is given. -/
theorem builtin_never_legacy (k : BuildConstants) (c : Chain) (pblock : CBlockHeader) :
    ∀ cp ∈ [CMainParams k, CTestNetParams k, CRegTestParams k],
      cp.consensus.BCRMHeight = 0 ∧
      ¬ ((c.nHeight : Int) + 1 < cp.consensus.BCRMHeight) ∧
      GetNextWorkRequired c pblock cp.consensus =
        (if (c.nHeight : Int) + 1 < cp.consensus.BCRMHeightRegular then
          some (GetCompact (UintToArith256 (cp.consensus.PowLimit true)))
        else if (c.nHeight : Int) + 1 <
            cp.consensus.BCRMHeightRegular + cp.consensus.nZawyLwmaAveragingWindow then
          some (GetCompact (UintToArith256 cp.consensus.powLimitStart))
        else if cp.consensus.fPowAllowMinDifficultyBlocks ∧
            pblock.GetBlockTime > c.tip.GetBlockTime + cp.consensus.nPowTargetSpacing * 20 then
          some (GetCompact (UintToArith256 (cp.consensus.PowLimit true)))
        else CalculateNextWorkRequired c cp.consensus) ∧
      ∀ x : Nat, GetNextWorkRequired c pblock { cp.consensus with powLimitLegacy := x } =
        GetNextWorkRequired c pblock cp.consensus := by
  intro cp hcp
  have h0 : cp.consensus.BCRMHeight = 0 := by
    simp only [List.mem_cons, List.mem_singleton, List.not_mem_nil, or_false] at hcp
    rcases hcp with rfl | rfl | rfl <;> rfl
  exact ⟨h0, GetNextWorkRequired_not_legacy c pblock cp.consensus (by omega)⟩

/-- The main network on the steady chain of height 200: the result does not
change when `powLimitLegacy` is set to zero. -/
theorem builtin_never_legacy_witness :
    GetNextWorkRequired (steadyChain 200 0x1d00ffff) { nTime := 1012060 }
        { (CMainParams exampleBuildConstants).consensus with powLimitLegacy := 0 } =
      GetNextWorkRequired (steadyChain 200 0x1d00ffff) { nTime := 1012060 }
        (CMainParams exampleBuildConstants).consensus :=
  (builtin_never_legacy exampleBuildConstants (steadyChain 200 0x1d00ffff) { nTime := 1012060 }
    (CMainParams exampleBuildConstants) (by simp)).2.2.2 0

end BCRM
